import Mathlib

set_option maxRecDepth 100000

/-!
Shallow embedding of the TLV FRAM key/value store (Tlv_Fram_System).

The C sources embedded here are `src/tlv_core.c`, `src/tlv_index.c` and the
configuration headers (`tlv_config.h` v1.3.0, `tlv_types.h`).  The NVM device
is modelled as a total function from byte addresses to byte values; the port
layer threads an explicit failure oracle so that transport errors can be
injected.  Machine integers are Nat with explicit `% 2^32` (resp. `% 2^16`)
at the points where the C code can wrap.
-/

namespace TlvFram

/- ========================= configuration constants ========================= -/

def TLV_FRAM_SIZE : Nat := 128 * 1024

def TLV_MAX_TAG_COUNT : Nat := 256

def TLV_BUFFER_SIZE : Nat := 512

def TLV_HEADER_ADDR : Nat := 0x0000

def TLV_INDEX_ADDR : Nat := 0x0200

def TLV_DATA_ADDR : Nat := 0x1000

def TLV_BACKUP_ADDR : Nat := 0x1F000

/-- `TLV_DATA_REGION_SIZE` (size of the backed-up management area). -/
def TLV_DATA_REGION_SIZE : Nat := TLV_FRAM_SIZE - TLV_BACKUP_ADDR

def TLV_SYSTEM_MAGIC : Nat := 0x544C5646

def TLV_SYSTEM_VERSION : Nat := 0x0100

def TLV_AUTO_DEFRAG_THRESHOLD : Nat := 20

/-- 2^32, the modulus of the C `uint32_t` arithmetic. -/
def U32 : Nat := 4294967296

/-- 2^16, the modulus of the C `uint16_t` arithmetic. -/
def U16 : Nat := 65536

/-- Truncated `uint32_t` subtraction `a - b` (wraps modulo 2^32). -/
def sub32 (a b : Nat) : Nat := (a % U32 + (U32 - b % U32)) % U32

/-- `uint32_t` addition. -/
def add32 (a b : Nat) : Nat := (a + b) % U32

/- ============================= error codes ============================= -/

def TLV_OK : Int := 0

def TLV_ERROR : Int := -1

def TLV_ERROR_INVALID_PARAM : Int := -2

def TLV_ERROR_NO_BUFFER_MEMORY : Int := -3

def TLV_ERROR_NOT_FOUND : Int := -4

def TLV_ERROR_CRC_FAILED : Int := -5

def TLV_ERROR_VERSION : Int := -6

def TLV_ERROR_NO_MEMORY_SPACE : Int := -7

def TLV_ERROR_NO_INDEX_SPACE : Int := -8

def TLV_ERROR_CORRUPTED : Int := -9

/-- Modelled from the spec: the current `tlv_config.h` revision (the one that
matches `tlv_core.c`, missing from `src/`) also defines distinct codes for
invalid stream handles and invalid stream states. -/
def TLV_ERROR_INVALID_HANDLE : Int := -10

/-- Modelled from the spec: see `TLV_ERROR_INVALID_HANDLE`. -/
def TLV_ERROR_INVALID_STATE : Int := -11

/- ============================= flags ============================= -/

def TLV_FLAG_VALID : Nat := 0x01

def TLV_FLAG_DIRTY : Nat := 0x02

/- ============================= FRAM model ============================= -/

/-- The byte-addressable NVM device: a total map from address to byte. -/
def Fram : Type := Nat → Nat

/-- Overwrite the bytes `[addr, addr + bs.length)` with `bs`. -/
def framWriteBytes (f : Fram) (addr : Nat) (bs : List Nat) : Fram :=
  fun a => if addr ≤ a ∧ a < addr + bs.length then bs.getD (a - addr) 0 else f a

/-- Read `n` bytes starting at `addr`. -/
def framReadBytes (f : Fram) (addr n : Nat) : List Nat :=
  (List.range n).map (fun i => f (addr + i))

/-- Failure oracle for the transport layer: `wfail addr size` (resp. `rfail`)
says whether the NVM write (resp. read) of `size` bytes at `addr` fails. -/
structure Port where
  wfail : Nat → Nat → Bool
  rfail : Nat → Nat → Bool

/-- The always-succeeding transport. -/
def Port.ideal : Port := ⟨fun _ _ => false, fun _ _ => false⟩

/-- `tlv_port_fram_write` (port/tlv_port.c): rejects empty writes, maps any
transport failure to `TLV_ERROR`, otherwise patches the device contents. -/
def portWrite (p : Port) (f : Fram) (addr : Nat) (bs : List Nat) : Int × Fram :=
  if bs.length = 0 then (TLV_ERROR_INVALID_PARAM, f)
  else if p.wfail addr bs.length then (TLV_ERROR, f)
  else (TLV_OK, framWriteBytes f addr bs)

/-- `tlv_port_fram_read`: rejects empty reads, maps transport failure to
`TLV_ERROR` (the destination buffer contents are then unspecified; we return
zeros), otherwise returns the device bytes. -/
def portRead (p : Port) (f : Fram) (addr n : Nat) : Int × List Nat :=
  if n = 0 then (TLV_ERROR_INVALID_PARAM, List.replicate n 0)
  else if p.rfail addr n then (TLV_ERROR, List.replicate n 0)
  else (TLV_OK, framReadBytes f addr n)

/- ===================== little-endian field codec ===================== -/

/-- Little-endian 16-bit encode. -/
def le16 (n : Nat) : List Nat := [n % 256, n / 256 % 256]

/-- Little-endian 32-bit encode. -/
def le32 (n : Nat) : List Nat :=
  [n % 256, n / 256 % 256, n / 65536 % 256, n / 16777216 % 256]

/-- Little-endian 16-bit decode of bytes `i, i+1` of `bs`. -/
def dec16 (bs : List Nat) (i : Nat) : Nat := bs.getD i 0 + 256 * bs.getD (i + 1) 0

/-- Little-endian 32-bit decode of bytes `i..i+3` of `bs`. -/
def dec32 (bs : List Nat) (i : Nat) : Nat :=
  bs.getD i 0 + 256 * bs.getD (i + 1) 0 + 65536 * bs.getD (i + 2) 0 +
    16777216 * bs.getD (i + 3) 0

/- ============================= CRC-16 ============================= -/

/-- Modelled from the spec: the checksum unit (`tlv_utils.c`, missing from
`src/`; only its header is present) is a streaming CRC-16 with a fixed
polynomial.  We use the reflected polynomial 0xA001 with initial value
0xFFFF (CRC-16/MODBUS); the claims depend only on the function being a
deterministic 16-bit digest. -/
def crcStep (c : Nat) : Nat := if c % 2 = 1 then (c / 2) ^^^ 0xA001 else c / 2

/-- One byte of CRC-16 streaming update. -/
def crcByte (c b : Nat) : Nat := crcStep^[8] (c ^^^ (b % 256))

/-- `tlv_crc16_init`. -/
def tlv_crc16_init : Nat := 0xFFFF

/-- `tlv_crc16_update` over a byte list. -/
def tlv_crc16_update (c : Nat) (bs : List Nat) : Nat := bs.foldl crcByte c

/-- `tlv_crc16_final`. -/
def tlv_crc16_final (c : Nat) : Nat := c

/-- `tlv_crc16`: one-shot CRC over a byte list. -/
def tlv_crc16 (bs : List Nat) : Nat :=
  tlv_crc16_final (tlv_crc16_update tlv_crc16_init bs)

/- ========================= persisted structures ========================= -/

/-- `tlv_data_block_header_t` (14 bytes packed). -/
structure BlockHeader where
  tag : Nat
  length : Nat
  version : Nat
  flags : Nat
  timestamp : Nat
  write_count : Nat
deriving Repr, DecidableEq

/-- `TLV_BLOCK_SIZE(dataLen)` = 14 + dataLen + 2. -/
def TLV_BLOCK_SIZE (dataLen : Nat) : Nat := 14 + dataLen + 2

/-- The 14 packed little-endian bytes of a block header. -/
def serializeBlockHeader (h : BlockHeader) : List Nat :=
  le16 h.tag ++ le16 h.length ++ [h.version % 256, h.flags % 256] ++
    le32 h.timestamp ++ le32 h.write_count

/-- Decode a 14-byte buffer into a block header (reading the packed struct
from memory). -/
def parseBlockHeader (bs : List Nat) : BlockHeader :=
  { tag := dec16 bs 0
    length := dec16 bs 2
    version := bs.getD 4 0
    flags := bs.getD 5 0
    timestamp := dec32 bs 6
    write_count := dec32 bs 10 }

/-- `tlv_index_entry_t` (8 bytes packed). -/
structure IndexEntry where
  tag : Nat
  flags : Nat
  version : Nat
  data_addr : Nat
deriving Repr, DecidableEq

/-- The all-zero (empty) index slot. -/
def IndexEntry.empty : IndexEntry := ⟨0, 0, 0, 0⟩

/-- The 8 packed bytes of an index entry. -/
def serializeIndexEntry (e : IndexEntry) : List Nat :=
  le16 e.tag ++ [e.flags % 256, e.version % 256] ++ le32 e.data_addr

/-- `tlv_system_header_t` (256 bytes packed). -/
structure Header where
  magic : Nat
  version : Nat
  tag_count : Nat
  data_region_start : Nat
  data_region_size : Nat
  next_free_addr : Nat
  total_writes : Nat
  last_update_time : Nat
  free_space : Nat
  used_space : Nat
  fragment_count : Nat
  fragment_size : Nat
  header_crc16 : Nat
deriving Repr, DecidableEq

/-- The first 254 packed bytes of the system header (everything that is
covered by `header_crc16`). -/
def serializeHeaderPre (h : Header) : List Nat :=
  le32 h.magic ++ le16 h.version ++ le16 h.tag_count ++
    le32 h.data_region_start ++ le32 h.data_region_size ++
    le32 h.next_free_addr ++ le32 h.total_writes ++ le32 h.last_update_time ++
    le32 h.free_space ++ le32 h.used_space ++ le32 h.fragment_count ++
    le32 h.fragment_size ++ List.replicate 210 0

/-- `tlv_meta_const_t`: one schema (meta-table) entry.  The terminator entry
(tag 0xFFFF) is not part of the model's schema list.  `migrate` is the
optional migration callback: it receives the in-place buffer, the old
length, the buffer capacity, the old and the new version, and returns an
error code together with the new buffer contents and the new length. -/
structure Meta where
  tag : Nat
  max_length : Nat
  priority : Nat
  version : Nat
  backup_enable : Nat
  name : String
  migrate : Option (List Nat → Nat → Nat → Nat → Nat → Int × List Nat × Nat)

/-- `get_meta` / `find_meta_by_tag`: linear schema lookup (the model schema
list carries no 0xFFFF terminator, so the early break cannot trigger). -/
def getMeta (schema : List Meta) (tag : Nat) : Option Meta :=
  schema.find? (fun m => m.tag == tag)

/-- `TLV_IS_VALID_ADDR`. -/
def TLV_IS_VALID_ADDR (addr : Nat) : Bool :=
  decide (TLV_DATA_ADDR ≤ addr) && decide (addr < TLV_BACKUP_ADDR)

/-- `TLV_IS_SIZE_SAFE`. -/
def TLV_IS_SIZE_SAFE (addr size : Nat) : Bool :=
  decide (TLV_DATA_ADDR ≤ addr) && decide (addr + size ≤ TLV_BACKUP_ADDR)

/-- `TLV_REGIONS_OVERLAP`. -/
def regionsOverlap (s1 n1 s2 n2 : Nat) : Bool :=
  (decide (s1 ≤ s2) && decide (s2 < s1 + n1)) ||
    (decide (s2 ≤ s1) && decide (s1 < s2 + n2))

/-- `is_tag_region_valid` (tlv_index.c): basic range checks plus the
(simplified) overlap check against every other schema tag, whose region is
taken to start at `TLV_DATA_ADDR`. -/
def isTagRegionValid (schema : List Meta) (tag addr size : Nat) : Bool :=
  TLV_IS_VALID_ADDR addr && TLV_IS_SIZE_SAFE addr size &&
    schema.all (fun m =>
      if m.tag != 0xFFFF && m.tag != tag then
        !(regionsOverlap addr size TLV_DATA_ADDR (m.max_length + 20))
      else true)

/- ========================= runtime context ========================= -/

/-- `tlv_state_t`. -/
inductive TlvState where
  | uninitialized
  | initialized
  | error
  | formatted
deriving Repr, DecidableEq

/-- `tlv_transaction_snapshot_t`. -/
structure Snapshot where
  next_free_addr : Nat
  used_space : Nat
  free_space : Nat
  fragment_count : Nat
  fragment_size : Nat
  tag_count : Nat
  is_active : Bool
deriving Repr, DecidableEq

/-- `tlv_stream_state_t` (modelled from the spec; the enum itself lives in
the current `tlv_types.h` revision missing from `src/`). -/
inductive StreamState where
  | idle
  | writing
  | reading
deriving Repr, DecidableEq

/-- `tlv_stream_context_internal_t`: one stream-session slot.  `old_index`
holds the position of the superseded index entry (the C code stores a
pointer into the index table). -/
structure StreamHandleSlot where
  magic : Nat
  tag : Nat
  data_addr : Nat
  current_offset : Nat
  total_len : Nat
  processed_len : Nat
  crc16 : Nat
  state : StreamState
  old_index : Option Nat
  old_block_size : Nat
  old_version : Nat

/-- The all-zero (idle) stream slot. -/
def StreamHandleSlot.empty : StreamHandleSlot :=
  ⟨0, 0, 0, 0, 0, 0, 0, .idle, none, 0, 0⟩

/-- Modelled from the spec: `TLV_MAX_STREAM_HANDLES` (stream pool size, ≥ 1)
is set in the missing current `tlv_config.h`. -/
def TLV_MAX_STREAM_HANDLES : Nat := 2

/-- Modelled from the spec: `TLV_STREAM_MAGIC`; only its upper 16 bits are
used to brand handles. -/
def TLV_STREAM_MAGIC : Nat := 0x53545200

/-- Modelled from the spec: `TLV_STREAM_INVALID_HANDLE`. -/
def TLV_STREAM_INVALID_HANDLE : Nat := 0xFFFFFFFF

/-- The whole mutable state: `g_tlv_ctx`, `g_stream_ctx` and the device. -/
structure Ctx where
  state : TlvState
  header : Header
  index : List IndexEntry
  snapshot : Snapshot
  streams : List StreamHandleSlot
  fram : Fram

/- ========================= index module (tlv_index.c) ========================= -/

/-- Does the entry carry the `VALID` flag? -/
def entryValid (e : IndexEntry) : Bool := (e.flags &&& TLV_FLAG_VALID) != 0

/-- `tlv_index_find`: position of the first slot whose tag matches and whose
`VALID` flag is set (the C function returns a pointer to it). -/
def tlvIndexFindPos (idx : List IndexEntry) (tag : Nat) : Option Nat :=
  if tag = 0 then none
  else idx.findIdx? (fun e => e.tag == tag && entryValid e)

/-- `tlv_index_find_free_slot`: position of the first slot with `tag == 0`. -/
def tlvIndexFindFreeSlot (idx : List IndexEntry) : Option Nat :=
  idx.findIdx? (fun e => e.tag == 0)

/-- `tlv_index_add`: add (or revive) the index entry for `tag`, pointing at
`addr`.  Returns the slot position together with the updated table and
header, or `none` on failure (the C function returns a pointer or NULL).
Adding a fresh slot increments `tag_count` and then runs the
`is_tag_region_valid` runtime check, rolling both back if it fails. -/
def tlvIndexAdd (schema : List Meta) (idx : List IndexEntry) (hdr : Header)
    (tag addr : Nat) : Option (Nat × List IndexEntry × Header) :=
  if tag = 0 ∨ ¬ TLV_IS_VALID_ADDR addr then none
  else
    match tlvIndexFindPos idx tag with
    | some i =>
        let e := idx.getD i IndexEntry.empty
        some (i, idx.set i { e with data_addr := addr,
                                    flags := e.flags ||| TLV_FLAG_VALID }, hdr)
    | none =>
        match tlvIndexFindFreeSlot idx with
        | none => none
        | some j =>
            let meta := getMeta schema tag
            let e : IndexEntry :=
              { tag := tag, data_addr := addr, flags := TLV_FLAG_VALID,
                version := (meta.map Meta.version).getD 1 }
            let hdr' := { hdr with tag_count := (hdr.tag_count + 1) % U16 }
            match meta with
            | some m =>
                if isTagRegionValid schema tag addr (m.max_length + 20) then
                  some (j, idx.set j e, hdr')
                else none
            | none => some (j, idx.set j e, hdr')

/-- `tlv_index_update`: repoint the entry for `tag` at `addr`, set `VALID`,
clear `DIRTY`, refresh the schema version. -/
def tlvIndexUpdate (schema : List Meta) (idx : List IndexEntry)
    (tag addr : Nat) : Int × List IndexEntry :=
  if tag = 0 ∨ ¬ TLV_IS_VALID_ADDR addr then (TLV_ERROR_INVALID_PARAM, idx)
  else
    match tlvIndexFindPos idx tag with
    | none => (TLV_ERROR_NOT_FOUND, idx)
    | some i =>
        let e := idx.getD i IndexEntry.empty
        let meta := getMeta schema tag
        (TLV_OK, idx.set i
          { e with data_addr := addr,
                   flags := (e.flags ||| TLV_FLAG_VALID) &&& (255 - TLV_FLAG_DIRTY),
                   version := (meta.map Meta.version).getD 1 })

/-- `tlv_index_remove`: zero the slot for `tag` and decrement `tag_count`
(clamped at zero). -/
def tlvIndexRemove (idx : List IndexEntry) (hdr : Header) (tag : Nat) :
    Int × List IndexEntry × Header :=
  if tag = 0 then (TLV_ERROR_INVALID_PARAM, idx, hdr)
  else
    match tlvIndexFindPos idx tag with
    | none => (TLV_ERROR_NOT_FOUND, idx, hdr)
    | some i =>
        (TLV_OK, idx.set i IndexEntry.empty,
          { hdr with tag_count :=
              if hdr.tag_count > 0 then hdr.tag_count - 1 else hdr.tag_count })

/-- The packed bytes of the whole index table: the entries followed by the
table CRC-16 over the entry bytes. -/
def serializeIndexTable (idx : List IndexEntry) : List Nat :=
  let entryBytes := idx.flatMap serializeIndexEntry
  entryBytes ++ le16 (tlv_crc16 entryBytes)

/-- `tlv_index_save`: recompute the table CRC and write the table at
`TLV_INDEX_ADDR`. -/
def tlvIndexSave (p : Port) (f : Fram) (idx : List IndexEntry) : Int × Fram :=
  portWrite p f TLV_INDEX_ADDR (serializeIndexTable idx)

/- ===================== system header (tlv_core.c) ===================== -/

/-- `system_header_save`: recompute `header_crc16`, then write the 256-byte
header at `TLV_HEADER_ADDR`.  Returns the port status, the header with the
refreshed CRC field, and the device. -/
def systemHeaderSave (p : Port) (f : Fram) (h : Header) : Int × Header × Fram :=
  let crc := tlv_crc16 (serializeHeaderPre h)
  let h' := { h with header_crc16 := crc }
  let (ret, f') := portWrite p f TLV_HEADER_ADDR (serializeHeaderPre h' ++ le16 crc)
  (ret, h', f')

/-- `system_header_init`: the freshly formatted in-RAM header. -/
def systemHeaderInit (now : Nat) : Header :=
  let pre : Header :=
    { magic := TLV_SYSTEM_MAGIC
      version := TLV_SYSTEM_VERSION
      tag_count := 0
      data_region_start := TLV_DATA_ADDR
      data_region_size := TLV_BACKUP_ADDR - TLV_DATA_ADDR
      next_free_addr := TLV_DATA_ADDR
      total_writes := 0
      last_update_time := now
      free_space := TLV_BACKUP_ADDR - TLV_DATA_ADDR
      used_space := 0
      fragment_count := 0
      fragment_size := 0
      header_crc16 := 0 }
  { pre with header_crc16 := tlv_crc16 (serializeHeaderPre pre) }

/- ================== allocator and snapshot (tlv_core.c) ================== -/

/-- `allocate_space`: bump allocation of `size` bytes; returns the address
(0 on exhaustion) and the updated header. -/
def allocateSpace (hdr : Header) (size : Nat) : Nat × Header :=
  let addr := hdr.next_free_addr
  let endAddr := TLV_DATA_ADDR + hdr.data_region_size
  if addr + size > endAddr then (0, hdr)
  else
    (addr, { hdr with
      next_free_addr := add32 hdr.next_free_addr size
      used_space := add32 hdr.used_space size
      free_space := sub32 hdr.free_space size })

/-- `increase_used_space`. -/
def increaseUsedSpace (hdr : Header) (size : Nat) : Header :=
  { hdr with used_space := add32 hdr.used_space size }

/-- `reduce_used_space`: an unchecked `uint32_t` subtraction. -/
def reduceUsedSpace (hdr : Header) (size : Nat) : Header :=
  { hdr with used_space := sub32 hdr.used_space size }

/-- `transaction_snapshot_create`. -/
def snapshotCreate (ctx : Ctx) : Ctx :=
  { ctx with snapshot :=
      { next_free_addr := ctx.header.next_free_addr
        used_space := ctx.header.used_space
        free_space := ctx.header.free_space
        fragment_count := ctx.header.fragment_count
        fragment_size := ctx.header.fragment_size
        tag_count := ctx.header.tag_count
        is_active := true } }

/-- `transaction_snapshot_rollback`. -/
def snapshotRollback (ctx : Ctx) : Ctx :=
  if ctx.snapshot.is_active then
    { ctx with
      header := { ctx.header with
        next_free_addr := ctx.snapshot.next_free_addr
        used_space := ctx.snapshot.used_space
        free_space := ctx.snapshot.free_space
        fragment_count := ctx.snapshot.fragment_count
        fragment_size := ctx.snapshot.fragment_size
        tag_count := ctx.snapshot.tag_count }
      snapshot := { ctx.snapshot with is_active := false } }
  else ctx

/-- `transaction_snapshot_commit`. -/
def snapshotCommit (ctx : Ctx) : Ctx :=
  { ctx with snapshot := { ctx.snapshot with is_active := false } }

/- ==================== data block codec (tlv_core.c) ==================== -/

/-- `write_data_block`: compose the 14-byte header (schema version, caller
timestamp, `write_count` carried over from a matching old block), then write
header, payload and trailing CRC-16 in three sequential transport writes. -/
def writeDataBlock (p : Port) (schema : List Meta) (f : Fram) (tag : Nat)
    (payload : List Nat) (addr now : Nat) : Int × Fram :=
  let meta := getMeta schema tag
  let (rret, oldBytes) := portRead p f addr 14
  let oldHdr := parseBlockHeader oldBytes
  let wc := if rret = TLV_OK ∧ oldHdr.tag = tag then add32 oldHdr.write_count 1 else 1
  let hdr : BlockHeader :=
    { tag := tag, length := payload.length,
      version := (meta.map Meta.version).getD 1, flags := 0,
      timestamp := now, write_count := wc }
  let crc := tlv_crc16_final
    (tlv_crc16_update (tlv_crc16_update tlv_crc16_init (serializeBlockHeader hdr)) payload)
  let (r1, f1) := portWrite p f addr (serializeBlockHeader hdr)
  if r1 ≠ TLV_OK then (r1, f1)
  else
    let (r2, f2) := portWrite p f1 (addr + 14) payload
    if r2 ≠ TLV_OK then (r2, f2)
    else portWrite p f2 (addr + 14 + payload.length) (le16 crc)

/-- `read_data_block`: read the header; reject a too-small caller buffer
with `TLV_ERROR_NO_BUFFER_MEMORY` (leaving the returned length at the
caller's value); read payload and trailing CRC; verify the CRC.  Returns
`(status, payload, length)`. -/
def readDataBlock (p : Port) (f : Fram) (addr lenIn : Nat) :
    Int × List Nat × Nat :=
  let (r0, hb) := portRead p f addr 14
  if r0 ≠ TLV_OK then (r0, [], lenIn)
  else
    let hdr := parseBlockHeader hb
    if hdr.length > lenIn then (TLV_ERROR_NO_BUFFER_MEMORY, [], lenIn)
    else
      let (r1, data) := portRead p f (addr + 14) hdr.length
      if r1 ≠ TLV_OK then (r1, data, lenIn)
      else
        let (r2, cb) := portRead p f (addr + 14 + hdr.length) 2
        if r2 ≠ TLV_OK then (r2, data, lenIn)
        else
          let stored := dec16 cb 0
          let calcCrc := tlv_crc16_final
            (tlv_crc16_update (tlv_crc16_update tlv_crc16_init hb) data)
          if calcCrc ≠ stored then (TLV_ERROR_CRC_FAILED, data, lenIn)
          else (TLV_OK, data, hdr.length)

/- ================= chunked copy / backup (tlv_core.c) ================= -/

/-- The `BUFFER_SIZE`-chunked copy loop shared by `tlv_backup_all_internal`,
`tlv_restore_from_backup` and the block-move loop of `tlv_defragment`:
copy `remaining` bytes from `srcBase + offset` to `dstBase + offset` through
the scratch buffer, bailing out on the first transport error. -/
def chunkedCopyAux (p : Port) (srcBase dstBase : Nat) :
    Nat → Fram → Nat → Nat → Int × Fram
  | 0, f, _, _ => (TLV_OK, f)
  | fuel + 1, f, offset, remaining =>
      if remaining = 0 then (TLV_OK, f)
      else
        let chunk := min TLV_BUFFER_SIZE remaining
        let (r1, bytes) := portRead p f (srcBase + offset) chunk
        if r1 ≠ TLV_OK then (r1, f)
        else
          let (r2, f2) := portWrite p f (dstBase + offset) bytes
          if r2 ≠ TLV_OK then (r2, f2)
          else chunkedCopyAux p srcBase dstBase fuel f2 (offset + chunk)
            (remaining - chunk)

def chunkedCopy (p : Port) (srcBase dstBase : Nat)
    (f : Fram) (offset remaining : Nat) : Int × Fram :=
  chunkedCopyAux p srcBase dstBase remaining f offset remaining

/-- `tlv_backup_all_internal`: raw chunked copy of the management area
`[TLV_HEADER_ADDR, TLV_HEADER_ADDR + TLV_DATA_REGION_SIZE)` into the backup
region. -/
def tlvBackupAllInternal (p : Port) (f : Fram) : Int × Fram :=
  chunkedCopy p TLV_HEADER_ADDR TLV_BACKUP_ADDR f 0 TLV_DATA_REGION_SIZE

/- =================== index sort (sort_index_table_inplace) =================== -/

/-- The insertion step of the in-place insertion sort: place `e` after every
already-sorted entry whose `data_addr` is ≤ `e.data_addr`. -/
def insertByAddr (e : IndexEntry) : List IndexEntry → List IndexEntry
  | [] => [e]
  | x :: xs =>
      if x.data_addr ≤ e.data_addr then x :: insertByAddr e xs
      else e :: x :: xs

/-- `sort_index_table_inplace`: compact the valid entries to the front, then
insertion-sort them by `data_addr`, then clear the trailing slots.  When the
valid count is 0 — or ≥ `TLV_MAX_TAG_COUNT`, i.e. the index is completely
full — the function returns after the (then vacuous) compaction pass,
leaving the table unsorted. -/
def sortIndexTable (idx : List IndexEntry) : List IndexEntry :=
  let valid := idx.filter (fun e => e.tag != 0 && entryValid e)
  if valid.length = 0 ∨ valid.length ≥ TLV_MAX_TAG_COUNT then idx
  else
    let sorted := valid.foldl (fun acc e => insertByAddr e acc) []
    sorted ++ List.replicate (idx.length - valid.length) IndexEntry.empty

/- ======================= defragmenter (tlv_core.c) ======================= -/

/-- The all-zero header produced by `tlv_index_init` (which repoints
`ctx->header` at its own zeroed static storage). -/
def zeroHeader : Header := ⟨0, 0, 0, 0, 0, 0, 0, 0, 0, 0, 0, 0, 0⟩

/-- The block-moving walk of `tlv_defragment` over the (sorted) valid
entries: each block whose address is not the current compaction cursor is
copied down in `BUFFER_SIZE` chunks and its entry is repointed; the cursor
and the total advance by the block size read from the block header.  Slots
that fail the validity guard or whose header read fails are skipped; a
transport error inside a copy aborts the walk.  Returns
`(status, updated entries, cursor, total bytes, device)`. -/
def defragWalk (p : Port) :
    List IndexEntry → Nat → Nat → Fram → Int × List IndexEntry × Nat × Nat × Fram
  | [], wp, tu, f => (TLV_OK, [], wp, tu, f)
  | e :: rest, wp, tu, f =>
    if e.tag = 0 ∨ ¬ entryValid e then
      let (r, rest', wp', tu', f') := defragWalk p rest wp tu f
      (r, e :: rest', wp', tu', f')
    else
      let (r0, hb) := portRead p f e.data_addr 14
      if r0 ≠ TLV_OK then
        let (r, rest', wp', tu', f') := defragWalk p rest wp tu f
        (r, e :: rest', wp', tu', f')
      else
        let bsize := 14 + (parseBlockHeader hb).length + 2
        if e.data_addr ≠ wp then
          let (rc, f2) := chunkedCopy p e.data_addr wp f 0 bsize
          if rc ≠ TLV_OK then (rc, e :: rest, wp, tu, f2)
          else
            let e' := { e with data_addr := wp,
                               flags := e.flags &&& (255 - TLV_FLAG_DIRTY) }
            let (r, rest', wp', tu', f') := defragWalk p rest (wp + bsize) (tu + bsize) f2
            (r, e' :: rest', wp', tu', f')
        else
          let e' := if (e.flags &&& TLV_FLAG_DIRTY) != 0 then
              { e with flags := e.flags &&& (255 - TLV_FLAG_DIRTY) } else e
          let (r, rest', wp', tu', f') := defragWalk p rest (wp + bsize) (tu + bsize) f
          (r, e' :: rest', wp', tu', f')

/-- `tlv_defragment`: with no live entries, reinitialize header and index
and persist them (note `tlv_index_init` repoints and zeroes the header
mirror); otherwise back up the management area, sort the index in place,
walk the live entries moving every block down to the compaction cursor,
rewrite the header statistics, and persist index, header and backup. -/
def tlvDefragment (p : Port) (ctx : Ctx) : Int × Ctx :=
  if ctx.state ≠ TlvState.initialized then (TLV_ERROR, ctx)
  else
    let total0 := (ctx.index.filter (fun e => e.tag != 0 && entryValid e)).length
    if total0 = 0 then
      -- system_header_init fills the mirror, but tlv_index_init then swaps
      -- in its own zeroed static header and index, so the saved header is
      -- the zeroed one
      let ctx1 := { ctx with header := zeroHeader,
                             index := List.replicate ctx.index.length IndexEntry.empty }
      let (r1, hdr1, f1) := systemHeaderSave p ctx1.fram ctx1.header
      let ctx2 := { ctx1 with header := hdr1, fram := f1 }
      if r1 ≠ TLV_OK then (r1, ctx2)
      else
        let (r2, f2) := tlvIndexSave p f1 ctx2.index
        let ctx3 := { ctx2 with fram := f2 }
        if r2 ≠ TLV_OK then (r2, ctx3)
        else
          let (r3, f3) := tlvBackupAllInternal p f2
          (r3, { ctx3 with fram := f3 })
    else
      let (rb, fb) := tlvBackupAllInternal p ctx.fram
      let ctxb := { ctx with fram := fb }
      if rb ≠ TLV_OK then (rb, ctxb)
      else
        let idx1 := sortIndexTable ctxb.index
        let total := (idx1.takeWhile (fun e => e.tag != 0 && entryValid e)).length
        let (rw, pre', wp, tu, fw) := defragWalk p (idx1.take total) TLV_DATA_ADDR 0 fb
        let idx2 := pre' ++ idx1.drop total
        let ctxw := { ctxb with index := idx2, fram := fw }
        if rw ≠ TLV_OK then (rw, ctxw)
        else
          let region := TLV_BACKUP_ADDR - TLV_DATA_ADDR
          let newFree := if region > tu then region - tu else 0
          let hdr' := { ctxw.header with
            data_region_start := TLV_DATA_ADDR
            data_region_size := region
            tag_count := total
            next_free_addr := wp
            free_space := newFree
            used_space := tu
            fragment_count := 0
            fragment_size := 0 }
          let (ri, fi) := tlvIndexSave p fw idx2
          let ctxi := { ctxw with header := hdr', fram := fi }
          if ri ≠ TLV_OK then (ri, ctxi)
          else
            let (rh, hdr2, fh) := systemHeaderSave p fi hdr'
            let ctxh := { ctxi with header := hdr2, fram := fh }
            if rh ≠ TLV_OK then (rh, ctxh)
            else
              let (rb2, fb2) := tlvBackupAllInternal p fh
              (rb2, { ctxh with fram := fb2 })

/- ======================= core KV engine (tlv_core.c) ======================= -/

/-- `tlv_calculate_fragmentation` (the percentage it reports): wasted bytes
are `(next_free_addr − TLV_DATA_ADDR) − used_space` in `uint32_t`
arithmetic. -/
def tlvCalculateFragmentation (hdr : Header) : Nat :=
  let allocated := sub32 hdr.next_free_addr TLV_DATA_ADDR
  let wasted := sub32 allocated hdr.used_space
  if hdr.data_region_size > 0 then wasted * 100 / hdr.data_region_size else 0

/-- The `TLV_AUTO_CLEAN_FRAGEMENT` tail of `tlv_write` / `tlv_write_end`
(compiled in: the shipped configuration sets the option to 1 with a 20 %
threshold): run `tlv_defragment` when fragmentation reaches the threshold. -/
def autoDefragTail (p : Port) (ctx : Ctx) : Int × Ctx :=
  if tlvCalculateFragmentation ctx.header ≥ TLV_AUTO_DEFRAG_THRESHOLD then
    let (r, ctx') := tlvDefragment p ctx
    if r ≠ TLV_OK then (r, ctx') else (TLV_OK, ctx')
  else (TLV_OK, ctx)

/-- The commit tail of `tlv_write` (lines 410–448): save the index (the
visibility point), commit the snapshot, bump `total_writes` and
`last_update_time`, save the header, then run the auto-defragment check. -/
def tlvWriteCommit (p : Port) (ctx2 : Ctx) (idxB : List IndexEntry)
    (hdrB : Header) (now : Nat) : Int × Ctx :=
  let (rs, f2) := tlvIndexSave p ctx2.fram idxB
  let ctx3 := { ctx2 with index := idxB, header := hdrB, fram := f2 }
  if rs ≠ TLV_OK then (rs, ctx3)
  else
    let ctx4 := snapshotCommit ctx3
    let hdr5 := { ctx4.header with
      total_writes := add32 ctx4.header.total_writes 1
      last_update_time := now }
    let (rh, hdr6, f3) := systemHeaderSave p ctx4.fram hdr5
    let ctx5 := { ctx4 with header := hdr6, fram := f3 }
    if rh ≠ TLV_OK then (rh, ctx5)
    else autoDefragTail p ctx5

/-- `tlv_write`: parameter checks, snapshot, placement decision (in-place
update when the new block fits in the old one, otherwise fresh allocation),
data-block write with snapshot rollback on failure (returning the status of
the subsequent header save — exactly as the C code does), index
add-or-update, and the commit tail. -/
def tlvWrite (p : Port) (schema : List Meta) (ctx : Ctx) (tag : Nat)
    (payload : List Nat) (now : Nat) : Int × Ctx :=
  if payload.length = 0 ∨ tag = 0 then (TLV_ERROR_INVALID_PARAM, ctx)
  else if ctx.state ≠ TlvState.initialized then (TLV_ERROR, ctx)
  else
    match getMeta schema tag with
    | none => (TLV_ERROR_NOT_FOUND, ctx)
    | some meta =>
      if payload.length > meta.max_length then (TLV_ERROR_INVALID_PARAM, ctx)
      else
        let ctx0 := snapshotCreate ctx
        let pos := tlvIndexFindPos ctx0.index tag
        let newBlock := TLV_BLOCK_SIZE payload.length
        let hasFreeSlot := ctx0.header.tag_count < TLV_MAX_TAG_COUNT
        -- placement: Sum.inl is an early error return,
        -- Sum.inr carries (target_addr, old_block_size, need_add_index, header)
        let placed : Int ⊕ (Nat × Nat × Bool × Header) :=
          match pos with
          | some i =>
              let e := ctx0.index.getD i IndexEntry.empty
              let (rr, hb) := portRead p ctx0.fram e.data_addr 14
              if rr ≠ TLV_OK then Sum.inl rr
              else
                let oldBlock := TLV_BLOCK_SIZE (parseBlockHeader hb).length
                if newBlock ≤ oldBlock then
                  Sum.inr (e.data_addr, oldBlock, false,
                    increaseUsedSpace (reduceUsedSpace ctx0.header oldBlock) newBlock)
                else if ¬ hasFreeSlot then Sum.inl TLV_ERROR_NO_INDEX_SPACE
                else
                  let (a, hdr2) := allocateSpace ctx0.header newBlock
                  if a = 0 then Sum.inl TLV_ERROR_NO_MEMORY_SPACE
                  else Sum.inr (a, oldBlock, true, hdr2)
          | none =>
              if ¬ hasFreeSlot then Sum.inl TLV_ERROR_NO_INDEX_SPACE
              else
                let (a, hdr2) := allocateSpace ctx0.header newBlock
                if a = 0 then Sum.inl TLV_ERROR_NO_MEMORY_SPACE
                else Sum.inr (a, 0, true, hdr2)
        match placed with
        | Sum.inl err => (err, ctx0)
        | Sum.inr (target, oldBlock, needAdd, hdr2) =>
          let ctx1 := { ctx0 with header := hdr2 }
          let (rw, f1) := writeDataBlock p schema ctx1.fram tag payload target now
          if rw ≠ TLV_OK then
            let ctxr := snapshotRollback { ctx1 with fram := f1 }
            let (rs, hdrS, f2) := systemHeaderSave p ctxr.fram ctxr.header
            (rs, { ctxr with header := hdrS, fram := f2 })
          else
            let ctx2 := { ctx1 with fram := f1 }
            if needAdd then
              -- invalidate the old entry (if any), account it as a fragment
              let (idxA, hdrA) :=
                match pos with
                | some i =>
                    let e := ctx2.index.getD i IndexEntry.empty
                    let h' := reduceUsedSpace ctx2.header oldBlock
                    (ctx2.index.set i { e with flags := TLV_FLAG_DIRTY },
                     { h' with fragment_count := add32 h'.fragment_count 1
                               fragment_size := add32 h'.fragment_size oldBlock })
                | none => (ctx2.index, ctx2.header)
              match tlvIndexAdd schema idxA hdrA tag target with
              | none =>
                  (TLV_ERROR_NO_INDEX_SPACE,
                    { ctx2 with index := idxA, header := hdrA })
              | some (_, idxB, hdrB) => tlvWriteCommit p ctx2 idxB hdrB now
            else
              let (_, idxB) := tlvIndexUpdate schema ctx2.index tag target
              tlvWriteCommit p ctx2 idxB ctx2.header now

/-- Modelled from the spec: the current 7-argument `tlv_migrate_tag`
(`tlv_migration.c` in the revision matching `tlv_core.c` is missing from
`src/`; the in-tree revision has the 4-argument one with identical
version-gating logic).  Engine-enforced rules: equal versions pass through;
downgrades and a missing migrate callback refuse with `TLV_ERROR_VERSION`;
an oversize result is `TLV_ERROR_INVALID_PARAM`.  Returns
`(status, buffer, new length)`. -/
def tlvMigrateTag (schema : List Meta) (tag : Nat) (data : List Nat)
    (oldLen maxSize curVer : Nat) : Int × List Nat × Nat :=
  match getMeta schema tag with
  | none => (TLV_ERROR_NOT_FOUND, data, oldLen)
  | some meta =>
    if curVer = meta.version then (TLV_OK, data, oldLen)
    else if curVer > meta.version then (TLV_ERROR_VERSION, data, oldLen)
    else
      match meta.migrate with
      | none => (TLV_ERROR_VERSION, data, oldLen)
      | some fn =>
        let (r, nd, nl) := fn data oldLen maxSize curVer meta.version
        if r ≠ TLV_OK then (r, data, nl)
        else if nl > meta.max_length then (TLV_ERROR_INVALID_PARAM, data, nl)
        else (TLV_OK, nd.take nl, nl)

/-- `tlv_read`: locate the live entry, read its block, then (with
`TLV_ENABLE_MIGRATION` and `TLV_LAZY_MIGRATE_ON_READ` both compiled in)
lazily migrate when the entry's version is behind the schema, writing the
migrated payload back via `tlv_write` (its status only logged); on a
non-buffer migration error, re-read and return the old data.  Returns
`(status, payload, length, state)`. -/
def tlvRead (p : Port) (schema : List Meta) (ctx : Ctx) (tag lenIn now : Nat) :
    Int × List Nat × Nat × Ctx :=
  if tag = 0 ∨ lenIn = 0 then (TLV_ERROR_INVALID_PARAM, [], lenIn, ctx)
  else if ctx.state ≠ TlvState.initialized then (TLV_ERROR, [], lenIn, ctx)
  else
    match tlvIndexFindPos ctx.index tag with
    | none => (TLV_ERROR_NOT_FOUND, [], lenIn, ctx)
    | some i =>
      let e := ctx.index.getD i IndexEntry.empty
      let (r, buf, rlen) := readDataBlock p ctx.fram e.data_addr lenIn
      if r ≠ TLV_OK then (r, buf, rlen, ctx)
      else
        match getMeta schema tag with
        | some meta =>
          if e.version < meta.version then
            let (mret, nbuf, nlen) := tlvMigrateTag schema tag buf rlen lenIn e.version
            if mret = TLV_OK then
              let (_, ctx2) := tlvWrite p schema ctx tag nbuf now
              (TLV_OK, nbuf, nlen, ctx2)
            else if mret = TLV_ERROR_NO_BUFFER_MEMORY then
              (mret, buf, nlen, ctx)
            else
              let (rr, buf2, rlen2) := readDataBlock p ctx.fram e.data_addr lenIn
              if rr ≠ TLV_OK then (rr, buf2, lenIn, ctx)
              else (TLV_OK, buf2, rlen2, ctx)
          else (TLV_OK, buf, rlen, ctx)
        | none => (TLV_OK, buf, rlen, ctx)

/-- `tlv_delete`: read the block header to account the freed bytes under
the fragment statistics, clear the index slot, and persist index and
header. -/
def tlvDelete (p : Port) (ctx : Ctx) (tag now : Nat) : Int × Ctx :=
  if tag = 0 then (TLV_ERROR_INVALID_PARAM, ctx)
  else if ctx.state ≠ TlvState.initialized then (TLV_ERROR, ctx)
  else
    match tlvIndexFindPos ctx.index tag with
    | none => (TLV_ERROR_NOT_FOUND, ctx)
    | some i =>
      let e := ctx.index.getD i IndexEntry.empty
      let (r, hb) := portRead p ctx.fram e.data_addr 14
      let hdr1 :=
        if r = TLV_OK then
          let bs := 14 + (parseBlockHeader hb).length + 2
          let h' := reduceUsedSpace ctx.header bs
          { h' with fragment_count := add32 h'.fragment_count 1
                    fragment_size := add32 h'.fragment_size bs }
        else ctx.header
      let (rret, idx', hdr2) := tlvIndexRemove ctx.index hdr1 tag
      if rret = TLV_OK then
        let hdr3 := { hdr2 with last_update_time := now }
        let (_, f1) := tlvIndexSave p ctx.fram idx'
        let (_, hdr4, f2) := systemHeaderSave p f1 hdr3
        (TLV_OK, { ctx with header := hdr4, index := idx', fram := f2 })
      else (rret, { ctx with header := hdr2, index := idx' })

/- ====================== stream sessions (tlv_core.c) ====================== -/

/-- `index_to_handle`: brand the slot index with the stream magic. -/
def indexToHandle (i : Nat) : Nat :=
  if i ≥ TLV_MAX_STREAM_HANDLES then TLV_STREAM_INVALID_HANDLE
  else (TLV_STREAM_MAGIC &&& 0xFFFF0000) ||| (i &&& 0xFFFF)

/-- `handle_to_index`: check the magic brand and the slot range. -/
def handleToIndex (h : Nat) : Option Nat :=
  if (h &&& 0xFFFF0000) ≠ (TLV_STREAM_MAGIC &&& 0xFFFF0000) then none
  else
    let i := h &&& 0xFFFF
    if i ≥ TLV_MAX_STREAM_HANDLES then none else some i

/-- `find_free_stream_handle`: first idle slot, reset with the magic. -/
def findFreeStreamHandle (streams : List StreamHandleSlot) :
    Option (Nat × List StreamHandleSlot) :=
  match streams.findIdx? (fun s => s.state == StreamState.idle) with
  | none => none
  | some i =>
      some (i, streams.set i { StreamHandleSlot.empty with magic := TLV_STREAM_MAGIC })

/-- `validate_and_get_handle`: decode the handle, check magic and expected
state; returns the slot position. -/
def validateHandle (streams : List StreamHandleSlot) (h : Nat)
    (expected : StreamState) : Option Nat :=
  match handleToIndex h with
  | none => none
  | some i =>
      let s := streams.getD i StreamHandleSlot.empty
      if s.magic ≠ TLV_STREAM_MAGIC then none
      else if s.state ≠ expected then none
      else some i

/-- `release_stream_handle`: zero the slot. -/
def releaseStreamHandle (streams : List StreamHandleSlot) (h : Nat) :
    List StreamHandleSlot :=
  match handleToIndex h with
  | none => streams
  | some i => streams.set i StreamHandleSlot.empty

/-- `tlv_write_begin`: validate, grab a pool slot, snapshot, run the same
placement logic as `tlv_write` (rolling back and releasing the slot on any
failure), record the session bookkeeping, and write the 14-byte block
header at the target address.  Returns `(handle, state)`; failures return
`TLV_STREAM_INVALID_HANDLE`. -/
def tlvWriteBegin (p : Port) (schema : List Meta) (ctx : Ctx)
    (tag total_len now : Nat) : Nat × Ctx :=
  if tag = 0 ∨ total_len = 0 then (TLV_STREAM_INVALID_HANDLE, ctx)
  else if ctx.state ≠ TlvState.initialized then (TLV_STREAM_INVALID_HANDLE, ctx)
  else
    match getMeta schema tag with
    | none => (TLV_STREAM_INVALID_HANDLE, ctx)
    | some meta =>
      if total_len > meta.max_length then (TLV_STREAM_INVALID_HANDLE, ctx)
      else
        match findFreeStreamHandle ctx.streams with
        | none => (TLV_STREAM_INVALID_HANDLE, ctx)
        | some (hi, streams1) =>
          let handle := indexToHandle hi
          let ctx0 := snapshotCreate { ctx with streams := streams1 }
          let pos := tlvIndexFindPos ctx0.index tag
          let newBlock := TLV_BLOCK_SIZE total_len
          let hasFreeSlot := ctx0.header.tag_count < TLV_MAX_TAG_COUNT
          -- Sum.inl aborts (rollback + release); Sum.inr carries
          -- (target_addr, need_add_index, old_index, old_block_size,
          --  old_version, header)
          let placed : Unit ⊕ (Nat × Bool × Option Nat × Nat × Nat × Header) :=
            match pos with
            | some i =>
                let e := ctx0.index.getD i IndexEntry.empty
                let (rr, hb) := portRead p ctx0.fram e.data_addr 14
                if rr ≠ TLV_OK then Sum.inl ()
                else
                  let oldHdr := parseBlockHeader hb
                  let oldBlock := TLV_BLOCK_SIZE oldHdr.length
                  if newBlock ≤ oldBlock then
                    Sum.inr (e.data_addr, false, none, 0, oldHdr.version,
                      increaseUsedSpace (reduceUsedSpace ctx0.header oldBlock) newBlock)
                  else if ¬ hasFreeSlot then Sum.inl ()
                  else
                    let (a, hdr2) := allocateSpace ctx0.header newBlock
                    if a = 0 then Sum.inl ()
                    else Sum.inr (a, true, some i, oldBlock, oldHdr.version, hdr2)
            | none =>
                if ¬ hasFreeSlot then Sum.inl ()
                else
                  let (a, hdr2) := allocateSpace ctx0.header newBlock
                  if a = 0 then Sum.inl ()
                  else Sum.inr (a, true, none, 0, 0, hdr2)
          match placed with
          | Sum.inl () =>
              let ctxr := snapshotRollback ctx0
              (TLV_STREAM_INVALID_HANDLE,
                { ctxr with streams := releaseStreamHandle ctxr.streams handle })
          | Sum.inr (target, needAdd, oldIdx, oldBlock, oldVer, hdr2) =>
            let hdr : BlockHeader :=
              { tag := tag, length := total_len, version := meta.version,
                flags := 0, timestamp := now, write_count := 0 }
            let wc :=
              if ¬ needAdd ∧ pos.isSome then
                let (rr, hb) := portRead p ctx0.fram target 14
                if rr = TLV_OK ∧ (parseBlockHeader hb).tag = tag then
                  add32 (parseBlockHeader hb).write_count 1
                else 1
              else 1
            let hdrW := { hdr with write_count := wc }
            let slot : StreamHandleSlot :=
              { magic := TLV_STREAM_MAGIC, tag := tag, data_addr := target,
                current_offset := 14, total_len := total_len,
                processed_len := 0,
                crc16 := tlv_crc16_update tlv_crc16_init (serializeBlockHeader hdrW),
                state := StreamState.writing, old_index := oldIdx,
                old_block_size := oldBlock, old_version := oldVer }
            let ctx1 := { ctx0 with header := hdr2,
                                    streams := ctx0.streams.set hi slot }
            let (rw, f1) := portWrite p ctx1.fram target (serializeBlockHeader hdrW)
            if rw ≠ TLV_OK then
              let ctxr := snapshotRollback { ctx1 with fram := f1 }
              (TLV_STREAM_INVALID_HANDLE,
                { ctxr with streams := releaseStreamHandle ctxr.streams handle })
            else (handle, { ctx1 with fram := f1 })

/-- `tlv_write_chunk`: bounds-check against the session total, write the
bytes at the session cursor, fold them into the CRC accumulator, advance. -/
def tlvWriteChunk (p : Port) (ctx : Ctx) (handle : Nat) (data : List Nat) :
    Int × Ctx :=
  if data.length = 0 then (TLV_ERROR_INVALID_PARAM, ctx)
  else
    match validateHandle ctx.streams handle StreamState.writing with
    | none => (TLV_ERROR_INVALID_HANDLE, ctx)
    | some hi =>
      let h := ctx.streams.getD hi StreamHandleSlot.empty
      if h.processed_len + data.length > h.total_len then
        (TLV_ERROR_INVALID_PARAM, ctx)
      else
        let (r, f1) := portWrite p ctx.fram (h.data_addr + h.current_offset) data
        if r ≠ TLV_OK then (r, { ctx with fram := f1 })
        else
          let h' := { h with
            crc16 := tlv_crc16_update h.crc16 data
            current_offset := h.current_offset + data.length
            processed_len := h.processed_len + data.length }
          (TLV_OK, { ctx with fram := f1, streams := ctx.streams.set hi h' })

/-- `tlv_write_end`: require the session to be complete, write the trailing
CRC (rollback on failure), mark the superseded entry dirty / add or update
the index, save the index (the visibility point), commit, save the header,
release the handle and run the auto-defragment check. -/
def tlvWriteEnd (p : Port) (schema : List Meta) (ctx : Ctx)
    (handle now : Nat) : Int × Ctx :=
  match validateHandle ctx.streams handle StreamState.writing with
  | none => (TLV_ERROR_INVALID_HANDLE, ctx)
  | some hi =>
    let h := ctx.streams.getD hi StreamHandleSlot.empty
    if h.processed_len ≠ h.total_len then (TLV_ERROR_INVALID_STATE, ctx)
    else
      let crc := tlv_crc16_final h.crc16
      let (rw, f1) := portWrite p ctx.fram (h.data_addr + h.current_offset) (le16 crc)
      if rw ≠ TLV_OK then
        let ctxr := snapshotRollback { ctx with fram := f1 }
        let (_, hdrS, f2) := systemHeaderSave p ctxr.fram ctxr.header
        (rw, { ctxr with
                header := hdrS
                fram := f2
                streams := releaseStreamHandle ctxr.streams handle })
      else
        let ctx1 := { ctx with fram := f1 }
        let needAdd := h.old_index.isSome
        -- the dirty-marking below mutates the index table in place; if the
        -- subsequent add fails, those mutations survive the rollback
        let (idxA, hdrA) :=
          if needAdd then
            match h.old_index with
            | some oi =>
                let e := ctx1.index.getD oi IndexEntry.empty
                if entryValid e then
                  let h' := reduceUsedSpace ctx1.header h.old_block_size
                  (ctx1.index.set oi { e with flags := TLV_FLAG_DIRTY },
                   { h' with
                      fragment_count := add32 h'.fragment_count 1
                      fragment_size := add32 h'.fragment_size h.old_block_size })
                else (ctx1.index, ctx1.header)
            | none => (ctx1.index, ctx1.header)
          else (ctx1.index, ctx1.header)
        let proceed : Int ⊕ (List IndexEntry × Header) :=
          if needAdd then
            match tlvIndexAdd schema idxA hdrA h.tag h.data_addr with
            | none => Sum.inl TLV_ERROR_NO_INDEX_SPACE
            | some (_, idxB, hdrB) => Sum.inr (idxB, hdrB)
          else
            let (_, idxB) := tlvIndexUpdate schema idxA h.tag h.data_addr
            Sum.inr (idxB, hdrA)
        match proceed with
        | Sum.inl err =>
            let ctxr := snapshotRollback { ctx1 with index := idxA, header := hdrA }
            let (_, hdrS, f2) := systemHeaderSave p ctxr.fram ctxr.header
            (err, { ctxr with
                    header := hdrS
                    fram := f2
                    streams := releaseStreamHandle ctxr.streams handle })
        | Sum.inr (idxB, hdrB) =>
          let (rs, f2) := tlvIndexSave p ctx1.fram idxB
          let ctx3 := { ctx1 with index := idxB, header := hdrB, fram := f2 }
          if rs ≠ TLV_OK then
            (rs, { ctx3 with streams := releaseStreamHandle ctx3.streams handle })
          else
            let ctx4 := snapshotCommit ctx3
            let hdr5 := { ctx4.header with
              total_writes := add32 ctx4.header.total_writes 1
              last_update_time := now }
            let (rh, hdr6, f3) := systemHeaderSave p ctx4.fram hdr5
            let ctx5 := { ctx4 with header := hdr6, fram := f3 }
            if rh ≠ TLV_OK then
              (rh, { ctx5 with streams := releaseStreamHandle ctx5.streams handle })
            else
              autoDefragTail p
                { ctx5 with streams := releaseStreamHandle ctx5.streams handle }

/-- `tlv_write_abort`: roll back the snapshot, persist the rolled-back
header, account the abandoned region as a fragment, release the handle. -/
def tlvWriteAbort (p : Port) (ctx : Ctx) (handle : Nat) : Ctx :=
  match validateHandle ctx.streams handle StreamState.writing with
  | none => ctx
  | some hi =>
    let h := ctx.streams.getD hi StreamHandleSlot.empty
    let ctxr := snapshotRollback ctx
    let (_, hdrS, f2) := systemHeaderSave p ctxr.fram ctxr.header
    let wasted := TLV_BLOCK_SIZE h.total_len
    let hdr' := { hdrS with
      fragment_count := add32 hdrS.fragment_count 1
      fragment_size := add32 hdrS.fragment_size wasted }
    { ctxr with
      header := hdr'
      fram := f2
      streams := releaseStreamHandle ctxr.streams handle }

/- =================== specification-side helper predicates =================== -/

/-- The trailing CRC-16 of a block: streamed over header bytes then payload. -/
def blockCrc (hdr : BlockHeader) (payload : List Nat) : Nat :=
  tlv_crc16_final
    (tlv_crc16_update (tlv_crc16_update tlv_crc16_init (serializeBlockHeader hdr)) payload)

/-- The device contents after the three sequential writes of
`write_data_block`. -/
def blockWriteFram (f : Fram) (addr : Nat) (hdr : BlockHeader) (payload : List Nat) : Fram :=
  framWriteBytes
    (framWriteBytes (framWriteBytes f addr (serializeBlockHeader hdr))
      (addr + 14) payload)
    (addr + 14 + payload.length) (le16 (blockCrc hdr payload))

/-- The block stored on the device at `addr`: header bytes, payload bytes
and the trailing CRC as `write_data_block` lays them out. -/
def StoredBlock (f : Fram) (addr : Nat) (hdr : BlockHeader) (payload : List Nat) : Prop :=
  hdr.length = payload.length ∧ payload.length < 65536 ∧
  framReadBytes f addr 14 = serializeBlockHeader hdr ∧
  framReadBytes f (addr + 14) payload.length = payload ∧
  framReadBytes f (addr + 14 + payload.length) 2 = le16 (blockCrc hdr payload)

/-- The stored 14-byte header of a block (only its fields that steer the
engine's placement logic matter). -/
def StoredHeader (f : Fram) (addr : Nat) (hdr : BlockHeader) : Prop :=
  framReadBytes f addr 14 = serializeBlockHeader hdr ∧ hdr.length < 65536

/-- The block size recorded on media for the live entry of `tag` (0 when the
tag has no live entry); used to state fragmentation-threshold hypotheses. -/
def oldBlockSizeOf (ctx : Ctx) (tag : Nat) : Nat :=
  match tlvIndexFindPos ctx.index tag with
  | some i =>
      TLV_BLOCK_SIZE (parseBlockHeader
        (framReadBytes ctx.fram ((ctx.index.getD i IndexEntry.empty).data_addr) 14)).length
  | none => 0

/-- Basic sanity of the header bookkeeping (established by `format` and by
`defragment`, maintained by the engine). -/
def HeaderWf (h : Header) : Prop :=
  h.data_region_size = TLV_BACKUP_ADDR - TLV_DATA_ADDR ∧
  TLV_DATA_ADDR ≤ h.next_free_addr ∧
  h.next_free_addr ≤ TLV_DATA_ADDR + h.data_region_size ∧
  h.used_space ≤ h.next_free_addr - TLV_DATA_ADDR ∧
  h.tag_count ≤ TLV_MAX_TAG_COUNT

/-- The index table fits between `TLV_INDEX_ADDR` and `TLV_DATA_ADDR` (true
of the real `MAX_TAGS = 256` table: 8·256 + 2 = 2050 ≤ 0xE00). -/
def IndexFits (idx : List IndexEntry) : Prop :=
  TLV_INDEX_ADDR + (8 * idx.length + 2) ≤ TLV_DATA_ADDR

/-- No slot other than `i` holds a live entry for `tag`. -/
def UniqueLiveTag (idx : List IndexEntry) (tag i : Nat) : Prop :=
  ∀ k, k ≠ i → ¬ ((idx.getD k IndexEntry.empty).tag = tag ∧
                   entryValid (idx.getD k IndexEntry.empty) = true)

/-- Number of live (valid, non-empty-tag) slots. -/
def liveCount (idx : List IndexEntry) : Nat :=
  (idx.filter (fun e => e.tag != 0 && entryValid e)).length

/-- Number of occupied slots (`tag ≠ 0`, live or dirty). -/
def occupiedCount (idx : List IndexEntry) : Nat :=
  (idx.filter (fun e => e.tag != 0)).length

/- =================== concrete fixtures for evaluation =================== -/

/-- A one-entry schema for concrete evaluation: tag 1, up to 8 bytes. -/
def wMeta : Meta := ⟨1, 8, 0, 1, 0, "w", none⟩

/-- Singleton schema. -/
def wSchema : List Meta := [wMeta]

/-- An 8-slot empty index. -/
def wIndex : List IndexEntry := List.replicate 8 IndexEntry.empty

/-- A freshly formatted header over a 4 KiB data region. -/
def wHeader : Header :=
  { magic := TLV_SYSTEM_MAGIC
    version := TLV_SYSTEM_VERSION
    tag_count := 0
    data_region_start := TLV_DATA_ADDR
    data_region_size := 4096
    next_free_addr := TLV_DATA_ADDR
    total_writes := 0
    last_update_time := 0
    free_space := 4096
    used_space := 0
    fragment_count := 0
    fragment_size := 0
    header_crc16 := 0 }

/-- An idle transaction snapshot. -/
def wSnapshot : Snapshot := ⟨0, 0, 0, 0, 0, 0, false⟩

/-- An initialized context over a zeroed device. -/
def wCtx : Ctx :=
  { state := TlvState.initialized
    header := wHeader
    index := wIndex
    snapshot := wSnapshot
    streams := List.replicate 2 StreamHandleSlot.empty
    fram := fun _ => 0 }

/-- A transport whose writes fail in the data region (address ≥
`TLV_DATA_ADDR`) but succeed in the management area below it. -/
def wBadPort : Port :=
  ⟨fun addr _ => decide (TLV_DATA_ADDR ≤ addr), fun _ _ => false⟩

/-- Header of the 1-byte block the `w2` fixtures store for tag 1. -/
def w2BlockHdr : BlockHeader := ⟨1, 1, 1, 0, 0, 1⟩

/-- Index holding one live entry for tag 1 at `TLV_DATA_ADDR`. -/
def w2Index : List IndexEntry :=
  ⟨1, TLV_FLAG_VALID, 1, TLV_DATA_ADDR⟩ :: List.replicate 7 IndexEntry.empty

/-- Header after one 17-byte block has been allocated. -/
def w2Header : Header :=
  { wHeader with
      tag_count := 1
      next_free_addr := TLV_DATA_ADDR + 17
      used_space := 17
      free_space := 4079 }

/-- Device contents: the 1-byte block `[7]` for tag 1 at `TLV_DATA_ADDR`. -/
def w2Fram : Fram := blockWriteFram (fun _ => 0) TLV_DATA_ADDR w2BlockHdr [7]

/-- An initialized context already holding tag 1. -/
def w2Ctx : Ctx := { wCtx with header := w2Header, index := w2Index, fram := w2Fram }

/-- Header of the 2-byte block the `w3` fixture stores for tag 1. -/
def w3BlockHdr : BlockHeader := ⟨1, 2, 1, 0, 0, 1⟩

/-- Device contents: the 2-byte block `[7, 8]` for tag 1 at `TLV_DATA_ADDR`. -/
def w3Fram : Fram := blockWriteFram (fun _ => 0) TLV_DATA_ADDR w3BlockHdr [7, 8]

/-- Context holding the 2-byte block for tag 1. -/
def w3Ctx : Ctx := { w2Ctx with fram := w3Fram }

/-- The `w2` context with `used_space` corrupted to zero (reachable after
earlier wraps or header damage): exercises the unchecked subtraction. -/
def w4Ctx : Ctx := { w2Ctx with header := { w2Header with used_space := 0 } }

/-- Fold a list of chunk payloads through `tlv_write_chunk` on one handle
(the status of each call is the caller's business; the state threads on). -/
def writeChunks (p : Port) (ctx : Ctx) (handle : Nat) :
    List (List Nat) → Ctx
  | [] => ctx
  | c :: cs => writeChunks p (tlvWriteChunk p ctx handle c).2 handle cs

/-- What holds of the engine state throughout a stream write session on slot
`hi` targeting the fresh region `[target, target + 16 + T)`: the slot stays
a writing session with its cursor `14 + processed ≤ 14 + T`, the index and
engine state are untouched, and the device is untouched outside the target
region (relative to the post-`write_begin` state `base`). -/
def StreamSessionInv (base : Ctx) (hi target T : Nat) (ctx : Ctx) : Prop :=
  ctx.state = base.state ∧
  ctx.index = base.index ∧
  (ctx.streams.getD hi StreamHandleSlot.empty).magic = TLV_STREAM_MAGIC ∧
  (ctx.streams.getD hi StreamHandleSlot.empty).state = StreamState.writing ∧
  (ctx.streams.getD hi StreamHandleSlot.empty).data_addr = target ∧
  (ctx.streams.getD hi StreamHandleSlot.empty).total_len = T ∧
  (ctx.streams.getD hi StreamHandleSlot.empty).current_offset =
    14 + (ctx.streams.getD hi StreamHandleSlot.empty).processed_len ∧
  (ctx.streams.getD hi StreamHandleSlot.empty).processed_len ≤ T ∧
  (∀ x, x < target ∨ target + 16 + T ≤ x → ctx.fram x = base.fram x)

/-- Sum of `g 0 + ... + g (n-1)`. -/
def sumTo (g : Nat → Nat) : Nat → Nat
  | 0 => 0
  | n + 1 => sumTo g n + g n

/-- Tag stored in block slot `b` of the full-index fixture: slots 0 and 1
hold tags 2 and 1 out of address order; slot `k ≥ 2` holds tag `k + 1`. -/
def cxTagOf (b : Nat) : Nat := if b = 0 then 2 else if b = 1 then 1 else b + 1

/-- One-byte block header for tag `t`. -/
def cxHdrOf (t : Nat) : BlockHeader := ⟨t, 1, 1, 0, 0, 1⟩

/-- The serialized 17-byte block of tag `t` with payload `[t % 256]`. -/
def cxBlockBytes (t : Nat) : List Nat :=
  serializeBlockHeader (cxHdrOf t) ++ [t % 256] ++
    le16 (blockCrc (cxHdrOf t) [t % 256])

/-- A completely full index (256 live entries): entry 0 (tag 1) points at
slot 1, entry 1 (tag 2) at slot 0 — out of address order — and entry
`k ≥ 2` (tag `k + 1`) at slot `k`. -/
def cxIndex : List IndexEntry :=
  (List.range 256).map (fun k =>
    if k = 0 then ⟨1, TLV_FLAG_VALID, 1, TLV_DATA_ADDR + 17⟩
    else if k = 1 then ⟨2, TLV_FLAG_VALID, 1, TLV_DATA_ADDR⟩
    else ⟨k + 1, TLV_FLAG_VALID, 1, TLV_DATA_ADDR + 17 * k⟩)

/-- Device holding the 256 17-byte blocks back to back from `TLV_DATA_ADDR`. -/
def cxFram : Fram := fun x =>
  if TLV_DATA_ADDR ≤ x ∧ x < TLV_DATA_ADDR + 17 * 256 then
    (cxBlockBytes (cxTagOf ((x - TLV_DATA_ADDR) / 17))).getD
      ((x - TLV_DATA_ADDR) % 17) 0
  else 0

/-- Header of the full fixture. -/
def cxHeader : Header :=
  { magic := TLV_SYSTEM_MAGIC
    version := TLV_SYSTEM_VERSION
    tag_count := 256
    data_region_start := TLV_DATA_ADDR
    data_region_size := TLV_BACKUP_ADDR - TLV_DATA_ADDR
    next_free_addr := TLV_DATA_ADDR + 17 * 256
    total_writes := 0
    last_update_time := 0
    free_space := TLV_BACKUP_ADDR - TLV_DATA_ADDR - 17 * 256
    used_space := 17 * 256
    fragment_count := 0
    fragment_size := 0
    header_crc16 := 0 }

/-- The initialized full-index context. -/
def cxCtx : Ctx :=
  { state := TlvState.initialized
    header := cxHeader
    index := cxIndex
    snapshot := ⟨0, 0, 0, 0, 0, 0, false⟩
    streams := List.replicate 2 StreamHandleSlot.empty
    fram := cxFram }

/-- Device after `tlv_defragment`'s initial management-area backup. -/
def cxFb : Fram := (tlvBackupAllInternal Port.ideal cxCtx.fram).2

/-- The block-moving walk `tlv_defragment` performs on the full fixture. -/
def cxWalk : Int × List IndexEntry × Nat × Nat × Fram :=
  defragWalk Port.ideal
    ((sortIndexTable cxCtx.index).take
      ((sortIndexTable cxCtx.index).takeWhile
        (fun e => e.tag != 0 && entryValid e)).length)
    TLV_DATA_ADDR 0 cxFb

/-- The match predicate of `tlv_index_find`. -/
def findPred (tag : Nat) (e : IndexEntry) : Bool := e.tag == tag && entryValid e
end TlvFram

namespace TlvFram

/- ============================ basic lemmas ============================ -/

theorem framWriteBytes_ne (f : Fram) (addr : Nat) (bs : List Nat) (x : Nat)
    (h : x < addr ∨ addr + bs.length ≤ x) : framWriteBytes f addr bs x = f x := by
  unfold framWriteBytes
  rcases h with h | h <;> rw [if_neg] <;> omega

theorem framWriteBytes_in (f : Fram) (addr : Nat) (bs : List Nat) (x : Nat)
    (h1 : addr ≤ x) (h2 : x < addr + bs.length) :
    framWriteBytes f addr bs x = bs.getD (x - addr) 0 := by
  unfold framWriteBytes
  rw [if_pos ⟨h1, h2⟩]

theorem framReadBytes_congr (f g : Fram) (addr n : Nat)
    (h : ∀ x, addr ≤ x → x < addr + n → f x = g x) :
    framReadBytes f addr n = framReadBytes g addr n := by
  unfold framReadBytes
  apply List.map_congr_left
  intro i hi
  rw [List.mem_range] at hi
  exact h (addr + i) (Nat.le_add_right _ _) (by omega)

theorem framReadBytes_writeBytes_disjoint (f : Fram) (a b n : Nat) (bs : List Nat)
    (h : a + n ≤ b ∨ b + bs.length ≤ a) :
    framReadBytes (framWriteBytes f b bs) a n = framReadBytes f a n := by
  apply framReadBytes_congr
  intro x hx1 hx2
  apply framWriteBytes_ne
  omega

theorem List.getD_range_map {n : Nat} (g : Nat → Nat) (i : Nat) (hi : i < n) :
    (((List.range n).map g).getD i 0) = g i := by
  rw [List.getD_eq_getElem?_getD, List.getElem?_map, List.getElem?_range hi]
  rfl

theorem framReadBytes_writeBytes_eq (f : Fram) (addr : Nat) (bs : List Nat) :
    framReadBytes (framWriteBytes f addr bs) addr bs.length = bs := by
  unfold framReadBytes
  apply List.ext_getElem
  · simp
  · intro i h1 h2
    simp only [List.getElem_map, List.getElem_range]
    rw [framWriteBytes_in f addr bs (addr + i) (Nat.le_add_right _ _) (by simpa using h2)]
    simp only [Nat.add_sub_cancel_left]
    exact List.getD_eq_getElem bs 0 h2

theorem framReadBytes_length (f : Fram) (addr n : Nat) :
    (framReadBytes f addr n).length = n := by
  simp [framReadBytes]

/- ===================== codec and CRC lemmas ===================== -/

theorem crcStep_lt (c : Nat) (h : c < 65536) : crcStep c < 65536 := by
  unfold crcStep
  split
  · have h1 : c / 2 < 2 ^ 16 := by omega
    have h2 : (0xA001 : Nat) < 2 ^ 16 := by norm_num
    have := Nat.xor_lt_two_pow h1 h2
    simpa using this
  · omega

theorem crcByte_lt (c b : Nat) (h : c < 65536) : crcByte c b < 65536 := by
  unfold crcByte
  have hx : c ^^^ b % 256 < 65536 := by
    have h1 : c < 2 ^ 16 := h
    have h2 : b % 256 < 2 ^ 16 := by have := Nat.mod_lt b (y := 256) (by norm_num); omega
    have := Nat.xor_lt_two_pow h1 h2
    simpa using this
  have : ∀ k x, x < 65536 → crcStep^[k] x < 65536 := by
    intro k
    induction k with
    | zero => intro x hx; simpa using hx
    | succ n ih =>
        intro x hx
        rw [Function.iterate_succ_apply]
        exact ih _ (crcStep_lt x hx)
  exact this 8 _ hx

theorem tlv_crc16_update_lt (c : Nat) (bs : List Nat) (h : c < 65536) :
    tlv_crc16_update c bs < 65536 := by
  induction bs generalizing c with
  | nil => simpa [tlv_crc16_update] using h
  | cons b rest ih =>
      rw [tlv_crc16_update, List.foldl_cons]
      exact ih _ (crcByte_lt c b h)

theorem tlv_crc16_lt (bs : List Nat) : tlv_crc16 bs < 65536 := by
  unfold tlv_crc16 tlv_crc16_final
  exact tlv_crc16_update_lt _ _ (by norm_num [tlv_crc16_init])

theorem dec16_le16 (n : Nat) (h : n < 65536) : dec16 (le16 n) 0 = n := by
  simp only [dec16, le16, List.getD_cons_zero, List.getD_cons_succ]
  omega

theorem le16_length (n : Nat) : (le16 n).length = 2 := by simp [le16]

theorem le32_length (n : Nat) : (le32 n).length = 4 := by simp [le32]

theorem serializeBlockHeader_length (h : BlockHeader) :
    (serializeBlockHeader h).length = 14 := by
  simp [serializeBlockHeader, le16, le32]

/-- The `length` field survives the serialize/parse round trip. -/
theorem parse_serialize_length (h : BlockHeader) (hl : h.length < 65536) :
    (parseBlockHeader (serializeBlockHeader h)).length = h.length := by
  simp only [parseBlockHeader, serializeBlockHeader, le16, le32, dec16]
  simp only [List.append_assoc, List.cons_append, List.nil_append,
    List.getD_cons_zero, List.getD_cons_succ]
  omega

/-- The `tag` field survives the serialize/parse round trip. -/
theorem parse_serialize_tag (h : BlockHeader) (ht : h.tag < 65536) :
    (parseBlockHeader (serializeBlockHeader h)).tag = h.tag := by
  simp only [parseBlockHeader, serializeBlockHeader, le16, le32, dec16]
  simp only [List.append_assoc, List.cons_append, List.nil_append,
    List.getD_cons_zero, List.getD_cons_succ]
  omega

/- ===================== block codec specifications ===================== -/

theorem tlv_crc16_update_append (c : Nat) (a b : List Nat) :
    tlv_crc16_update c (a ++ b) = tlv_crc16_update (tlv_crc16_update c a) b := by
  simp [tlv_crc16_update, List.foldl_append]

theorem blockCrc_lt (hdr : BlockHeader) (payload : List Nat) :
    blockCrc hdr payload < 65536 := by
  unfold blockCrc tlv_crc16_final
  exact tlv_crc16_update_lt _ _
    (tlv_crc16_update_lt _ _ (by norm_num [tlv_crc16_init]))

theorem portRead_ideal (f : Fram) (addr n : Nat) (h : n ≠ 0) :
    portRead Port.ideal f addr n = (TLV_OK, framReadBytes f addr n) := by
  simp [portRead, Port.ideal, h]

theorem portWrite_ideal (f : Fram) (addr : Nat) (bs : List Nat) (h : bs ≠ []) :
    portWrite Port.ideal f addr bs = (TLV_OK, framWriteBytes f addr bs) := by
  simp [portWrite, Port.ideal, h]

theorem serializeBlockHeader_ne_nil (h : BlockHeader) :
    serializeBlockHeader h ≠ [] := by
  intro he
  have := serializeBlockHeader_length h
  rw [he] at this
  simp at this

theorem le16_ne_nil (n : Nat) : le16 n ≠ [] := by simp [le16]

/-- What `write_data_block` writes, on a failure-free transport. -/
theorem writeDataBlock_ideal (schema : List Meta) (f : Fram) (tag : Nat)
    (payload : List Nat) (addr now : Nat) (hne : payload ≠ []) :
    ∃ hdr : BlockHeader,
      hdr.tag = tag ∧ hdr.length = payload.length ∧
      hdr.version = ((getMeta schema tag).map Meta.version).getD 1 ∧
      hdr.flags = 0 ∧ hdr.timestamp = now ∧
      writeDataBlock Port.ideal schema f tag payload addr now =
        (TLV_OK, blockWriteFram f addr hdr payload) := by
  unfold writeDataBlock
  rw [portRead_ideal _ _ _ (by norm_num)]
  refine ⟨{ tag := tag, length := payload.length,
            version := ((getMeta schema tag).map Meta.version).getD 1,
            flags := 0, timestamp := now,
            write_count :=
              if (TLV_OK : Int) = TLV_OK ∧
                 (parseBlockHeader (framReadBytes f addr 14)).tag = tag then
                add32 (parseBlockHeader (framReadBytes f addr 14)).write_count 1
              else 1 }, rfl, rfl, rfl, rfl, rfl, ?_⟩
  dsimp only
  rw [portWrite_ideal _ _ _ (serializeBlockHeader_ne_nil _)]
  simp only
  rw [if_neg (by norm_num : ¬((TLV_OK : Int) ≠ TLV_OK))]
  rw [portWrite_ideal _ _ _ hne]
  simp only
  rw [if_neg (by norm_num : ¬((TLV_OK : Int) ≠ TLV_OK))]
  rw [portWrite_ideal _ _ _ (le16_ne_nil _)]
  rfl

/-- `read_data_block` returns a stored block verbatim on a failure-free
transport, given a buffer of sufficient size. -/
theorem readDataBlock_stored (f : Fram) (addr : Nat) (hdr : BlockHeader)
    (payload : List Nat) (lenIn : Nat) (hs : StoredBlock f addr hdr payload)
    (hne : payload ≠ []) (hcap : payload.length ≤ lenIn) :
    readDataBlock Port.ideal f addr lenIn = (TLV_OK, payload, payload.length) := by
  obtain ⟨hlen, hlt, hh, hp, hc⟩ := hs
  have hpl : payload.length ≠ 0 := by
    intro h0; exact hne (List.eq_nil_of_length_eq_zero h0)
  unfold readDataBlock
  rw [portRead_ideal _ _ _ (by norm_num)]
  simp only
  rw [if_neg (by norm_num : ¬((TLV_OK : Int) ≠ TLV_OK))]
  rw [hh]
  have hplen : (parseBlockHeader (serializeBlockHeader hdr)).length = payload.length := by
    rw [parse_serialize_length hdr (by omega)]; exact hlen
  rw [hplen]
  rw [if_neg (by omega : ¬(payload.length > lenIn))]
  rw [portRead_ideal _ _ _ hpl]
  simp only
  rw [if_neg (by norm_num : ¬((TLV_OK : Int) ≠ TLV_OK))]
  rw [portRead_ideal _ _ _ (by norm_num)]
  simp only
  rw [if_neg (by norm_num : ¬((TLV_OK : Int) ≠ TLV_OK))]
  rw [hp, hc]
  rw [dec16_le16 _ (blockCrc_lt hdr payload)]
  rw [if_neg (by
    simp only [ne_eq, not_not]
    unfold blockCrc
    rfl)]

/-- `blockWriteFram` leaves everything outside `[addr, addr + 16 + len)`
unchanged. -/
theorem blockWriteFram_frame (f : Fram) (addr : Nat) (hdr : BlockHeader)
    (payload : List Nat) (x : Nat)
    (hx : x < addr ∨ addr + 16 + payload.length ≤ x) :
    blockWriteFram f addr hdr payload x = f x := by
  unfold blockWriteFram
  rw [framWriteBytes_ne _ _ _ _ (by rw [le16_length]; omega),
      framWriteBytes_ne _ _ _ _ (by omega),
      framWriteBytes_ne _ _ _ _ (by rw [serializeBlockHeader_length]; omega)]

/-- `blockWriteFram` stores the block. -/
theorem storedBlock_blockWriteFram (f : Fram) (addr : Nat) (hdr : BlockHeader)
    (payload : List Nat) (hlen : hdr.length = payload.length)
    (hlt : payload.length < 65536) :
    StoredBlock (blockWriteFram f addr hdr payload) addr hdr payload := by
  refine ⟨hlen, hlt, ?_, ?_, ?_⟩
  · unfold blockWriteFram
    rw [framReadBytes_writeBytes_disjoint _ _ _ _ _ (by left; omega),
        framReadBytes_writeBytes_disjoint _ _ _ _ _ (by left; omega)]
    have := framReadBytes_writeBytes_eq f addr (serializeBlockHeader hdr)
    rwa [serializeBlockHeader_length] at this
  · unfold blockWriteFram
    rw [framReadBytes_writeBytes_disjoint _ _ _ _ _ (by left; omega)]
    exact framReadBytes_writeBytes_eq _ _ payload
  · unfold blockWriteFram
    have := framReadBytes_writeBytes_eq
      (framWriteBytes (framWriteBytes f addr (serializeBlockHeader hdr)) (addr + 14) payload)
      (addr + 14 + payload.length) (le16 (blockCrc hdr payload))
    rwa [le16_length] at this

/- ===================== save-path and arithmetic lemmas ===================== -/

theorem add32_eq (a b : Nat) (h : a + b < U32) : add32 a b = a + b := by
  unfold add32 U32 at *
  omega

theorem sub32_eq (a b : Nat) (hb : b ≤ a) (ha : a < U32) : sub32 a b = a - b := by
  unfold sub32 U32 at *
  omega

theorem serializeIndexEntry_length (e : IndexEntry) :
    (serializeIndexEntry e).length = 8 := by
  simp [serializeIndexEntry, le16, le32]

theorem serializeIndexTable_length (idx : List IndexEntry) :
    (serializeIndexTable idx).length = 8 * idx.length + 2 := by
  unfold serializeIndexTable
  rw [List.length_append, le16_length]
  congr 1
  induction idx with
  | nil => simp
  | cons e rest ih =>
      rw [List.flatMap_cons, List.length_append, serializeIndexEntry_length,
        List.length_cons, ih]
      ring

theorem serializeIndexTable_ne_nil (idx : List IndexEntry) :
    serializeIndexTable idx ≠ [] := by
  intro h
  have := serializeIndexTable_length idx
  rw [h] at this
  simp at this

theorem tlvIndexSave_ideal (f : Fram) (idx : List IndexEntry) :
    tlvIndexSave Port.ideal f idx =
      (TLV_OK, framWriteBytes f TLV_INDEX_ADDR (serializeIndexTable idx)) := by
  unfold tlvIndexSave
  exact portWrite_ideal _ _ _ (serializeIndexTable_ne_nil idx)

/-- Packaged form: the index save succeeds and writes an opaque byte string
of the table's size at `TLV_INDEX_ADDR`. -/
theorem tlvIndexSave_ideal_ex (f : Fram) (idx : List IndexEntry) :
    ∃ bs : List Nat, bs.length = 8 * idx.length + 2 ∧
      tlvIndexSave Port.ideal f idx =
        (TLV_OK, framWriteBytes f TLV_INDEX_ADDR bs) :=
  ⟨serializeIndexTable idx, serializeIndexTable_length idx, tlvIndexSave_ideal f idx⟩

set_option maxRecDepth 4000 in
theorem serializeHeaderPre_length (h : Header) :
    (serializeHeaderPre h).length = 254 := by
  simp [serializeHeaderPre, le16, le32]

theorem systemHeaderSave_ideal (f : Fram) (h : Header) :
    systemHeaderSave Port.ideal f h =
      (TLV_OK, { h with header_crc16 := tlv_crc16 (serializeHeaderPre h) },
        framWriteBytes f TLV_HEADER_ADDR
          (serializeHeaderPre { h with header_crc16 := tlv_crc16 (serializeHeaderPre h) } ++
            le16 (tlv_crc16 (serializeHeaderPre h)))) := by
  unfold systemHeaderSave
  dsimp only
  rw [portWrite_ideal _ _ _ (by
    intro he
    have h2 := congrArg List.length he
    rw [List.length_append, serializeHeaderPre_length, le16_length] at h2
    simp at h2)]

/-- The serialized header-pre of a header differs from that of the same
header with another CRC field only in no byte at all (the CRC field is not
part of it). -/
theorem serializeHeaderPre_crc_irrelevant (h : Header) (c : Nat) :
    serializeHeaderPre { h with header_crc16 := c } = serializeHeaderPre h := rfl

/-- Packaged form: the header save succeeds, refreshes only the CRC field,
and writes an opaque 256-byte string at `TLV_HEADER_ADDR`. -/
theorem systemHeaderSave_ideal_ex (f : Fram) (h : Header) :
    ∃ (c : Nat) (bs : List Nat), bs.length = 256 ∧
      systemHeaderSave Port.ideal f h =
        (TLV_OK, { h with header_crc16 := c }, framWriteBytes f TLV_HEADER_ADDR bs) := by
  refine ⟨tlv_crc16 (serializeHeaderPre h), _, ?_, systemHeaderSave_ideal f h⟩
  rw [List.length_append, serializeHeaderPre_length, le16_length]

/-- A stored block stays stored on a device that agrees on its bytes. -/
theorem StoredBlock_congr (f g : Fram) (addr : Nat) (hdr : BlockHeader)
    (payload : List Nat)
    (hag : ∀ x, addr ≤ x → x < addr + 16 + payload.length → f x = g x)
    (hs : StoredBlock f addr hdr payload) :
    StoredBlock g addr hdr payload := by
  obtain ⟨h1, h2, h3, h4, h5⟩ := hs
  refine ⟨h1, h2, ?_, ?_, ?_⟩
  · exact (framReadBytes_congr g f addr 14
      (fun x hx1 hx2 => (hag x hx1 (by omega)).symm)).trans h3
  · exact (framReadBytes_congr g f (addr + 14) payload.length
      (fun x hx1 hx2 => (hag x (by omega) (by omega)).symm)).trans h4
  · exact (framReadBytes_congr g f (addr + 14 + payload.length) 2
      (fun x hx1 hx2 => (hag x (by omega) (by omega)).symm)).trans h5

/- ================= index add / commit-tail specifications ================= -/

/-- `tlv_index_add` on a fresh tag: fills the first free slot with the
schema version and bumps `tag_count`, provided the region check passes. -/
theorem tlvIndexAdd_fresh (schema : List Meta) (idx : List IndexEntry)
    (hdr : Header) (tag addr j : Nat) (meta : Meta)
    (Htag : tag ≠ 0)
    (Hvalid : TLV_IS_VALID_ADDR addr = true)
    (Hfind : tlvIndexFindPos idx tag = none)
    (Hfree : tlvIndexFindFreeSlot idx = some j)
    (Hmeta : getMeta schema tag = some meta)
    (Hregv : isTagRegionValid schema tag addr (meta.max_length + 20) = true) :
    tlvIndexAdd schema idx hdr tag addr =
      some (j, idx.set j ⟨tag, TLV_FLAG_VALID, meta.version, addr⟩,
        { hdr with tag_count := (hdr.tag_count + 1) % U16 }) := by
  unfold tlvIndexAdd
  rw [if_neg (by simp [Htag, Hvalid])]
  rw [Hfind, Hfree, Hmeta]
  simp only [Option.map_some', Option.getD_some]
  rw [if_pos Hregv]

/-- The commit tail of `tlv_write` on a failure-free transport: index save,
snapshot commit, header statistics, header save, and (below the
fragmentation threshold) no auto-defragment.  The device changes only below
`TLV_DATA_ADDR`. -/
theorem tlvWriteCommit_ideal (ctx2 : Ctx) (idxB : List IndexEntry)
    (hdrB : Header) (now : Nat)
    (Hfit : IndexFits idxB)
    (Hfrag : tlvCalculateFragmentation
      { hdrB with total_writes := add32 hdrB.total_writes 1,
                  last_update_time := now } < TLV_AUTO_DEFRAG_THRESHOLD) :
    ∃ (hdrF : Header) (f3 : Fram),
      tlvWriteCommit Port.ideal ctx2 idxB hdrB now =
        (TLV_OK, { ctx2 with
                   index := idxB
                   header := hdrF
                   snapshot := { ctx2.snapshot with is_active := false }
                   fram := f3 }) ∧
      hdrF.next_free_addr = hdrB.next_free_addr ∧
      hdrF.used_space = hdrB.used_space ∧
      hdrF.free_space = hdrB.free_space ∧
      hdrF.fragment_count = hdrB.fragment_count ∧
      hdrF.fragment_size = hdrB.fragment_size ∧
      hdrF.tag_count = hdrB.tag_count ∧
      hdrF.data_region_size = hdrB.data_region_size ∧
      (∀ x, TLV_DATA_ADDR ≤ x → f3 x = ctx2.fram x) := by
  obtain ⟨ibs, hibs, Hisave⟩ := tlvIndexSave_ideal_ex ctx2.fram idxB
  unfold tlvWriteCommit
  rw [Hisave]
  dsimp only
  rw [if_neg (by norm_num : ¬((TLV_OK : Int) ≠ TLV_OK))]
  dsimp only [snapshotCommit]
  obtain ⟨c, hbs, hlbs, Hhsave⟩ :=
    systemHeaderSave_ideal_ex (framWriteBytes ctx2.fram TLV_INDEX_ADDR ibs)
      { hdrB with total_writes := add32 hdrB.total_writes 1, last_update_time := now }
  rw [Hhsave]
  dsimp only
  rw [if_neg (by norm_num : ¬((TLV_OK : Int) ≠ TLV_OK))]
  unfold autoDefragTail
  rw [if_neg (by
    simp only [not_le]
    exact Hfrag)]
  refine ⟨_, _, rfl, rfl, rfl, rfl, rfl, rfl, rfl, rfl, ?_⟩
  intro x hx
  rw [framWriteBytes_ne _ _ _ _ (by
      right
      rw [hlbs]
      have : TLV_HEADER_ADDR + 256 ≤ TLV_DATA_ADDR := by
        norm_num [TLV_HEADER_ADDR, TLV_DATA_ADDR]
      omega)]
  rw [framWriteBytes_ne _ _ _ _ (by
      right
      have hfit := Hfit
      unfold IndexFits at hfit
      unfold TLV_INDEX_ADDR TLV_DATA_ADDR at *
      omega)]

/- =================== `tlv_write`: fresh-tag branch =================== -/

/-- Successful `tlv_write` of a tag with no live index entry: allocate at
the bump pointer, write the block, fill the first free index slot, commit.
Characterizes the whole resulting state. -/
theorem tlvWrite_fresh_eq (schema : List Meta) (ctx : Ctx) (tag : Nat)
    (payload : List Nat) (now : Nat) (meta : Meta) (j : Nat)
    (Hst : ctx.state = TlvState.initialized)
    (Htag : tag ≠ 0)
    (Hne : payload ≠ [])
    (Hmeta : getMeta schema tag = some meta)
    (Hmax : payload.length ≤ meta.max_length)
    (Hmax16 : meta.max_length < 65536)
    (Hfind : tlvIndexFindPos ctx.index tag = none)
    (Hslot : ctx.header.tag_count < TLV_MAX_TAG_COUNT)
    (Hfree : tlvIndexFindFreeSlot ctx.index = some j)
    (Hfit : IndexFits ctx.index)
    (Hnfa : TLV_DATA_ADDR ≤ ctx.header.next_free_addr)
    (Halloc : ctx.header.next_free_addr + TLV_BLOCK_SIZE payload.length ≤
        TLV_DATA_ADDR + ctx.header.data_region_size)
    (Hregion : TLV_DATA_ADDR + ctx.header.data_region_size ≤ TLV_BACKUP_ADDR)
    (Hused : ctx.header.used_space ≤ ctx.header.next_free_addr - TLV_DATA_ADDR)
    (Hregv : isTagRegionValid schema tag ctx.header.next_free_addr
        (meta.max_length + 20) = true)
    (Hfrag : (ctx.header.next_free_addr - TLV_DATA_ADDR - ctx.header.used_space) * 100 <
        TLV_AUTO_DEFRAG_THRESHOLD * ctx.header.data_region_size) :
    ∃ (hdrW : BlockHeader) (ctx' : Ctx),
      tlvWrite Port.ideal schema ctx tag payload now = (TLV_OK, ctx') ∧
      ctx'.state = ctx.state ∧
      ctx'.index = ctx.index.set j
        ⟨tag, TLV_FLAG_VALID, meta.version, ctx.header.next_free_addr⟩ ∧
      ctx'.header.next_free_addr =
        ctx.header.next_free_addr + TLV_BLOCK_SIZE payload.length ∧
      ctx'.header.used_space =
        ctx.header.used_space + TLV_BLOCK_SIZE payload.length ∧
      ctx'.header.free_space =
        sub32 ctx.header.free_space (TLV_BLOCK_SIZE payload.length) ∧
      ctx'.header.fragment_count = ctx.header.fragment_count ∧
      ctx'.header.fragment_size = ctx.header.fragment_size ∧
      ctx'.header.tag_count = (ctx.header.tag_count + 1) % U16 ∧
      ctx'.header.data_region_size = ctx.header.data_region_size ∧
      hdrW.length = payload.length ∧
      StoredBlock ctx'.fram ctx.header.next_free_addr hdrW payload ∧
      (∀ x, TLV_DATA_ADDR ≤ x →
        (x < ctx.header.next_free_addr ∨
          ctx.header.next_free_addr + 16 + payload.length ≤ x) →
        ctx'.fram x = ctx.fram x) := by
  have hlen0 : payload.length ≠ 0 := fun h => Hne (List.eq_nil_of_length_eq_zero h)
  have hb17 : 17 ≤ TLV_BLOCK_SIZE payload.length := by
    unfold TLV_BLOCK_SIZE; omega
  have hbas : (TLV_DATA_ADDR : Nat) = 4096 := rfl
  have hbk : (TLV_BACKUP_ADDR : Nat) = 126976 := rfl
  obtain ⟨hdrW, hwtag, hwlen, hwver, hwflags, hwts, Heq⟩ :=
    writeDataBlock_ideal schema ctx.fram tag payload ctx.header.next_free_addr now Hne
  unfold tlvWrite
  rw [if_neg (by simp [hlen0, Htag])]
  rw [if_neg (by simp [Hst])]
  rw [Hmeta]
  dsimp only
  rw [if_neg (by omega : ¬(payload.length > meta.max_length))]
  dsimp only [snapshotCreate]
  rw [Hfind]
  dsimp only
  rw [if_neg (not_not_intro Hslot)]
  unfold allocateSpace
  rw [if_neg (by omega :
    ¬(ctx.header.next_free_addr + TLV_BLOCK_SIZE payload.length >
      TLV_DATA_ADDR + ctx.header.data_region_size))]
  dsimp only
  rw [if_neg (by omega : ¬(ctx.header.next_free_addr = 0))]
  dsimp only
  rw [Heq]
  dsimp only
  rw [if_neg (by norm_num : ¬((TLV_OK : Int) ≠ TLV_OK))]
  rw [if_pos rfl]
  rw [tlvIndexAdd_fresh schema ctx.index _ tag ctx.header.next_free_addr j meta
    Htag (by unfold TLV_IS_VALID_ADDR; simp; omega) Hfind Hfree Hmeta Hregv]
  dsimp only
  obtain ⟨hdrF, f3, Hcommit, e1, e2, e3, e4, e5, e6, e7, Hframe⟩ :=
    tlvWriteCommit_ideal
      { ctx with
          snapshot :=
            { next_free_addr := ctx.header.next_free_addr
              used_space := ctx.header.used_space
              free_space := ctx.header.free_space
              fragment_count := ctx.header.fragment_count
              fragment_size := ctx.header.fragment_size
              tag_count := ctx.header.tag_count
              is_active := true }
          header := { ctx.header with
            next_free_addr := add32 ctx.header.next_free_addr (TLV_BLOCK_SIZE payload.length)
            used_space := add32 ctx.header.used_space (TLV_BLOCK_SIZE payload.length)
            free_space := sub32 ctx.header.free_space (TLV_BLOCK_SIZE payload.length) }
          fram := blockWriteFram ctx.fram ctx.header.next_free_addr hdrW payload }
      (ctx.index.set j ⟨tag, TLV_FLAG_VALID, meta.version, ctx.header.next_free_addr⟩)
      { ctx.header with
          next_free_addr := add32 ctx.header.next_free_addr (TLV_BLOCK_SIZE payload.length)
          used_space := add32 ctx.header.used_space (TLV_BLOCK_SIZE payload.length)
          free_space := sub32 ctx.header.free_space (TLV_BLOCK_SIZE payload.length)
          tag_count := (ctx.header.tag_count + 1) % U16 }
      now
      (by unfold IndexFits at Hfit ⊢; rw [List.length_set]; exact Hfit)
      (by
        have hU : U32 = 4294967296 := rfl
        unfold tlvCalculateFragmentation
        dsimp only
        have ha1 : add32 ctx.header.next_free_addr (TLV_BLOCK_SIZE payload.length) =
            ctx.header.next_free_addr + TLV_BLOCK_SIZE payload.length := by
          apply add32_eq; omega
        have ha2 : add32 ctx.header.used_space (TLV_BLOCK_SIZE payload.length) =
            ctx.header.used_space + TLV_BLOCK_SIZE payload.length := by
          apply add32_eq; omega
        rw [ha1, ha2]
        have hs1 : sub32 (ctx.header.next_free_addr + TLV_BLOCK_SIZE payload.length)
            TLV_DATA_ADDR =
            ctx.header.next_free_addr + TLV_BLOCK_SIZE payload.length - TLV_DATA_ADDR :=
          sub32_eq _ _ (by omega) (by omega)
        rw [hs1]
        have hs2 : sub32
            (ctx.header.next_free_addr + TLV_BLOCK_SIZE payload.length - TLV_DATA_ADDR)
            (ctx.header.used_space + TLV_BLOCK_SIZE payload.length) =
            ctx.header.next_free_addr - TLV_DATA_ADDR - ctx.header.used_space :=
          (sub32_eq _ _ (by omega) (by omega)).trans (by omega)
        rw [hs2]
        rw [if_pos (by omega : 0 < ctx.header.data_region_size)]
        rw [Nat.div_lt_iff_lt_mul (by omega : 0 < ctx.header.data_region_size)]
        calc (ctx.header.next_free_addr - TLV_DATA_ADDR - ctx.header.used_space) * 100
            < TLV_AUTO_DEFRAG_THRESHOLD * ctx.header.data_region_size := Hfrag
          _ = TLV_AUTO_DEFRAG_THRESHOLD * ctx.header.data_region_size := rfl)
  rw [Hcommit]
  refine ⟨hdrW, _, rfl, rfl, rfl, ?_, ?_, ?_, ?_, ?_, ?_, ?_, hwlen, ?_, ?_⟩
  · rw [e1]
    dsimp only
    apply add32_eq
    unfold U32
    omega
  · rw [e2]
    dsimp only
    apply add32_eq
    unfold U32
    omega
  · rw [e3]
  · rw [e4]
  · rw [e5]
  · rw [e6]
  · rw [e7]
  · show StoredBlock f3 ctx.header.next_free_addr hdrW payload
    apply StoredBlock_congr _ _ _ _ _ ?_
      (storedBlock_blockWriteFram ctx.fram ctx.header.next_free_addr hdrW payload hwlen
        (by omega))
    intro x hx1 hx2
    exact (Hframe x (by omega)).symm
  · intro x hx1 hx2
    show f3 x = ctx.fram x
    rw [Hframe x hx1]
    exact blockWriteFram_frame ctx.fram ctx.header.next_free_addr hdrW payload x hx2

/- =================== index lookup characterizations =================== -/

theorem getD_set_eq (l : List α) (i : Nat) (x d : α) (h : i < l.length) :
    (l.set i x).getD i d = x := by
  rw [List.getD_eq_getElem _ _ (by rw [List.length_set]; exact h)]
  exact List.getElem_set_self _

theorem getD_set_ne (l : List α) (i j : Nat) (x d : α) (h : i ≠ j) :
    (l.set i x).getD j d = l.getD j d := by
  by_cases hj : j < l.length
  · rw [List.getD_eq_getElem _ _ (by rw [List.length_set]; exact hj),
        List.getD_eq_getElem _ _ hj]
    exact List.getElem_set_ne h _
  · rw [List.getD_eq_default _ _ (by rw [List.length_set]; omega),
        List.getD_eq_default _ _ (by omega)]

theorem findPred_iff (tag : Nat) (e : IndexEntry) :
    findPred tag e = true ↔ (e.tag = tag ∧ entryValid e = true) := by
  simp [findPred]

theorem tlvIndexFindPos_some (idx : List IndexEntry) (tag i : Nat)
    (h : tlvIndexFindPos idx tag = some i) :
    i < idx.length ∧
    (idx.getD i IndexEntry.empty).tag = tag ∧
    entryValid (idx.getD i IndexEntry.empty) = true ∧
    (∀ k, k < i →
      ¬((idx.getD k IndexEntry.empty).tag = tag ∧
        entryValid (idx.getD k IndexEntry.empty) = true)) := by
  unfold tlvIndexFindPos at h
  by_cases h0 : tag = 0
  · rw [if_pos h0] at h; exact absurd h (by simp)
  · rw [if_neg h0] at h
    rw [List.findIdx?_eq_some_iff_getElem] at h
    obtain ⟨hlt, hp, hbefore⟩ := h
    refine ⟨hlt, ?_, ?_, ?_⟩
    · rw [List.getD_eq_getElem _ _ hlt]
      exact ((findPred_iff tag _).mp (by simpa [findPred, entryValid] using hp)).1
    · rw [List.getD_eq_getElem _ _ hlt]
      exact ((findPred_iff tag _).mp (by simpa [findPred, entryValid] using hp)).2
    · intro k hk hcon
      have hk2 : k < idx.length := Nat.lt_trans hk hlt
      have := hbefore k hk
      rw [List.getD_eq_getElem _ _ hk2] at hcon
      exact this (by simpa [findPred, entryValid] using (findPred_iff tag _).mpr hcon)

theorem tlvIndexFindPos_eq_some_of (idx : List IndexEntry) (tag i : Nat)
    (Htag : tag ≠ 0) (hi : i < idx.length)
    (hp : (idx.getD i IndexEntry.empty).tag = tag ∧
      entryValid (idx.getD i IndexEntry.empty) = true)
    (hbefore : ∀ k, k < i →
      ¬((idx.getD k IndexEntry.empty).tag = tag ∧
        entryValid (idx.getD k IndexEntry.empty) = true)) :
    tlvIndexFindPos idx tag = some i := by
  unfold tlvIndexFindPos
  rw [if_neg Htag]
  rw [List.findIdx?_eq_some_iff_getElem]
  refine ⟨hi, ?_, ?_⟩
  · rw [List.getD_eq_getElem _ _ hi] at hp
    simpa [findPred, entryValid] using (findPred_iff tag _).mpr hp
  · intro k hk
    have hk2 : k < idx.length := Nat.lt_trans hk hi
    have := hbefore k hk
    rw [List.getD_eq_getElem _ _ hk2] at this
    intro hcon
    exact this ((findPred_iff tag _).mp (by simpa [findPred, entryValid] using hcon))

theorem tlvIndexFindPos_eq_none_of (idx : List IndexEntry) (tag : Nat)
    (h : ∀ k, k < idx.length →
      ¬((idx.getD k IndexEntry.empty).tag = tag ∧
        entryValid (idx.getD k IndexEntry.empty) = true)) :
    tlvIndexFindPos idx tag = none := by
  unfold tlvIndexFindPos
  by_cases h0 : tag = 0
  · rw [if_pos h0]
  · rw [if_neg h0]
    rw [List.findIdx?_eq_none_iff]
    intro e he
    obtain ⟨k, hk, rfl⟩ := List.mem_iff_getElem.mp he
    have := h k hk
    rw [List.getD_eq_getElem _ _ hk] at this
    by_cases hb : (idx[k].tag == tag && entryValid idx[k]) = true
    · exact absurd ((findPred_iff tag idx[k]).mp hb) this
    · simpa using hb

/- =================== `tlv_write`: in-place branch =================== -/

/-- `tlv_index_update` on a found live entry. -/
theorem tlvIndexUpdate_found (schema : List Meta) (idx : List IndexEntry)
    (tag addr i : Nat) (meta : Meta)
    (Htag : tag ≠ 0) (Hvalid : TLV_IS_VALID_ADDR addr = true)
    (Hfind : tlvIndexFindPos idx tag = some i)
    (Hmeta : getMeta schema tag = some meta) :
    tlvIndexUpdate schema idx tag addr =
      (TLV_OK, idx.set i
        { idx.getD i IndexEntry.empty with
            data_addr := addr
            flags := ((idx.getD i IndexEntry.empty).flags ||| TLV_FLAG_VALID) &&&
              (255 - TLV_FLAG_DIRTY)
            version := meta.version }) := by
  unfold tlvIndexUpdate
  rw [if_neg (by simp [Htag, Hvalid])]
  rw [Hfind]
  dsimp only
  rw [Hmeta]
  simp only [Option.map_some', Option.getD_some]

/-- Replacing a slot with an entry on which the search predicate agrees does
not change the result of the scan. -/
theorem findIdx?_set_congr {α : Type} (l : List α) (i : Nat) (x : α)
    (p : α → Bool) (d : α) (h : p x = p (l.getD i d)) :
    (l.set i x).findIdx? p = l.findIdx? p := by
  induction l generalizing i with
  | nil => simp
  | cons a t ih =>
    cases i with
    | zero =>
        simp only [List.getD_cons_zero] at h
        simp only [List.set_cons_zero, List.findIdx?_cons, h]
    | succ n =>
        simp only [List.getD_cons_succ] at h
        simp only [List.set_cons_succ, List.findIdx?_cons]
        rw [List.findIdx?_succ, List.findIdx?_succ, ih n h]

/-- Successful `tlv_write` over an existing live entry whose stored block is
at least as large as the new one: in-place update at the entry's address. -/
theorem tlvWrite_inplace_eq (schema : List Meta) (ctx : Ctx) (tag : Nat)
    (payload : List Nat) (now : Nat) (meta : Meta) (i : Nat) (oldHdr : BlockHeader)
    (Hst : ctx.state = TlvState.initialized)
    (Htag : tag ≠ 0)
    (Hne : payload ≠ [])
    (Hmeta : getMeta schema tag = some meta)
    (Hmax : payload.length ≤ meta.max_length)
    (Hmax16 : meta.max_length < 65536)
    (Hfind : tlvIndexFindPos ctx.index tag = some i)
    (Haddr : TLV_IS_VALID_ADDR ((ctx.index.getD i IndexEntry.empty).data_addr) = true)
    (Hoh : framReadBytes ctx.fram ((ctx.index.getD i IndexEntry.empty).data_addr) 14 =
      serializeBlockHeader oldHdr)
    (Hoh16 : oldHdr.length < 65536)
    (Hle : payload.length ≤ oldHdr.length)
    (Hfit : IndexFits ctx.index)
    (Hub : TLV_BLOCK_SIZE oldHdr.length ≤ ctx.header.used_space)
    (Hused : ctx.header.used_space ≤ ctx.header.next_free_addr - TLV_DATA_ADDR)
    (Hnfa : TLV_DATA_ADDR ≤ ctx.header.next_free_addr)
    (Hnfa2 : ctx.header.next_free_addr ≤ TLV_DATA_ADDR + ctx.header.data_region_size)
    (Hregion : TLV_DATA_ADDR + ctx.header.data_region_size ≤ TLV_BACKUP_ADDR)
    (Hreg0 : 0 < ctx.header.data_region_size)
    (Hfrag : (ctx.header.next_free_addr - TLV_DATA_ADDR -
        (ctx.header.used_space - TLV_BLOCK_SIZE oldHdr.length +
          TLV_BLOCK_SIZE payload.length)) * 100 <
        TLV_AUTO_DEFRAG_THRESHOLD * ctx.header.data_region_size) :
    ∃ (hdrW : BlockHeader) (ctx' : Ctx),
      tlvWrite Port.ideal schema ctx tag payload now = (TLV_OK, ctx') ∧
      ctx'.state = ctx.state ∧
      ctx'.index = ctx.index.set i
        { ctx.index.getD i IndexEntry.empty with
            data_addr := (ctx.index.getD i IndexEntry.empty).data_addr
            flags := ((ctx.index.getD i IndexEntry.empty).flags ||| TLV_FLAG_VALID) &&&
              (255 - TLV_FLAG_DIRTY)
            version := meta.version } ∧
      ctx'.header.next_free_addr = ctx.header.next_free_addr ∧
      ctx'.header.used_space = ctx.header.used_space - TLV_BLOCK_SIZE oldHdr.length +
        TLV_BLOCK_SIZE payload.length ∧
      ctx'.header.free_space = ctx.header.free_space ∧
      ctx'.header.fragment_count = ctx.header.fragment_count ∧
      ctx'.header.fragment_size = ctx.header.fragment_size ∧
      ctx'.header.tag_count = ctx.header.tag_count ∧
      ctx'.header.data_region_size = ctx.header.data_region_size ∧
      hdrW.length = payload.length ∧
      StoredBlock ctx'.fram ((ctx.index.getD i IndexEntry.empty).data_addr) hdrW payload ∧
      (∀ x, TLV_DATA_ADDR ≤ x →
        (x < (ctx.index.getD i IndexEntry.empty).data_addr ∨
          (ctx.index.getD i IndexEntry.empty).data_addr + 16 + payload.length ≤ x) →
        ctx'.fram x = ctx.fram x) := by
  have hlen0 : payload.length ≠ 0 := fun h => Hne (List.eq_nil_of_length_eq_zero h)
  have hb17 : 17 ≤ TLV_BLOCK_SIZE payload.length := by unfold TLV_BLOCK_SIZE; omega
  have hbas : (TLV_DATA_ADDR : Nat) = 4096 := rfl
  have hbk : (TLV_BACKUP_ADDR : Nat) = 126976 := rfl
  have hU : U32 = 4294967296 := rfl
  have hob : TLV_BLOCK_SIZE oldHdr.length = 14 + oldHdr.length + 2 := rfl
  have hnb : TLV_BLOCK_SIZE payload.length = 14 + payload.length + 2 := rfl
  obtain ⟨hdrW, hwtag, hwlen, hwver, hwflags, hwts, Heq⟩ :=
    writeDataBlock_ideal schema ctx.fram tag payload
      ((ctx.index.getD i IndexEntry.empty).data_addr) now Hne
  have haddr1 : TLV_DATA_ADDR ≤ (ctx.index.getD i IndexEntry.empty).data_addr := by
    unfold TLV_IS_VALID_ADDR at Haddr
    simp only [Bool.and_eq_true, decide_eq_true_eq] at Haddr
    exact Haddr.1
  unfold tlvWrite
  rw [if_neg (by simp [hlen0, Htag])]
  rw [if_neg (by simp [Hst])]
  rw [Hmeta]
  dsimp only
  rw [if_neg (by omega : ¬(payload.length > meta.max_length))]
  dsimp only [snapshotCreate]
  rw [Hfind]
  dsimp only
  rw [portRead_ideal _ _ _ (by norm_num)]
  dsimp only
  rw [if_neg (by norm_num : ¬((TLV_OK : Int) ≠ TLV_OK))]
  rw [Hoh, parse_serialize_length oldHdr Hoh16]
  rw [if_pos (by unfold TLV_BLOCK_SIZE; omega :
    TLV_BLOCK_SIZE payload.length ≤ TLV_BLOCK_SIZE oldHdr.length)]
  dsimp only
  rw [Heq]
  dsimp only
  rw [if_neg (by norm_num : ¬((TLV_OK : Int) ≠ TLV_OK))]
  rw [if_neg Bool.false_ne_true]
  rw [tlvIndexUpdate_found schema ctx.index tag
    ((ctx.index.getD i IndexEntry.empty).data_addr) i meta Htag Haddr Hfind Hmeta]
  dsimp only
  obtain ⟨hdrF, f3, Hcommit, e1, e2, e3, e4, e5, e6, e7, Hframe⟩ :=
    tlvWriteCommit_ideal
      { ctx with
          snapshot :=
            { next_free_addr := ctx.header.next_free_addr
              used_space := ctx.header.used_space
              free_space := ctx.header.free_space
              fragment_count := ctx.header.fragment_count
              fragment_size := ctx.header.fragment_size
              tag_count := ctx.header.tag_count
              is_active := true }
          header := increaseUsedSpace
            (reduceUsedSpace ctx.header (TLV_BLOCK_SIZE oldHdr.length))
            (TLV_BLOCK_SIZE payload.length)
          fram := blockWriteFram ctx.fram
            ((ctx.index.getD i IndexEntry.empty).data_addr) hdrW payload }
      (ctx.index.set i
        { ctx.index.getD i IndexEntry.empty with
            data_addr := (ctx.index.getD i IndexEntry.empty).data_addr
            flags := ((ctx.index.getD i IndexEntry.empty).flags ||| TLV_FLAG_VALID) &&&
              (255 - TLV_FLAG_DIRTY)
            version := meta.version })
      (increaseUsedSpace (reduceUsedSpace ctx.header (TLV_BLOCK_SIZE oldHdr.length))
        (TLV_BLOCK_SIZE payload.length))
      now
      (by unfold IndexFits at Hfit ⊢; rw [List.length_set]; exact Hfit)
      (by
        unfold tlvCalculateFragmentation increaseUsedSpace reduceUsedSpace
        dsimp only
        have hs0 : sub32 ctx.header.used_space (TLV_BLOCK_SIZE oldHdr.length) =
            ctx.header.used_space - TLV_BLOCK_SIZE oldHdr.length :=
          sub32_eq _ _ (by omega) (by omega)
        rw [hs0]
        have ha0 : add32 (ctx.header.used_space - TLV_BLOCK_SIZE oldHdr.length)
            (TLV_BLOCK_SIZE payload.length) =
            ctx.header.used_space - TLV_BLOCK_SIZE oldHdr.length +
              TLV_BLOCK_SIZE payload.length := by
          apply add32_eq; omega
        rw [ha0]
        have hs1 : sub32 ctx.header.next_free_addr TLV_DATA_ADDR =
            ctx.header.next_free_addr - TLV_DATA_ADDR :=
          sub32_eq _ _ (by omega) (by omega)
        rw [hs1]
        have hs2 : sub32 (ctx.header.next_free_addr - TLV_DATA_ADDR)
            (ctx.header.used_space - TLV_BLOCK_SIZE oldHdr.length +
              TLV_BLOCK_SIZE payload.length) =
            ctx.header.next_free_addr - TLV_DATA_ADDR -
              (ctx.header.used_space - TLV_BLOCK_SIZE oldHdr.length +
                TLV_BLOCK_SIZE payload.length) :=
          sub32_eq _ _ (by omega) (by omega)
        rw [hs2]
        rw [if_pos Hreg0]
        rw [Nat.div_lt_iff_lt_mul Hreg0]
        exact Hfrag)
  rw [Hcommit]
  refine ⟨hdrW, _, rfl, rfl, rfl, ?_, ?_, ?_, ?_, ?_, ?_, ?_, hwlen, ?_, ?_⟩
  · rw [e1]; rfl
  · rw [e2]
    show add32 (sub32 ctx.header.used_space (TLV_BLOCK_SIZE oldHdr.length))
      (TLV_BLOCK_SIZE payload.length) = _
    rw [sub32_eq _ _ (by omega) (by omega)]
    apply add32_eq
    omega
  · rw [e3]; rfl
  · rw [e4]; rfl
  · rw [e5]; rfl
  · rw [e6]; rfl
  · rw [e7]; rfl
  · show StoredBlock f3 ((ctx.index.getD i IndexEntry.empty).data_addr) hdrW payload
    apply StoredBlock_congr _ _ _ _ _ ?_
      (storedBlock_blockWriteFram ctx.fram _ hdrW payload hwlen (by omega))
    intro x hx1 hx2
    exact (Hframe x (by omega)).symm
  · intro x hx1 hx2
    show f3 x = ctx.fram x
    rw [Hframe x hx1]
    exact blockWriteFram_frame ctx.fram _ hdrW payload x hx2

/- =================== `tlv_write`: relocation branch =================== -/

/-- Successful `tlv_write` over an existing live entry whose stored block is
smaller than the new one: allocate a fresh block at the bump pointer, mark
the old entry dirty and account it as a fragment, add a new slot. -/
theorem tlvWrite_relocate_eq (schema : List Meta) (ctx : Ctx) (tag : Nat)
    (payload : List Nat) (now : Nat) (meta : Meta) (i j : Nat) (oldHdr : BlockHeader)
    (Hst : ctx.state = TlvState.initialized)
    (Htag : tag ≠ 0)
    (Hne : payload ≠ [])
    (Hmeta : getMeta schema tag = some meta)
    (Hmax : payload.length ≤ meta.max_length)
    (Hmax16 : meta.max_length < 65536)
    (Hfind : tlvIndexFindPos ctx.index tag = some i)
    (Huniq : UniqueLiveTag ctx.index tag i)
    (Hoh : framReadBytes ctx.fram ((ctx.index.getD i IndexEntry.empty).data_addr) 14 =
      serializeBlockHeader oldHdr)
    (Hoh16 : oldHdr.length < 65536)
    (Hgt : oldHdr.length < payload.length)
    (Hslot : ctx.header.tag_count < TLV_MAX_TAG_COUNT)
    (Hfree : tlvIndexFindFreeSlot ctx.index = some j)
    (Hfit : IndexFits ctx.index)
    (Hnfa : TLV_DATA_ADDR ≤ ctx.header.next_free_addr)
    (Halloc : ctx.header.next_free_addr + TLV_BLOCK_SIZE payload.length ≤
        TLV_DATA_ADDR + ctx.header.data_region_size)
    (Hregion : TLV_DATA_ADDR + ctx.header.data_region_size ≤ TLV_BACKUP_ADDR)
    (Hub : TLV_BLOCK_SIZE oldHdr.length ≤ ctx.header.used_space)
    (Hused : ctx.header.used_space ≤ ctx.header.next_free_addr - TLV_DATA_ADDR)
    (Hfc : ctx.header.fragment_count + 1 < U32)
    (Hfs : ctx.header.fragment_size + TLV_BLOCK_SIZE oldHdr.length < U32)
    (Hregv : isTagRegionValid schema tag ctx.header.next_free_addr
        (meta.max_length + 20) = true)
    (Hfrag : (ctx.header.next_free_addr - TLV_DATA_ADDR - ctx.header.used_space +
        TLV_BLOCK_SIZE oldHdr.length) * 100 <
        TLV_AUTO_DEFRAG_THRESHOLD * ctx.header.data_region_size) :
    ∃ (hdrW : BlockHeader) (ctx' : Ctx),
      tlvWrite Port.ideal schema ctx tag payload now = (TLV_OK, ctx') ∧
      ctx'.state = ctx.state ∧
      ctx'.index = (ctx.index.set i
          { ctx.index.getD i IndexEntry.empty with flags := TLV_FLAG_DIRTY }).set j
          ⟨tag, TLV_FLAG_VALID, meta.version, ctx.header.next_free_addr⟩ ∧
      ctx'.header.next_free_addr =
        ctx.header.next_free_addr + TLV_BLOCK_SIZE payload.length ∧
      ctx'.header.used_space = ctx.header.used_space + TLV_BLOCK_SIZE payload.length -
        TLV_BLOCK_SIZE oldHdr.length ∧
      ctx'.header.free_space =
        sub32 ctx.header.free_space (TLV_BLOCK_SIZE payload.length) ∧
      ctx'.header.fragment_count = ctx.header.fragment_count + 1 ∧
      ctx'.header.fragment_size = ctx.header.fragment_size +
        TLV_BLOCK_SIZE oldHdr.length ∧
      ctx'.header.tag_count = (ctx.header.tag_count + 1) % U16 ∧
      ctx'.header.data_region_size = ctx.header.data_region_size ∧
      hdrW.length = payload.length ∧
      StoredBlock ctx'.fram ctx.header.next_free_addr hdrW payload ∧
      (∀ x, TLV_DATA_ADDR ≤ x →
        (x < ctx.header.next_free_addr ∨
          ctx.header.next_free_addr + 16 + payload.length ≤ x) →
        ctx'.fram x = ctx.fram x) := by
  have hlen0 : payload.length ≠ 0 := fun h => Hne (List.eq_nil_of_length_eq_zero h)
  have hb17 : 17 ≤ TLV_BLOCK_SIZE payload.length := by unfold TLV_BLOCK_SIZE; omega
  have hbas : (TLV_DATA_ADDR : Nat) = 4096 := rfl
  have hbk : (TLV_BACKUP_ADDR : Nat) = 126976 := rfl
  have hU : U32 = 4294967296 := rfl
  have hob : TLV_BLOCK_SIZE oldHdr.length = 14 + oldHdr.length + 2 := rfl
  have hnb : TLV_BLOCK_SIZE payload.length = 14 + payload.length + 2 := rfl
  obtain ⟨hi, hetag, hevalid, -⟩ := tlvIndexFindPos_some ctx.index tag i Hfind
  obtain ⟨hdrW, hwtag, hwlen, hwver, hwflags, hwts, Heq⟩ :=
    writeDataBlock_ideal schema ctx.fram tag payload ctx.header.next_free_addr now Hne
  -- the index after marking the old entry dirty
  have HfreeA : tlvIndexFindFreeSlot (ctx.index.set i
      { ctx.index.getD i IndexEntry.empty with flags := TLV_FLAG_DIRTY }) = some j := by
    unfold tlvIndexFindFreeSlot at Hfree ⊢
    rw [findIdx?_set_congr _ i _ _ IndexEntry.empty (by simp)]
    exact Hfree
  have HfindA : tlvIndexFindPos (ctx.index.set i
      { ctx.index.getD i IndexEntry.empty with flags := TLV_FLAG_DIRTY }) tag = none := by
    apply tlvIndexFindPos_eq_none_of
    intro k hk
    by_cases hki : k = i
    · subst hki
      rw [getD_set_eq _ _ _ _ hi]
      rintro ⟨-, hcon⟩
      simp [entryValid, TLV_FLAG_DIRTY, TLV_FLAG_VALID] at hcon
    · rw [getD_set_ne _ _ _ _ _ (fun h => hki h.symm)]
      exact Huniq k hki
  unfold tlvWrite
  rw [if_neg (by simp [hlen0, Htag])]
  rw [if_neg (by simp [Hst])]
  rw [Hmeta]
  dsimp only
  rw [if_neg (by omega : ¬(payload.length > meta.max_length))]
  dsimp only [snapshotCreate]
  rw [Hfind]
  dsimp only
  rw [portRead_ideal _ _ _ (by norm_num)]
  dsimp only
  rw [if_neg (by norm_num : ¬((TLV_OK : Int) ≠ TLV_OK))]
  rw [Hoh, parse_serialize_length oldHdr Hoh16]
  rw [if_neg (by unfold TLV_BLOCK_SIZE; omega :
    ¬(TLV_BLOCK_SIZE payload.length ≤ TLV_BLOCK_SIZE oldHdr.length))]
  rw [if_neg (not_not_intro Hslot)]
  unfold allocateSpace
  rw [if_neg (by omega :
    ¬(ctx.header.next_free_addr + TLV_BLOCK_SIZE payload.length >
      TLV_DATA_ADDR + ctx.header.data_region_size))]
  dsimp only
  rw [if_neg (by omega : ¬(ctx.header.next_free_addr = 0))]
  dsimp only
  rw [Heq]
  dsimp only
  rw [if_neg (by norm_num : ¬((TLV_OK : Int) ≠ TLV_OK))]
  rw [if_pos rfl]
  rw [tlvIndexAdd_fresh schema _ _ tag ctx.header.next_free_addr j meta
    Htag (by unfold TLV_IS_VALID_ADDR; simp; omega) HfindA HfreeA Hmeta Hregv]
  dsimp only
  obtain ⟨hdrF, f3, Hcommit, e1, e2, e3, e4, e5, e6, e7, Hframe⟩ :=
    tlvWriteCommit_ideal
      { ctx with
          snapshot :=
            { next_free_addr := ctx.header.next_free_addr
              used_space := ctx.header.used_space
              free_space := ctx.header.free_space
              fragment_count := ctx.header.fragment_count
              fragment_size := ctx.header.fragment_size
              tag_count := ctx.header.tag_count
              is_active := true }
          header := { ctx.header with
            next_free_addr := add32 ctx.header.next_free_addr (TLV_BLOCK_SIZE payload.length)
            used_space := add32 ctx.header.used_space (TLV_BLOCK_SIZE payload.length)
            free_space := sub32 ctx.header.free_space (TLV_BLOCK_SIZE payload.length) }
          fram := blockWriteFram ctx.fram ctx.header.next_free_addr hdrW payload }
      ((ctx.index.set i
          { ctx.index.getD i IndexEntry.empty with flags := TLV_FLAG_DIRTY }).set j
          ⟨tag, TLV_FLAG_VALID, meta.version, ctx.header.next_free_addr⟩)
      { ctx.header with
          next_free_addr := add32 ctx.header.next_free_addr (TLV_BLOCK_SIZE payload.length)
          used_space := sub32 (add32 ctx.header.used_space (TLV_BLOCK_SIZE payload.length))
            (TLV_BLOCK_SIZE oldHdr.length)
          free_space := sub32 ctx.header.free_space (TLV_BLOCK_SIZE payload.length)
          fragment_count := add32 ctx.header.fragment_count 1
          fragment_size := add32 ctx.header.fragment_size (TLV_BLOCK_SIZE oldHdr.length)
          tag_count := (ctx.header.tag_count + 1) % U16 }
      now
      (by unfold IndexFits at Hfit ⊢
          rw [List.length_set, List.length_set]
          exact Hfit)
      (by
        unfold tlvCalculateFragmentation
        dsimp only
        have ha1 : add32 ctx.header.next_free_addr (TLV_BLOCK_SIZE payload.length) =
            ctx.header.next_free_addr + TLV_BLOCK_SIZE payload.length := by
          apply add32_eq; omega
        have ha2 : add32 ctx.header.used_space (TLV_BLOCK_SIZE payload.length) =
            ctx.header.used_space + TLV_BLOCK_SIZE payload.length := by
          apply add32_eq; omega
        rw [ha1, ha2]
        have hs0 : sub32 (ctx.header.used_space + TLV_BLOCK_SIZE payload.length)
            (TLV_BLOCK_SIZE oldHdr.length) =
            ctx.header.used_space + TLV_BLOCK_SIZE payload.length -
              TLV_BLOCK_SIZE oldHdr.length :=
          sub32_eq _ _ (by omega) (by omega)
        rw [hs0]
        have hs1 : sub32 (ctx.header.next_free_addr + TLV_BLOCK_SIZE payload.length)
            TLV_DATA_ADDR =
            ctx.header.next_free_addr + TLV_BLOCK_SIZE payload.length - TLV_DATA_ADDR :=
          sub32_eq _ _ (by omega) (by omega)
        rw [hs1]
        have hs2 : sub32
            (ctx.header.next_free_addr + TLV_BLOCK_SIZE payload.length - TLV_DATA_ADDR)
            (ctx.header.used_space + TLV_BLOCK_SIZE payload.length -
              TLV_BLOCK_SIZE oldHdr.length) =
            ctx.header.next_free_addr - TLV_DATA_ADDR - ctx.header.used_space +
              TLV_BLOCK_SIZE oldHdr.length :=
          (sub32_eq _ _ (by omega) (by omega)).trans (by omega)
        rw [hs2]
        rw [if_pos (by omega : 0 < ctx.header.data_region_size)]
        rw [Nat.div_lt_iff_lt_mul (by omega : 0 < ctx.header.data_region_size)]
        exact Hfrag)
  refine ⟨hdrW, _, Hcommit, rfl, rfl, ?_, ?_, ?_, ?_, ?_, ?_, ?_, hwlen, ?_, ?_⟩
  · show hdrF.next_free_addr = _
    rw [e1]
    show add32 ctx.header.next_free_addr (TLV_BLOCK_SIZE payload.length) = _
    apply add32_eq
    omega
  · show hdrF.used_space = _
    rw [e2]
    show sub32 (add32 ctx.header.used_space (TLV_BLOCK_SIZE payload.length))
      (TLV_BLOCK_SIZE oldHdr.length) = _
    rw [add32_eq _ _ (by omega)]
    exact sub32_eq _ _ (by omega) (by omega)
  · show hdrF.free_space = _
    rw [e3]
  · show hdrF.fragment_count = _
    rw [e4]
    show add32 ctx.header.fragment_count 1 = _
    apply add32_eq
    omega
  · show hdrF.fragment_size = _
    rw [e5]
    show add32 ctx.header.fragment_size (TLV_BLOCK_SIZE oldHdr.length) = _
    apply add32_eq
    omega
  · show hdrF.tag_count = _
    rw [e6]
  · show hdrF.data_region_size = _
    rw [e7]
  · show StoredBlock f3 ctx.header.next_free_addr hdrW payload
    apply StoredBlock_congr _ _ _ _ _ ?_
      (storedBlock_blockWriteFram ctx.fram ctx.header.next_free_addr hdrW payload hwlen
        (by omega))
    intro x hx1 hx2
    exact (Hframe x (by omega)).symm
  · intro x hx1 hx2
    show f3 x = ctx.fram x
    rw [Hframe x hx1]
    exact blockWriteFram_frame ctx.fram ctx.header.next_free_addr hdrW payload x hx2

/- =================== read path characterization =================== -/

/-- `tlv_index_find` misses: every slot fails the match predicate. -/
theorem tlvIndexFindPos_none (idx : List IndexEntry) (tag : Nat)
    (Htag : tag ≠ 0) (h : tlvIndexFindPos idx tag = none) :
    ∀ k, k < idx.length →
      ¬((idx.getD k IndexEntry.empty).tag = tag ∧
        entryValid (idx.getD k IndexEntry.empty) = true) := by
  unfold tlvIndexFindPos at h
  rw [if_neg Htag] at h
  rw [List.findIdx?_eq_none_iff] at h
  intro k hk hcon
  have := h idx[k] (List.getElem_mem hk)
  rw [List.getD_eq_getElem _ _ hk] at hcon
  simp [hcon.1, hcon.2] at this

/-- A freshly added slot carries the `VALID` flag. -/
theorem entryValid_fresh (tag v a : Nat) :
    entryValid ⟨tag, TLV_FLAG_VALID, v, a⟩ = true := by
  simp [entryValid, TLV_FLAG_VALID]

/-- A slot re-flagged `DIRTY` is not live. -/
theorem entryValid_dirty (e : IndexEntry) :
    entryValid { e with flags := TLV_FLAG_DIRTY } = false := by
  simp [entryValid, TLV_FLAG_DIRTY, TLV_FLAG_VALID]

/-- `tlv_index_update` sets the `VALID` bit whatever the previous flags. -/
theorem entryValid_update (e : IndexEntry) (a v : Nat) :
    entryValid { e with
        data_addr := a
        flags := (e.flags ||| TLV_FLAG_VALID) &&& (255 - TLV_FLAG_DIRTY)
        version := v } = true := by
  unfold entryValid TLV_FLAG_VALID TLV_FLAG_DIRTY
  simp only [bne_iff_ne, ne_eq]
  intro hz
  have := congrArg (Nat.testBit · 0) hz
  simp [Nat.testBit_land, Nat.testBit_lor] at this

/-- `tlv_read` on a live entry whose block is intact and whose version is not
behind the schema (or that has no schema entry at all): returns the stored
payload and its length, leaving the context untouched. -/
theorem tlvRead_stored_at (schema : List Meta) (ctx : Ctx)
    (tag lenIn now i : Nat) (hdr : BlockHeader) (payload : List Nat)
    (Htag : tag ≠ 0)
    (Hst : ctx.state = TlvState.initialized)
    (Hfind : tlvIndexFindPos ctx.index tag = some i)
    (Hs : StoredBlock ctx.fram ((ctx.index.getD i IndexEntry.empty).data_addr)
      hdr payload)
    (Hne : payload ≠ [])
    (Hcap : payload.length ≤ lenIn)
    (Hver : ∀ meta, getMeta schema tag = some meta →
      ¬((ctx.index.getD i IndexEntry.empty).version < meta.version)) :
    tlvRead Port.ideal schema ctx tag lenIn now =
      (TLV_OK, payload, payload.length, ctx) := by
  have hlen0 : payload.length ≠ 0 := fun h => Hne (List.eq_nil_of_length_eq_zero h)
  unfold tlvRead
  rw [if_neg (by simp [Htag]; omega)]
  rw [if_neg (by simp [Hst])]
  rw [Hfind]
  dsimp only
  rw [readDataBlock_stored ctx.fram _ hdr payload lenIn Hs Hne Hcap]
  dsimp only
  rw [if_neg (by norm_num : ¬((TLV_OK : Int) ≠ TLV_OK))]
  cases hm : getMeta schema tag with
  | none => rfl
  | some meta =>
      dsimp only
      rw [if_neg (Hver meta hm)]

/- ============================ claim C1 ============================ -/

/-- C1: Round-trip.  For a tag with a schema entry and a payload `V` with
`1 ≤ |V| ≤ max_length`, when the initialized engine takes any of the three
success paths of `tlv_write` (fresh tag, in-place update, or relocation), an
immediately following `tlv_read` with a buffer of at least `|V|` bytes
succeeds and returns exactly `V` with the reported length `|V|`. -/
theorem C1_write_read_roundtrip (schema : List Meta) (ctx : Ctx) (tag : Nat)
    (payload : List Nat) (now now2 lenIn : Nat) (meta : Meta)
    (Hst : ctx.state = TlvState.initialized)
    (Htag : tag ≠ 0)
    (Hne : payload ≠ [])
    (Hmeta : getMeta schema tag = some meta)
    (Hmax : payload.length ≤ meta.max_length)
    (Hmax16 : meta.max_length < 65536)
    (Hcap : payload.length ≤ lenIn)
    (Hbranch :
      (tlvIndexFindPos ctx.index tag = none ∧
        ∃ j, ctx.header.tag_count < TLV_MAX_TAG_COUNT ∧
          tlvIndexFindFreeSlot ctx.index = some j ∧
          IndexFits ctx.index ∧
          TLV_DATA_ADDR ≤ ctx.header.next_free_addr ∧
          ctx.header.next_free_addr + TLV_BLOCK_SIZE payload.length ≤
            TLV_DATA_ADDR + ctx.header.data_region_size ∧
          TLV_DATA_ADDR + ctx.header.data_region_size ≤ TLV_BACKUP_ADDR ∧
          ctx.header.used_space ≤ ctx.header.next_free_addr - TLV_DATA_ADDR ∧
          isTagRegionValid schema tag ctx.header.next_free_addr
            (meta.max_length + 20) = true ∧
          (ctx.header.next_free_addr - TLV_DATA_ADDR - ctx.header.used_space) * 100 <
            TLV_AUTO_DEFRAG_THRESHOLD * ctx.header.data_region_size) ∨
      (∃ i oldHdr,
        tlvIndexFindPos ctx.index tag = some i ∧
        TLV_IS_VALID_ADDR ((ctx.index.getD i IndexEntry.empty).data_addr) = true ∧
        framReadBytes ctx.fram ((ctx.index.getD i IndexEntry.empty).data_addr) 14 =
          serializeBlockHeader oldHdr ∧
        oldHdr.length < 65536 ∧
        payload.length ≤ oldHdr.length ∧
        IndexFits ctx.index ∧
        TLV_BLOCK_SIZE oldHdr.length ≤ ctx.header.used_space ∧
        ctx.header.used_space ≤ ctx.header.next_free_addr - TLV_DATA_ADDR ∧
        TLV_DATA_ADDR ≤ ctx.header.next_free_addr ∧
        ctx.header.next_free_addr ≤ TLV_DATA_ADDR + ctx.header.data_region_size ∧
        TLV_DATA_ADDR + ctx.header.data_region_size ≤ TLV_BACKUP_ADDR ∧
        0 < ctx.header.data_region_size ∧
        (ctx.header.next_free_addr - TLV_DATA_ADDR -
          (ctx.header.used_space - TLV_BLOCK_SIZE oldHdr.length +
            TLV_BLOCK_SIZE payload.length)) * 100 <
          TLV_AUTO_DEFRAG_THRESHOLD * ctx.header.data_region_size) ∨
      (∃ i j oldHdr,
        tlvIndexFindPos ctx.index tag = some i ∧
        UniqueLiveTag ctx.index tag i ∧
        framReadBytes ctx.fram ((ctx.index.getD i IndexEntry.empty).data_addr) 14 =
          serializeBlockHeader oldHdr ∧
        oldHdr.length < 65536 ∧
        oldHdr.length < payload.length ∧
        ctx.header.tag_count < TLV_MAX_TAG_COUNT ∧
        tlvIndexFindFreeSlot ctx.index = some j ∧
        IndexFits ctx.index ∧
        TLV_DATA_ADDR ≤ ctx.header.next_free_addr ∧
        ctx.header.next_free_addr + TLV_BLOCK_SIZE payload.length ≤
          TLV_DATA_ADDR + ctx.header.data_region_size ∧
        TLV_DATA_ADDR + ctx.header.data_region_size ≤ TLV_BACKUP_ADDR ∧
        TLV_BLOCK_SIZE oldHdr.length ≤ ctx.header.used_space ∧
        ctx.header.used_space ≤ ctx.header.next_free_addr - TLV_DATA_ADDR ∧
        ctx.header.fragment_count + 1 < U32 ∧
        ctx.header.fragment_size + TLV_BLOCK_SIZE oldHdr.length < U32 ∧
        isTagRegionValid schema tag ctx.header.next_free_addr
          (meta.max_length + 20) = true ∧
        (ctx.header.next_free_addr - TLV_DATA_ADDR - ctx.header.used_space +
          TLV_BLOCK_SIZE oldHdr.length) * 100 <
          TLV_AUTO_DEFRAG_THRESHOLD * ctx.header.data_region_size)) :
    ∃ ctx', tlvWrite Port.ideal schema ctx tag payload now = (TLV_OK, ctx') ∧
      tlvRead Port.ideal schema ctx' tag lenIn now2 =
        (TLV_OK, payload, payload.length, ctx') := by
  rcases Hbranch with ⟨Hfind, j, Hslot, Hfree, Hfit, Hnfa, Halloc, Hregion,
      Hused, Hregv, Hfrag⟩ |
    ⟨i, oldHdr, Hfind, Haddr, Hoh, Hoh16, Hle, Hfit, Hub, Hused, Hnfa, Hnfa2,
      Hregion, Hreg0, Hfrag⟩ |
    ⟨i, j, oldHdr, Hfind, Huniq, Hoh, Hoh16, Hgt, Hslot, Hfree, Hfit, Hnfa,
      Halloc, Hregion, Hub, Hused, Hfc, Hfs, Hregv, Hfrag⟩
  · -- fresh tag
    obtain ⟨hdrW, ctx', Hw, hstate, hindex, -, -, -, -, -, -, -, hwlen, hsb, -⟩ :=
      tlvWrite_fresh_eq schema ctx tag payload now meta j Hst Htag Hne Hmeta Hmax
        Hmax16 Hfind Hslot Hfree Hfit Hnfa Halloc Hregion Hused Hregv Hfrag
    have hj : j < ctx.index.length := by
      unfold tlvIndexFindFreeSlot at Hfree
      rw [List.findIdx?_eq_some_iff_getElem] at Hfree
      exact Hfree.1
    refine ⟨ctx', Hw, ?_⟩
    have hgd : ctx'.index.getD j IndexEntry.empty =
        ⟨tag, TLV_FLAG_VALID, meta.version, ctx.header.next_free_addr⟩ := by
      rw [hindex]
      exact getD_set_eq _ _ _ _ hj
    have hfind' : tlvIndexFindPos ctx'.index tag = some j := by
      rw [hindex]
      apply tlvIndexFindPos_eq_some_of _ _ _ Htag
        (by rw [List.length_set]; exact hj)
      · rw [getD_set_eq _ _ _ _ hj]
        exact ⟨rfl, entryValid_fresh tag meta.version ctx.header.next_free_addr⟩
      · intro k hk
        rw [getD_set_ne _ _ _ _ _ (by omega)]
        exact tlvIndexFindPos_none ctx.index tag Htag Hfind k (by omega)
    apply tlvRead_stored_at schema ctx' tag lenIn now2 j hdrW payload Htag
      (by rw [hstate]; exact Hst) hfind'
    · rw [hgd]
      exact hsb
    · exact Hne
    · exact Hcap
    · intro m hm
      rw [Hmeta] at hm
      cases hm
      rw [hgd]
      exact Nat.lt_irrefl meta.version
  · -- in-place update
    obtain ⟨hdrW, ctx', Hw, hstate, hindex, -, -, -, -, -, -, -, hwlen, hsb, -⟩ :=
      tlvWrite_inplace_eq schema ctx tag payload now meta i oldHdr Hst Htag Hne
        Hmeta Hmax Hmax16 Hfind Haddr Hoh Hoh16 Hle Hfit Hub Hused Hnfa Hnfa2
        Hregion Hreg0 Hfrag
    obtain ⟨hi, hetag, -, hbefore⟩ := tlvIndexFindPos_some ctx.index tag i Hfind
    refine ⟨ctx', Hw, ?_⟩
    have hgd : ctx'.index.getD i IndexEntry.empty =
        { ctx.index.getD i IndexEntry.empty with
            data_addr := (ctx.index.getD i IndexEntry.empty).data_addr
            flags := ((ctx.index.getD i IndexEntry.empty).flags ||| TLV_FLAG_VALID) &&&
              (255 - TLV_FLAG_DIRTY)
            version := meta.version } := by
      rw [hindex]
      exact getD_set_eq _ _ _ _ hi
    have hfind' : tlvIndexFindPos ctx'.index tag = some i := by
      rw [hindex]
      apply tlvIndexFindPos_eq_some_of _ _ _ Htag
        (by rw [List.length_set]; exact hi)
      · rw [getD_set_eq _ _ _ _ hi]
        exact ⟨hetag, entryValid_update _ _ _⟩
      · intro k hk
        rw [getD_set_ne _ _ _ _ _ (by omega)]
        exact hbefore k hk
    apply tlvRead_stored_at schema ctx' tag lenIn now2 i hdrW payload Htag
      (by rw [hstate]; exact Hst) hfind'
    · rw [hgd]
      exact hsb
    · exact Hne
    · exact Hcap
    · intro m hm
      rw [Hmeta] at hm
      cases hm
      rw [hgd]
      exact Nat.lt_irrefl meta.version
  · -- relocation
    obtain ⟨hdrW, ctx', Hw, hstate, hindex, -, -, -, -, -, -, -, hwlen, hsb, -⟩ :=
      tlvWrite_relocate_eq schema ctx tag payload now meta i j oldHdr Hst Htag Hne
        Hmeta Hmax Hmax16 Hfind Huniq Hoh Hoh16 Hgt Hslot Hfree Hfit Hnfa Halloc
        Hregion Hub Hused Hfc Hfs Hregv Hfrag
    obtain ⟨hi, hetag, hevalid, hbefore⟩ := tlvIndexFindPos_some ctx.index tag i Hfind
    have hj : j < ctx.index.length := by
      unfold tlvIndexFindFreeSlot at Hfree
      rw [List.findIdx?_eq_some_iff_getElem] at Hfree
      exact Hfree.1
    have hjtag : (ctx.index.getD j IndexEntry.empty).tag = 0 := by
      unfold tlvIndexFindFreeSlot at Hfree
      rw [List.findIdx?_eq_some_iff_getElem] at Hfree
      obtain ⟨h1, h2, -⟩ := Hfree
      rw [List.getD_eq_getElem _ _ h1]
      simpa using h2
    have hij : i ≠ j := by
      intro h
      subst h
      rw [hetag] at hjtag
      exact Htag hjtag
    refine ⟨ctx', Hw, ?_⟩
    have hgd : ctx'.index.getD j IndexEntry.empty =
        ⟨tag, TLV_FLAG_VALID, meta.version, ctx.header.next_free_addr⟩ := by
      rw [hindex]
      exact getD_set_eq _ _ _ _ (by rw [List.length_set]; exact hj)
    have hfind' : tlvIndexFindPos ctx'.index tag = some j := by
      rw [hindex]
      apply tlvIndexFindPos_eq_some_of _ _ _ Htag
        (by rw [List.length_set, List.length_set]; exact hj)
      · rw [getD_set_eq _ _ _ _ (by rw [List.length_set]; exact hj)]
        exact ⟨rfl, entryValid_fresh tag meta.version ctx.header.next_free_addr⟩
      · intro k hk
        rw [getD_set_ne _ _ _ _ _ (by omega)]
        by_cases hki : k = i
        · subst hki
          rw [getD_set_eq _ _ _ _ hi]
          rintro ⟨-, hcon⟩
          rw [entryValid_dirty] at hcon
          exact Bool.false_ne_true hcon
        · rw [getD_set_ne _ _ _ _ _ (fun h => hki h.symm)]
          exact Huniq k hki
    apply tlvRead_stored_at schema ctx' tag lenIn now2 j hdrW payload Htag
      (by rw [hstate]; exact Hst) hfind'
    · rw [hgd]
      exact hsb
    · exact Hne
    · exact Hcap
    · intro m hm
      rw [Hmeta] at hm
      cases hm
      rw [hgd]
      exact Nat.lt_irrefl meta.version

/-- C1 witness: concrete fresh write of tag 1 with payload `[42]`. -/
theorem C1_write_read_roundtrip_witness :
    ∃ ctx', tlvWrite Port.ideal wSchema wCtx 1 [42] 5 = (TLV_OK, ctx') ∧
      tlvRead Port.ideal wSchema ctx' 1 8 6 = (TLV_OK, [42], 1, ctx') :=
  C1_write_read_roundtrip wSchema wCtx 1 [42] 5 6 8 wMeta rfl (by decide)
    (by decide) rfl (by decide) (by decide) (by decide)
    (Or.inl ⟨rfl, 0, by decide, rfl, by unfold IndexFits; decide, by decide,
      by decide, by decide, by decide, by decide, by decide⟩)

/-- C2: on a transport that fails the data-block write, `tlv_write` rolls the
header scalars back but then returns the status of the header save —
`TLV_OK` on success — instead of propagating the transport error: the failed
write reports success. -/
theorem C2_write_failure_returns_ok :
    (writeDataBlock wBadPort wSchema wCtx.fram 1 [42] 4096 5).1 = TLV_ERROR ∧
    (TLV_ERROR : Int) ≠ TLV_OK ∧
    (tlvWrite wBadPort wSchema wCtx 1 [42] 5).1 = TLV_OK ∧
    (tlvWrite wBadPort wSchema wCtx 1 [42] 5).2.header.next_free_addr =
      wCtx.header.next_free_addr ∧
    (tlvWrite wBadPort wSchema wCtx 1 [42] 5).2.header.used_space =
      wCtx.header.used_space ∧
    (tlvWrite wBadPort wSchema wCtx 1 [42] 5).2.header.free_space =
      wCtx.header.free_space ∧
    (tlvWrite wBadPort wSchema wCtx 1 [42] 5).2.header.tag_count =
      wCtx.header.tag_count := by
  decide

/- ============================ claim C3 ============================ -/

/-- Setting a slot changes a filtered length by the predicate's change at
that slot. -/
theorem length_filter_set {α : Type} (p : α → Bool) (l : List α) (i : Nat)
    (x : α) (d : α) (hi : i < l.length) :
    ((l.set i x).filter p).length + (if p (l.getD i d) then 1 else 0) =
      (l.filter p).length + (if p x then 1 else 0) := by
  induction l generalizing i with
  | nil => simp at hi
  | cons a t ih =>
      cases i with
      | zero =>
          simp only [List.set_cons_zero, List.getD_cons_zero, List.filter_cons]
          by_cases hx : p x <;> by_cases ha : p a <;> simp [hx, ha]
      | succ n =>
          simp only [List.set_cons_succ, List.getD_cons_succ, List.filter_cons]
          have hn : n < t.length := by simpa using hi
          by_cases ha : p a
          · simp only [ha, if_pos, List.length_cons]
            have := ih n hn
            omega
          · simp only [ha, if_neg, Bool.false_eq_true, not_false_iff]
            exact ih n hn

/-- Occupied slots never outnumber the table. -/
theorem occupiedCount_le_length (idx : List IndexEntry) :
    occupiedCount idx ≤ idx.length := by
  unfold occupiedCount
  exact List.length_filter_le _ _

/-- Overwriting a free slot with an occupied entry adds one occupied slot. -/
theorem occupiedCount_set_new (idx : List IndexEntry) (i : Nat) (e : IndexEntry)
    (hi : i < idx.length) (hold : (idx.getD i IndexEntry.empty).tag = 0)
    (hnew : e.tag ≠ 0) :
    occupiedCount (idx.set i e) = occupiedCount idx + 1 := by
  have h : ((idx.set i e).filter (fun x => x.tag != 0)).length +
      (if ((idx.getD i IndexEntry.empty).tag != 0) = true then 1 else 0) =
      (idx.filter (fun x => x.tag != 0)).length +
        (if (e.tag != 0) = true then 1 else 0) :=
    length_filter_set (fun x => x.tag != 0) idx i e IndexEntry.empty hi
  rw [if_neg (by simpa using hold), if_pos (by simpa using hnew)] at h
  unfold occupiedCount
  omega

/-- Overwriting a slot without changing whether its tag is zero keeps the
occupied count. -/
theorem occupiedCount_set_same (idx : List IndexEntry) (i : Nat) (e : IndexEntry)
    (hi : i < idx.length)
    (hsame : (e.tag != 0) = ((idx.getD i IndexEntry.empty).tag != 0)) :
    occupiedCount (idx.set i e) = occupiedCount idx := by
  have h : ((idx.set i e).filter (fun x => x.tag != 0)).length +
      (if ((idx.getD i IndexEntry.empty).tag != 0) = true then 1 else 0) =
      (idx.filter (fun x => x.tag != 0)).length +
        (if (e.tag != 0) = true then 1 else 0) :=
    length_filter_set (fun x => x.tag != 0) idx i e IndexEntry.empty hi
  rw [hsame] at h
  unfold occupiedCount
  omega

/-- C3 (corrected): `tag_count` counts the occupied index slots — those with
`tag ≠ 0`, whether `VALID` or `DIRTY` — and each success path of `tlv_write`
preserves that equation.  (It does not count only the live slots: a
relocating write leaves the old slot `DIRTY` but still counted.) -/
theorem C3_tag_count_occupied (schema : List Meta) (ctx : Ctx) (tag : Nat)
    (payload : List Nat) (now : Nat) (meta : Meta)
    (Hst : ctx.state = TlvState.initialized)
    (Htag : tag ≠ 0)
    (Hne : payload ≠ [])
    (Hmeta : getMeta schema tag = some meta)
    (Hmax : payload.length ≤ meta.max_length)
    (Hmax16 : meta.max_length < 65536)
    (Hcount : ctx.header.tag_count = occupiedCount ctx.index)
    (Hbranch :
      (tlvIndexFindPos ctx.index tag = none ∧
        ∃ j, ctx.header.tag_count < TLV_MAX_TAG_COUNT ∧
          tlvIndexFindFreeSlot ctx.index = some j ∧
          IndexFits ctx.index ∧
          TLV_DATA_ADDR ≤ ctx.header.next_free_addr ∧
          ctx.header.next_free_addr + TLV_BLOCK_SIZE payload.length ≤
            TLV_DATA_ADDR + ctx.header.data_region_size ∧
          TLV_DATA_ADDR + ctx.header.data_region_size ≤ TLV_BACKUP_ADDR ∧
          ctx.header.used_space ≤ ctx.header.next_free_addr - TLV_DATA_ADDR ∧
          isTagRegionValid schema tag ctx.header.next_free_addr
            (meta.max_length + 20) = true ∧
          (ctx.header.next_free_addr - TLV_DATA_ADDR - ctx.header.used_space) * 100 <
            TLV_AUTO_DEFRAG_THRESHOLD * ctx.header.data_region_size) ∨
      (∃ i oldHdr,
        tlvIndexFindPos ctx.index tag = some i ∧
        TLV_IS_VALID_ADDR ((ctx.index.getD i IndexEntry.empty).data_addr) = true ∧
        framReadBytes ctx.fram ((ctx.index.getD i IndexEntry.empty).data_addr) 14 =
          serializeBlockHeader oldHdr ∧
        oldHdr.length < 65536 ∧
        payload.length ≤ oldHdr.length ∧
        IndexFits ctx.index ∧
        TLV_BLOCK_SIZE oldHdr.length ≤ ctx.header.used_space ∧
        ctx.header.used_space ≤ ctx.header.next_free_addr - TLV_DATA_ADDR ∧
        TLV_DATA_ADDR ≤ ctx.header.next_free_addr ∧
        ctx.header.next_free_addr ≤ TLV_DATA_ADDR + ctx.header.data_region_size ∧
        TLV_DATA_ADDR + ctx.header.data_region_size ≤ TLV_BACKUP_ADDR ∧
        0 < ctx.header.data_region_size ∧
        (ctx.header.next_free_addr - TLV_DATA_ADDR -
          (ctx.header.used_space - TLV_BLOCK_SIZE oldHdr.length +
            TLV_BLOCK_SIZE payload.length)) * 100 <
          TLV_AUTO_DEFRAG_THRESHOLD * ctx.header.data_region_size) ∨
      (∃ i j oldHdr,
        tlvIndexFindPos ctx.index tag = some i ∧
        UniqueLiveTag ctx.index tag i ∧
        framReadBytes ctx.fram ((ctx.index.getD i IndexEntry.empty).data_addr) 14 =
          serializeBlockHeader oldHdr ∧
        oldHdr.length < 65536 ∧
        oldHdr.length < payload.length ∧
        ctx.header.tag_count < TLV_MAX_TAG_COUNT ∧
        tlvIndexFindFreeSlot ctx.index = some j ∧
        IndexFits ctx.index ∧
        TLV_DATA_ADDR ≤ ctx.header.next_free_addr ∧
        ctx.header.next_free_addr + TLV_BLOCK_SIZE payload.length ≤
          TLV_DATA_ADDR + ctx.header.data_region_size ∧
        TLV_DATA_ADDR + ctx.header.data_region_size ≤ TLV_BACKUP_ADDR ∧
        TLV_BLOCK_SIZE oldHdr.length ≤ ctx.header.used_space ∧
        ctx.header.used_space ≤ ctx.header.next_free_addr - TLV_DATA_ADDR ∧
        ctx.header.fragment_count + 1 < U32 ∧
        ctx.header.fragment_size + TLV_BLOCK_SIZE oldHdr.length < U32 ∧
        isTagRegionValid schema tag ctx.header.next_free_addr
          (meta.max_length + 20) = true ∧
        (ctx.header.next_free_addr - TLV_DATA_ADDR - ctx.header.used_space +
          TLV_BLOCK_SIZE oldHdr.length) * 100 <
          TLV_AUTO_DEFRAG_THRESHOLD * ctx.header.data_region_size)) :
    ∃ ctx', tlvWrite Port.ideal schema ctx tag payload now = (TLV_OK, ctx') ∧
      ctx'.header.tag_count = occupiedCount ctx'.index := by
  rcases Hbranch with ⟨Hfind, j, Hslot, Hfree, Hfit, Hnfa, Halloc, Hregion,
      Hused, Hregv, Hfrag⟩ |
    ⟨i, oldHdr, Hfind, Haddr, Hoh, Hoh16, Hle, Hfit, Hub, Hused, Hnfa, Hnfa2,
      Hregion, Hreg0, Hfrag⟩ |
    ⟨i, j, oldHdr, Hfind, Huniq, Hoh, Hoh16, Hgt, Hslot, Hfree, Hfit, Hnfa,
      Halloc, Hregion, Hub, Hused, Hfc, Hfs, Hregv, Hfrag⟩
  · -- fresh tag
    obtain ⟨hdrW, ctx', Hw, -, hindex, -, -, -, -, -, htc, -, -, -, -⟩ :=
      tlvWrite_fresh_eq schema ctx tag payload now meta j Hst Htag Hne Hmeta Hmax
        Hmax16 Hfind Hslot Hfree Hfit Hnfa Halloc Hregion Hused Hregv Hfrag
    have hj : j < ctx.index.length := by
      unfold tlvIndexFindFreeSlot at Hfree
      rw [List.findIdx?_eq_some_iff_getElem] at Hfree
      exact Hfree.1
    have hjtag : (ctx.index.getD j IndexEntry.empty).tag = 0 := by
      unfold tlvIndexFindFreeSlot at Hfree
      rw [List.findIdx?_eq_some_iff_getElem] at Hfree
      obtain ⟨h1, h2, -⟩ := Hfree
      rw [List.getD_eq_getElem _ _ h1]
      simpa using h2
    have hlen : ctx.index.length ≤ 447 := by
      unfold IndexFits at Hfit
      have h1 : (TLV_INDEX_ADDR : Nat) = 512 := by decide
      have h2 : (TLV_DATA_ADDR : Nat) = 4096 := by decide
      omega
    have hocc := occupiedCount_le_length ctx.index
    refine ⟨ctx', Hw, ?_⟩
    rw [htc, hindex,
      occupiedCount_set_new ctx.index j _ hj hjtag (by simpa using Htag),
      ← Hcount]
    have hU : U16 = 65536 := by decide
    rw [hU]
    have hmax : (TLV_MAX_TAG_COUNT : Nat) = 256 := by decide
    omega
  · -- in-place update
    obtain ⟨hdrW, ctx', Hw, -, hindex, -, -, -, -, -, htc, -, -, -, -⟩ :=
      tlvWrite_inplace_eq schema ctx tag payload now meta i oldHdr Hst Htag Hne
        Hmeta Hmax Hmax16 Hfind Haddr Hoh Hoh16 Hle Hfit Hub Hused Hnfa Hnfa2
        Hregion Hreg0 Hfrag
    obtain ⟨hi, -, -, -⟩ := tlvIndexFindPos_some ctx.index tag i Hfind
    refine ⟨ctx', Hw, ?_⟩
    rw [htc, hindex, occupiedCount_set_same ctx.index i
      { ctx.index.getD i IndexEntry.empty with
          data_addr := (ctx.index.getD i IndexEntry.empty).data_addr
          flags := ((ctx.index.getD i IndexEntry.empty).flags ||| TLV_FLAG_VALID) &&&
            (255 - TLV_FLAG_DIRTY)
          version := meta.version } hi rfl, Hcount]
  · -- relocation
    obtain ⟨hdrW, ctx', Hw, -, hindex, -, -, -, -, -, htc, -, -, -, -⟩ :=
      tlvWrite_relocate_eq schema ctx tag payload now meta i j oldHdr Hst Htag Hne
        Hmeta Hmax Hmax16 Hfind Huniq Hoh Hoh16 Hgt Hslot Hfree Hfit Hnfa Halloc
        Hregion Hub Hused Hfc Hfs Hregv Hfrag
    obtain ⟨hi, hetag, -, -⟩ := tlvIndexFindPos_some ctx.index tag i Hfind
    have hj : j < ctx.index.length := by
      unfold tlvIndexFindFreeSlot at Hfree
      rw [List.findIdx?_eq_some_iff_getElem] at Hfree
      exact Hfree.1
    have hjtag : (ctx.index.getD j IndexEntry.empty).tag = 0 := by
      unfold tlvIndexFindFreeSlot at Hfree
      rw [List.findIdx?_eq_some_iff_getElem] at Hfree
      obtain ⟨h1, h2, -⟩ := Hfree
      rw [List.getD_eq_getElem _ _ h1]
      simpa using h2
    have hij : i ≠ j := by
      intro h
      subst h
      rw [hetag] at hjtag
      exact Htag hjtag
    have hlen : ctx.index.length ≤ 447 := by
      unfold IndexFits at Hfit
      have h1 : (TLV_INDEX_ADDR : Nat) = 512 := by decide
      have h2 : (TLV_DATA_ADDR : Nat) = 4096 := by decide
      omega
    have hocc := occupiedCount_le_length ctx.index
    refine ⟨ctx', Hw, ?_⟩
    rw [htc, hindex,
      occupiedCount_set_new _ j _ (by rw [List.length_set]; exact hj)
        (by rw [getD_set_ne _ _ _ _ _ hij]; exact hjtag) (by simpa using Htag),
      occupiedCount_set_same ctx.index i
        { ctx.index.getD i IndexEntry.empty with flags := TLV_FLAG_DIRTY } hi rfl,
      ← Hcount]
    have hU : U16 = 65536 := by decide
    rw [hU]
    have hmax : (TLV_MAX_TAG_COUNT : Nat) = 256 := by decide
    omega

/-- C3 witness: the fresh-write path on the empty fixture keeps
`tag_count = occupiedCount`. -/
theorem C3_tag_count_occupied_witness :
    ∃ ctx', tlvWrite Port.ideal wSchema wCtx 1 [42] 5 = (TLV_OK, ctx') ∧
      ctx'.header.tag_count = occupiedCount ctx'.index :=
  C3_tag_count_occupied wSchema wCtx 1 [42] 5 wMeta rfl (by decide) (by decide)
    rfl (by decide) (by decide) (by decide)
    (Or.inl ⟨rfl, 0, by decide, rfl, by unfold IndexFits; decide, by decide,
      by decide, by decide, by decide, by decide, by decide⟩)

/-- C3 counterexample to the literal claim: a relocating write over the
`w2` fixture returns success with `tag_count = 2` while only one slot is
live (`tag ≠ 0 ∧ VALID`) — `tag_count` also counts the `DIRTY` slot. -/
theorem C3_tag_count_live_counterexample :
    (tlvWrite Port.ideal wSchema w2Ctx 1 [1, 2, 3, 4, 5, 6, 7, 8] 5).1 = TLV_OK ∧
    (tlvWrite Port.ideal wSchema w2Ctx 1 [1, 2, 3, 4, 5, 6, 7, 8] 5).2.header.tag_count
      = 2 ∧
    liveCount (tlvWrite Port.ideal wSchema w2Ctx 1 [1, 2, 3, 4, 5, 6, 7, 8] 5).2.index
      = 1 := by
  decide

/- ============================ claim C4 ============================ -/

/-- `tlv_index_remove` on a present tag: clear the slot, decrement
`tag_count` (clamped at zero). -/
theorem tlvIndexRemove_found (idx : List IndexEntry) (hdr : Header)
    (tag i : Nat) (Htag : tag ≠ 0)
    (Hfind : tlvIndexFindPos idx tag = some i) :
    tlvIndexRemove idx hdr tag = (TLV_OK, idx.set i IndexEntry.empty,
      { hdr with tag_count :=
          if hdr.tag_count > 0 then hdr.tag_count - 1 else hdr.tag_count }) := by
  unfold tlvIndexRemove
  rw [if_neg Htag, Hfind]

/-- C4 (corrected): `tlv_delete` reduces `used_space` by the freed block's
size but leaves `free_space` untouched — only the allocator maintains
`free_space` — so a state satisfying `used_space + free_space ==
data_region_size` leaves `tlv_delete` with the sum short of the region size
by the freed block, and the claimed invariant does not survive the
operation. -/
theorem C4_delete_space_accounting (ctx : Ctx) (tag now i : Nat)
    (hdr : BlockHeader)
    (Hst : ctx.state = TlvState.initialized)
    (Htag : tag ≠ 0)
    (Hfind : tlvIndexFindPos ctx.index tag = some i)
    (Hoh : framReadBytes ctx.fram ((ctx.index.getD i IndexEntry.empty).data_addr) 14 =
      serializeBlockHeader hdr)
    (Hoh16 : hdr.length < 65536)
    (Hub : TLV_BLOCK_SIZE hdr.length ≤ ctx.header.used_space)
    (Hu32 : ctx.header.used_space < U32)
    (Hsum : ctx.header.used_space + ctx.header.free_space =
      ctx.header.data_region_size) :
    ∃ ctx', tlvDelete Port.ideal ctx tag now = (TLV_OK, ctx') ∧
      ctx'.header.used_space =
        ctx.header.used_space - TLV_BLOCK_SIZE hdr.length ∧
      ctx'.header.free_space = ctx.header.free_space ∧
      ctx'.header.data_region_size = ctx.header.data_region_size ∧
      ctx'.header.used_space + ctx'.header.free_space + TLV_BLOCK_SIZE hdr.length =
        ctx'.header.data_region_size ∧
      ctx'.header.used_space + ctx'.header.free_space ≠
        ctx'.header.data_region_size := by
  have hbs : TLV_BLOCK_SIZE hdr.length = 14 + hdr.length + 2 := rfl
  unfold tlvDelete
  rw [if_neg Htag]
  rw [if_neg (by simp [Hst])]
  rw [Hfind]
  dsimp only
  rw [portRead_ideal _ _ _ (by norm_num)]
  dsimp only
  rw [if_pos rfl]
  rw [Hoh, parse_serialize_length hdr Hoh16]
  rw [tlvIndexRemove_found ctx.index _ tag i Htag Hfind]
  dsimp only
  rw [if_pos rfl]
  obtain ⟨ibs, hibs, Hisave⟩ :=
    tlvIndexSave_ideal_ex ctx.fram (ctx.index.set i IndexEntry.empty)
  rw [Hisave]
  dsimp only
  obtain ⟨c, bs, hlbs, Hhsave⟩ :=
    systemHeaderSave_ideal_ex (framWriteBytes ctx.fram TLV_INDEX_ADDR ibs)
      { magic := (reduceUsedSpace ctx.header (14 + hdr.length + 2)).magic
        version := (reduceUsedSpace ctx.header (14 + hdr.length + 2)).version
        tag_count :=
          if (reduceUsedSpace ctx.header (14 + hdr.length + 2)).tag_count > 0 then
            (reduceUsedSpace ctx.header (14 + hdr.length + 2)).tag_count - 1
          else (reduceUsedSpace ctx.header (14 + hdr.length + 2)).tag_count
        data_region_start :=
          (reduceUsedSpace ctx.header (14 + hdr.length + 2)).data_region_start
        data_region_size :=
          (reduceUsedSpace ctx.header (14 + hdr.length + 2)).data_region_size
        next_free_addr :=
          (reduceUsedSpace ctx.header (14 + hdr.length + 2)).next_free_addr
        total_writes := (reduceUsedSpace ctx.header (14 + hdr.length + 2)).total_writes
        last_update_time := now
        free_space := (reduceUsedSpace ctx.header (14 + hdr.length + 2)).free_space
        used_space := (reduceUsedSpace ctx.header (14 + hdr.length + 2)).used_space
        fragment_count :=
          add32 (reduceUsedSpace ctx.header (14 + hdr.length + 2)).fragment_count 1
        fragment_size :=
          add32 (reduceUsedSpace ctx.header (14 + hdr.length + 2)).fragment_size
            (14 + hdr.length + 2)
        header_crc16 := (reduceUsedSpace ctx.header (14 + hdr.length + 2)).header_crc16 }
  rw [Hhsave]
  dsimp only
  have husd : sub32 ctx.header.used_space (14 + hdr.length + 2) =
      ctx.header.used_space - (14 + hdr.length + 2) :=
    sub32_eq _ _ (by omega) Hu32
  rw [hbs] at Hub
  refine ⟨_, rfl, ?_, rfl, rfl, ?_, ?_⟩
  · show sub32 ctx.header.used_space (14 + hdr.length + 2) = _
    rw [husd, hbs]
  · show sub32 ctx.header.used_space (14 + hdr.length + 2) +
      ctx.header.free_space + TLV_BLOCK_SIZE hdr.length =
      ctx.header.data_region_size
    rw [husd, hbs]
    omega
  · show sub32 ctx.header.used_space (14 + hdr.length + 2) +
      ctx.header.free_space ≠ ctx.header.data_region_size
    rw [husd]
    omega

/-- C4 witness: deleting tag 1 from the `w2` fixture. -/
theorem C4_delete_space_accounting_witness :
    ∃ ctx', tlvDelete Port.ideal w2Ctx 1 9 = (TLV_OK, ctx') ∧
      ctx'.header.used_space =
        w2Ctx.header.used_space - TLV_BLOCK_SIZE w2BlockHdr.length ∧
      ctx'.header.free_space = w2Ctx.header.free_space ∧
      ctx'.header.data_region_size = w2Ctx.header.data_region_size ∧
      ctx'.header.used_space + ctx'.header.free_space +
        TLV_BLOCK_SIZE w2BlockHdr.length = ctx'.header.data_region_size ∧
      ctx'.header.used_space + ctx'.header.free_space ≠
        ctx'.header.data_region_size :=
  C4_delete_space_accounting w2Ctx 1 9 0 w2BlockHdr rfl (by decide) rfl
    (by decide) (by decide) (by decide) (by decide) (by decide)

/-- C4 counterexample to the literal claim: after the successful delete the
header no longer satisfies `used_space + free_space == data_region_size`. -/
theorem C4_delete_space_counterexample :
    (tlvDelete Port.ideal w2Ctx 1 9).1 = TLV_OK ∧
    (tlvDelete Port.ideal w2Ctx 1 9).2.header.used_space +
        (tlvDelete Port.ideal w2Ctx 1 9).2.header.free_space ≠
      (tlvDelete Port.ideal w2Ctx 1 9).2.header.data_region_size := by
  decide

/- ============================ claim C5 ============================ -/

/-- `read_data_block` with a buffer smaller than the stored length: fails
with `TLV_ERROR_NO_BUFFER_MEMORY` and hands back the caller's length
unchanged. -/
theorem readDataBlock_too_small (f : Fram) (addr : Nat) (hdr : BlockHeader)
    (lenIn : Nat)
    (hh : framReadBytes f addr 14 = serializeBlockHeader hdr)
    (h16 : hdr.length < 65536)
    (hlt : lenIn < hdr.length) :
    readDataBlock Port.ideal f addr lenIn = (TLV_ERROR_NO_BUFFER_MEMORY, [], lenIn) := by
  unfold readDataBlock
  rw [portRead_ideal _ _ _ (by norm_num)]
  dsimp only
  rw [if_neg (by norm_num : ¬((TLV_OK : Int) ≠ TLV_OK))]
  rw [hh, parse_serialize_length hdr h16]
  rw [if_pos (by omega : hdr.length > lenIn)]

/-- C5 (corrected): `tlv_read` with a non-zero buffer smaller than the
stored payload fails with `TLV_ERROR_NO_BUFFER_MEMORY` — but hands back the
caller's own length unchanged instead of the required size, so the caller
cannot learn how much to allocate from the call. -/
theorem C5_read_buffer_too_small (schema : List Meta) (ctx : Ctx)
    (tag lenIn now i : Nat) (hdr : BlockHeader) (payload : List Nat)
    (Htag : tag ≠ 0)
    (Hst : ctx.state = TlvState.initialized)
    (Hfind : tlvIndexFindPos ctx.index tag = some i)
    (Hs : StoredBlock ctx.fram ((ctx.index.getD i IndexEntry.empty).data_addr)
      hdr payload)
    (Hpos : 0 < lenIn)
    (Hlt : lenIn < payload.length) :
    tlvRead Port.ideal schema ctx tag lenIn now =
      (TLV_ERROR_NO_BUFFER_MEMORY, [], lenIn, ctx) ∧
    lenIn ≠ payload.length := by
  obtain ⟨hlen, h16, hh, -, -⟩ := Hs
  constructor
  · unfold tlvRead
    rw [if_neg (by simp [Htag]; omega)]
    rw [if_neg (by simp [Hst])]
    rw [Hfind]
    dsimp only
    rw [readDataBlock_too_small ctx.fram _ hdr lenIn hh (by omega) (by omega)]
    dsimp only
    rw [if_pos (by decide : (TLV_ERROR_NO_BUFFER_MEMORY : Int) ≠ TLV_OK)]
  · omega

/-- C5 witness: reading tag 1 (stored length 2) with a 1-byte buffer. -/
theorem C5_read_buffer_too_small_witness :
    tlvRead Port.ideal wSchema w3Ctx 1 1 6 =
      (TLV_ERROR_NO_BUFFER_MEMORY, [], 1, w3Ctx) ∧ (1 : Nat) ≠ 2 := by
  have h := C5_read_buffer_too_small wSchema w3Ctx 1 1 6 0 w3BlockHdr [7, 8]
    (by decide) rfl rfl (by unfold StoredBlock; decide) (by decide) (by decide)
  exact h

/-- C5 counterexample to the literal claim: the failed read reports length 1
(the caller's value), not the required size 2. -/
theorem C5_len_not_set_counterexample :
    (tlvRead Port.ideal wSchema w3Ctx 1 1 6).1 = TLV_ERROR_NO_BUFFER_MEMORY ∧
    (tlvRead Port.ideal wSchema w3Ctx 1 1 6).2.2.1 = 1 ∧
    (tlvRead Port.ideal wSchema w3Ctx 1 1 6).2.2.1 ≠ 2 := by
  decide

/- ============================ claim C6 ============================ -/

/-- `UniqueLiveTag` follows from its bounded restriction when the tag is
non-zero (out-of-range slots read as the empty entry). -/
theorem uniqueLiveTag_of_forall (idx : List IndexEntry) (tag i : Nat)
    (Htag : tag ≠ 0)
    (h : ∀ k, k < idx.length → k ≠ i →
      ¬((idx.getD k IndexEntry.empty).tag = tag ∧
        entryValid (idx.getD k IndexEntry.empty) = true)) :
    UniqueLiveTag idx tag i := by
  intro k hk
  by_cases hlt : k < idx.length
  · exact h k hlt hk
  · rw [List.getD_eq_default _ _ (by omega)]
    rintro ⟨h1, -⟩
    exact Htag (by rw [← h1]; rfl)

/-- C6: placement rule of `tlv_write` over an existing live block.  When the
new block (`14 + len + 2` bytes) is no larger than the old one, the write
lands in place at the entry's `data_addr` and the fragment statistics are
untouched; otherwise a fresh region is allocated at the bump pointer, the
old entry is marked `DIRTY`, the old block's size moves from `used_space`
into `fragment_size`, and `fragment_count` increments by one. -/
theorem C6_write_placement (schema : List Meta) (ctx : Ctx) (tag : Nat)
    (payload : List Nat) (now : Nat) (meta : Meta) (i : Nat) (oldHdr : BlockHeader)
    (Hst : ctx.state = TlvState.initialized)
    (Htag : tag ≠ 0)
    (Hne : payload ≠ [])
    (Hmeta : getMeta schema tag = some meta)
    (Hmax : payload.length ≤ meta.max_length)
    (Hmax16 : meta.max_length < 65536)
    (Hfind : tlvIndexFindPos ctx.index tag = some i)
    (Hoh : framReadBytes ctx.fram ((ctx.index.getD i IndexEntry.empty).data_addr) 14 =
      serializeBlockHeader oldHdr)
    (Hoh16 : oldHdr.length < 65536)
    (Hfit : IndexFits ctx.index)
    (Hub : TLV_BLOCK_SIZE oldHdr.length ≤ ctx.header.used_space)
    (Hused : ctx.header.used_space ≤ ctx.header.next_free_addr - TLV_DATA_ADDR)
    (Hnfa : TLV_DATA_ADDR ≤ ctx.header.next_free_addr)
    (Hregion : TLV_DATA_ADDR + ctx.header.data_region_size ≤ TLV_BACKUP_ADDR)
    (Hbranch :
      (payload.length ≤ oldHdr.length ∧
        TLV_IS_VALID_ADDR ((ctx.index.getD i IndexEntry.empty).data_addr) = true ∧
        ctx.header.next_free_addr ≤ TLV_DATA_ADDR + ctx.header.data_region_size ∧
        0 < ctx.header.data_region_size ∧
        (ctx.header.next_free_addr - TLV_DATA_ADDR -
          (ctx.header.used_space - TLV_BLOCK_SIZE oldHdr.length +
            TLV_BLOCK_SIZE payload.length)) * 100 <
          TLV_AUTO_DEFRAG_THRESHOLD * ctx.header.data_region_size) ∨
      (oldHdr.length < payload.length ∧
        ∃ j, UniqueLiveTag ctx.index tag i ∧
          ctx.header.tag_count < TLV_MAX_TAG_COUNT ∧
          tlvIndexFindFreeSlot ctx.index = some j ∧
          ctx.header.next_free_addr + TLV_BLOCK_SIZE payload.length ≤
            TLV_DATA_ADDR + ctx.header.data_region_size ∧
          ctx.header.fragment_count + 1 < U32 ∧
          ctx.header.fragment_size + TLV_BLOCK_SIZE oldHdr.length < U32 ∧
          isTagRegionValid schema tag ctx.header.next_free_addr
            (meta.max_length + 20) = true ∧
          (ctx.header.next_free_addr - TLV_DATA_ADDR - ctx.header.used_space +
            TLV_BLOCK_SIZE oldHdr.length) * 100 <
            TLV_AUTO_DEFRAG_THRESHOLD * ctx.header.data_region_size)) :
    ∃ ctx', tlvWrite Port.ideal schema ctx tag payload now = (TLV_OK, ctx') ∧
      ((TLV_BLOCK_SIZE payload.length ≤ TLV_BLOCK_SIZE oldHdr.length ∧
        (∃ hdrW, hdrW.length = payload.length ∧
          StoredBlock ctx'.fram ((ctx.index.getD i IndexEntry.empty).data_addr)
            hdrW payload) ∧
        ctx'.header.next_free_addr = ctx.header.next_free_addr ∧
        ctx'.header.used_space = ctx.header.used_space -
          TLV_BLOCK_SIZE oldHdr.length + TLV_BLOCK_SIZE payload.length ∧
        ctx'.header.fragment_count = ctx.header.fragment_count ∧
        ctx'.header.fragment_size = ctx.header.fragment_size) ∨
      (TLV_BLOCK_SIZE oldHdr.length < TLV_BLOCK_SIZE payload.length ∧
        (∃ hdrW, hdrW.length = payload.length ∧
          StoredBlock ctx'.fram ctx.header.next_free_addr hdrW payload) ∧
        ctx'.index.getD i IndexEntry.empty =
          { ctx.index.getD i IndexEntry.empty with flags := TLV_FLAG_DIRTY } ∧
        ctx'.header.next_free_addr =
          ctx.header.next_free_addr + TLV_BLOCK_SIZE payload.length ∧
        ctx'.header.used_space = ctx.header.used_space +
          TLV_BLOCK_SIZE payload.length - TLV_BLOCK_SIZE oldHdr.length ∧
        ctx'.header.fragment_count = ctx.header.fragment_count + 1 ∧
        ctx'.header.fragment_size = ctx.header.fragment_size +
          TLV_BLOCK_SIZE oldHdr.length)) := by
  rcases Hbranch with ⟨Hle, Haddr, Hnfa2, Hreg0, Hfrag⟩ |
    ⟨Hgt, j, Huniq, Hslot, Hfree, Halloc, Hfc, Hfs, Hregv, Hfrag⟩
  · obtain ⟨hdrW, ctx', Hw, -, -, hnfa, huse, -, hfc, hfs, -, -, hwlen, hsb, -⟩ :=
      tlvWrite_inplace_eq schema ctx tag payload now meta i oldHdr Hst Htag Hne
        Hmeta Hmax Hmax16 Hfind Haddr Hoh Hoh16 Hle Hfit Hub Hused Hnfa Hnfa2
        Hregion Hreg0 Hfrag
    exact ⟨ctx', Hw, Or.inl ⟨by unfold TLV_BLOCK_SIZE; omega, ⟨hdrW, hwlen, hsb⟩,
      hnfa, huse, hfc, hfs⟩⟩
  · obtain ⟨hdrW, ctx', Hw, -, hindex, hnfa', huse, -, hfc', hfs', -, -,
        hwlen, hsb, -⟩ :=
      tlvWrite_relocate_eq schema ctx tag payload now meta i j oldHdr Hst Htag Hne
        Hmeta Hmax Hmax16 Hfind Huniq Hoh Hoh16 Hgt Hslot Hfree Hfit Hnfa Halloc
        Hregion Hub Hused Hfc Hfs Hregv Hfrag
    obtain ⟨hi, hetag, -, -⟩ := tlvIndexFindPos_some ctx.index tag i Hfind
    have hj : j < ctx.index.length := by
      unfold tlvIndexFindFreeSlot at Hfree
      rw [List.findIdx?_eq_some_iff_getElem] at Hfree
      exact Hfree.1
    have hjtag : (ctx.index.getD j IndexEntry.empty).tag = 0 := by
      unfold tlvIndexFindFreeSlot at Hfree
      rw [List.findIdx?_eq_some_iff_getElem] at Hfree
      obtain ⟨h1, h2, -⟩ := Hfree
      rw [List.getD_eq_getElem _ _ h1]
      simpa using h2
    have hij : j ≠ i := by
      intro h
      subst h
      rw [hetag] at hjtag
      exact Htag hjtag
    refine ⟨ctx', Hw, Or.inr ⟨by unfold TLV_BLOCK_SIZE; omega,
      ⟨hdrW, hwlen, hsb⟩, ?_, hnfa', huse, hfc', hfs'⟩⟩
    rw [hindex, getD_set_ne _ _ _ _ _ hij, getD_set_eq _ _ _ _ hi]

/-- C6 witness: rewriting tag 1's one-byte value with eight bytes relocates
the block, leaving `fragment_count = 1` and `fragment_size = 17`. -/
theorem C6_write_placement_witness :
    ∃ ctx', tlvWrite Port.ideal wSchema w2Ctx 1 [1, 2, 3, 4, 5, 6, 7, 8] 5 =
        (TLV_OK, ctx') ∧
      ctx'.header.fragment_count = 1 ∧
      ctx'.header.fragment_size = 17 ∧
      entryValid (ctx'.index.getD 0 IndexEntry.empty) = false := by
  obtain ⟨ctx', Hw, hdisj⟩ :=
    C6_write_placement wSchema w2Ctx 1 [1, 2, 3, 4, 5, 6, 7, 8] 5 wMeta 0
      w2BlockHdr rfl (by decide) (by decide) rfl (by decide) (by decide) rfl
      (by decide) (by decide) (by unfold IndexFits; decide) (by decide)
      (by decide) (by decide) (by decide)
      (Or.inr ⟨by decide, 1,
        uniqueLiveTag_of_forall _ 1 0 (by decide) (by decide),
        by decide, rfl, by decide, by decide, by decide, by decide, by decide⟩)
  rcases hdisj with ⟨hcmp, -⟩ | ⟨-, -, hdirty, -, -, hfc, hfs⟩
  · exact absurd hcmp (by decide)
  · refine ⟨ctx', Hw, ?_, ?_, ?_⟩
    · rw [hfc]; decide
    · rw [hfs]; decide
    · rw [hdirty, entryValid_dirty]

/- ============================ claim C9 ============================ -/

/-- C9 (corrected): `reduce_used_space` is an unchecked `uint32_t`
subtraction.  It neither clamps nor asserts: when the subtracted size is at
most `used_space` the result is the exact difference, and when it exceeds
`used_space` the counter wraps modulo `2^32` to a huge value. -/
theorem C9_reduce_used_space_unchecked (hdr : Header) (size : Nat)
    (h2 : hdr.used_space < U32) (h3 : size < U32) :
    (size ≤ hdr.used_space →
      (reduceUsedSpace hdr size).used_space = hdr.used_space - size) ∧
    (hdr.used_space < size →
      (reduceUsedSpace hdr size).used_space = hdr.used_space + U32 - size) := by
  unfold reduceUsedSpace
  dsimp only
  unfold sub32 U32 at *
  constructor <;> intro h <;> omega

/-- C9 witness: subtracting the 17-byte block from the `w2` header is exact;
subtracting it from a zeroed `used_space` wraps to `2^32 - 17`. -/
theorem C9_reduce_used_space_unchecked_witness :
    ((17 ≤ w2Ctx.header.used_space →
        (reduceUsedSpace w2Ctx.header 17).used_space =
          w2Ctx.header.used_space - 17) ∧
      (w2Ctx.header.used_space < 17 →
        (reduceUsedSpace w2Ctx.header 17).used_space =
          w2Ctx.header.used_space + U32 - 17)) ∧
    ((17 ≤ w4Ctx.header.used_space →
        (reduceUsedSpace w4Ctx.header 17).used_space =
          w4Ctx.header.used_space - 17) ∧
      (w4Ctx.header.used_space < 17 →
        (reduceUsedSpace w4Ctx.header 17).used_space =
          w4Ctx.header.used_space + U32 - 17)) :=
  ⟨C9_reduce_used_space_unchecked w2Ctx.header 17 (by decide) (by decide),
   C9_reduce_used_space_unchecked w4Ctx.header 17 (by decide) (by decide)⟩

/-- C9 counterexample to the literal claim: deleting the 17-byte block from
a state with `used_space = 0` succeeds and leaves `used_space = 2^32 - 17` —
the subtraction underflowed with no clamp and no assert. -/
theorem C9_underflow_counterexample :
    (tlvDelete Port.ideal w4Ctx 1 9).1 = TLV_OK ∧
    (tlvDelete Port.ideal w4Ctx 1 9).2.header.used_space = 4294967279 ∧
    (tlvDelete Port.ideal w4Ctx 1 9).2.header.used_space ≠ 0 := by
  decide

/- ============================ claim C10 ============================ -/

/-- C10: reads need no schema entry.  A live index entry whose stored block
is intact is returned as stored even when `get_meta` knows nothing about the
tag: the migration step is skipped and the payload comes back unchanged. -/
theorem C10_read_without_schema (schema : List Meta) (ctx : Ctx)
    (tag lenIn now i : Nat) (hdr : BlockHeader) (payload : List Nat)
    (Htag : tag ≠ 0)
    (Hst : ctx.state = TlvState.initialized)
    (Hnometa : getMeta schema tag = none)
    (Hfind : tlvIndexFindPos ctx.index tag = some i)
    (Hs : StoredBlock ctx.fram ((ctx.index.getD i IndexEntry.empty).data_addr)
      hdr payload)
    (Hne : payload ≠ [])
    (Hcap : payload.length ≤ lenIn) :
    tlvRead Port.ideal schema ctx tag lenIn now =
      (TLV_OK, payload, payload.length, ctx) := by
  apply tlvRead_stored_at schema ctx tag lenIn now i hdr payload Htag Hst Hfind
    Hs Hne Hcap
  intro m hm
  rw [Hnometa] at hm
  cases hm

/-- C10 witness: reading tag 1 against an empty schema returns the stored
byte `[7]`. -/
theorem C10_read_without_schema_witness :
    tlvRead Port.ideal [] w2Ctx 1 8 6 = (TLV_OK, [7], 1, w2Ctx) :=
  C10_read_without_schema [] w2Ctx 1 8 6 0 w2BlockHdr [7] (by decide) rfl rfl
    rfl (by unfold StoredBlock; decide) (by decide) (by decide)

/- ============================ claim C8 ============================ -/

/-- Handle encoding round-trip over the (two-slot) pool, and branded handles
are never the invalid handle. -/
theorem handle_roundtrip (hi : Nat) (h : hi < TLV_MAX_STREAM_HANDLES) :
    handleToIndex (indexToHandle hi) = some hi ∧
    indexToHandle hi ≠ TLV_STREAM_INVALID_HANDLE := by
  have h2 : TLV_MAX_STREAM_HANDLES = 2 := rfl
  rw [h2] at h
  interval_cases hi
  · exact ⟨by decide, by decide⟩
  · exact ⟨by decide, by decide⟩

/-- `validate_and_get_handle` accepts slot `hi`'s own handle while the slot
is a writing session. -/
theorem validateHandle_of (streams : List StreamHandleSlot) (hi : Nat)
    (Hhi : hi < TLV_MAX_STREAM_HANDLES)
    (hm : (streams.getD hi StreamHandleSlot.empty).magic = TLV_STREAM_MAGIC)
    (hs : (streams.getD hi StreamHandleSlot.empty).state = StreamState.writing) :
    validateHandle streams (indexToHandle hi) StreamState.writing = some hi := by
  unfold validateHandle
  rw [(handle_roundtrip hi Hhi).1]
  dsimp only
  rw [if_neg (not_not_intro hm), if_neg (not_not_intro hs)]

/-- One `tlv_write_chunk` call (any chunk, in or out of bounds) preserves the
stream-session invariant. -/
theorem tlvWriteChunk_inv (base : Ctx) (hi target T : Nat) (ctx : Ctx)
    (c : List Nat)
    (Hhi : hi < TLV_MAX_STREAM_HANDLES)
    (Hinv : StreamSessionInv base hi target T ctx) :
    StreamSessionInv base hi target T
      (tlvWriteChunk Port.ideal ctx (indexToHandle hi) c).2 := by
  obtain ⟨h1, h2, h3, h4, h5, h6, h7, h8, h9⟩ := Hinv
  unfold tlvWriteChunk
  by_cases hc : c.length = 0
  · rw [if_pos hc]
    exact ⟨h1, h2, h3, h4, h5, h6, h7, h8, h9⟩
  · rw [if_neg hc]
    rw [validateHandle_of _ _ Hhi h3 h4]
    dsimp only
    by_cases hb : (ctx.streams.getD hi StreamHandleSlot.empty).processed_len +
        c.length > (ctx.streams.getD hi StreamHandleSlot.empty).total_len
    · rw [if_pos hb]
      exact ⟨h1, h2, h3, h4, h5, h6, h7, h8, h9⟩
    · rw [if_neg hb]
      rw [portWrite_ideal _ _ _ (fun h => hc (by rw [h]; rfl))]
      dsimp only
      rw [if_neg (by norm_num : ¬((TLV_OK : Int) ≠ TLV_OK))]
      have hlen : hi < ctx.streams.length := by
        by_contra hx
        rw [List.getD_eq_default _ _ (by omega)] at h3
        exact absurd h3 (by decide)
      refine ⟨h1, h2, ?_, ?_, ?_, ?_, ?_, ?_, ?_⟩
      · show (ctx.streams.set hi _ |>.getD hi StreamHandleSlot.empty).magic = _
        rw [getD_set_eq _ _ _ _ hlen]
        exact h3
      · show (ctx.streams.set hi _ |>.getD hi StreamHandleSlot.empty).state = _
        rw [getD_set_eq _ _ _ _ hlen]
        exact h4
      · show (ctx.streams.set hi _ |>.getD hi StreamHandleSlot.empty).data_addr = _
        rw [getD_set_eq _ _ _ _ hlen]
        exact h5
      · show (ctx.streams.set hi _ |>.getD hi StreamHandleSlot.empty).total_len = _
        rw [getD_set_eq _ _ _ _ hlen]
        exact h6
      · show (ctx.streams.set hi _ |>.getD hi StreamHandleSlot.empty).current_offset = _
        rw [getD_set_eq _ _ _ _ hlen]
        dsimp only
        omega
      · show (ctx.streams.set hi _ |>.getD hi StreamHandleSlot.empty).processed_len ≤ _
        rw [getD_set_eq _ _ _ _ hlen]
        dsimp only
        omega
      · intro x hx
        show framWriteBytes ctx.fram _ c x = base.fram x
        rw [framWriteBytes_ne _ _ _ _ (by
          rcases hx with hx | hx
          · left
            omega
          · right
            omega)]
        exact h9 x hx

/-- Folding any chunk sequence through the session preserves the invariant. -/
theorem writeChunks_inv (base : Ctx) (hi target T : Nat)
    (Hhi : hi < TLV_MAX_STREAM_HANDLES) (chunks : List (List Nat)) (ctx : Ctx)
    (Hinv : StreamSessionInv base hi target T ctx) :
    StreamSessionInv base hi target T
      (writeChunks Port.ideal ctx (indexToHandle hi) chunks) := by
  induction chunks generalizing ctx with
  | nil => exact Hinv
  | cons c cs ih =>
      exact ih _ (tlvWriteChunk_inv base hi target T ctx c Hhi Hinv)

/-- Successful `tlv_write_begin` over an existing live entry whose stored
block is smaller than the announced total: allocate the new block at the
bump pointer and write only its 14-byte header there; the index, the engine
state and every device byte outside `[next_free_addr, next_free_addr + 14)`
are untouched. -/
theorem tlvWriteBegin_relocate_eq (schema : List Meta) (ctx : Ctx)
    (tag total_len now : Nat) (meta : Meta) (i hi : Nat)
    (streams1 : List StreamHandleSlot) (oldHdr : BlockHeader)
    (Hst : ctx.state = TlvState.initialized)
    (Htag : tag ≠ 0)
    (Hlen0 : total_len ≠ 0)
    (Hmeta : getMeta schema tag = some meta)
    (Hmax : total_len ≤ meta.max_length)
    (Hhs : findFreeStreamHandle ctx.streams = some (hi, streams1))
    (Hhilen : hi < streams1.length)
    (Hfind : tlvIndexFindPos ctx.index tag = some i)
    (Hoh : framReadBytes ctx.fram ((ctx.index.getD i IndexEntry.empty).data_addr) 14 =
      serializeBlockHeader oldHdr)
    (Hoh16 : oldHdr.length < 65536)
    (Hgt : oldHdr.length < total_len)
    (Hslot : ctx.header.tag_count < TLV_MAX_TAG_COUNT)
    (Hnfa : TLV_DATA_ADDR ≤ ctx.header.next_free_addr)
    (Halloc : ctx.header.next_free_addr + TLV_BLOCK_SIZE total_len ≤
      TLV_DATA_ADDR + ctx.header.data_region_size) :
    ∃ ctx1, tlvWriteBegin Port.ideal schema ctx tag total_len now =
        (indexToHandle hi, ctx1) ∧
      ctx1.state = ctx.state ∧
      ctx1.index = ctx.index ∧
      (ctx1.streams.getD hi StreamHandleSlot.empty).magic = TLV_STREAM_MAGIC ∧
      (ctx1.streams.getD hi StreamHandleSlot.empty).state = StreamState.writing ∧
      (ctx1.streams.getD hi StreamHandleSlot.empty).data_addr =
        ctx.header.next_free_addr ∧
      (ctx1.streams.getD hi StreamHandleSlot.empty).total_len = total_len ∧
      (ctx1.streams.getD hi StreamHandleSlot.empty).current_offset = 14 ∧
      (ctx1.streams.getD hi StreamHandleSlot.empty).processed_len = 0 ∧
      (∀ x, x < ctx.header.next_free_addr ∨ ctx.header.next_free_addr + 14 ≤ x →
        ctx1.fram x = ctx.fram x) := by
  have hbas : (TLV_DATA_ADDR : Nat) = 4096 := rfl
  have hnb : TLV_BLOCK_SIZE total_len = 14 + total_len + 2 := rfl
  have hob : TLV_BLOCK_SIZE oldHdr.length = 14 + oldHdr.length + 2 := rfl
  unfold tlvWriteBegin
  rw [if_neg (by simp [Htag, Hlen0])]
  rw [if_neg (by simp [Hst])]
  rw [Hmeta]
  dsimp only
  rw [if_neg (by omega : ¬(total_len > meta.max_length))]
  rw [Hhs]
  dsimp only [snapshotCreate]
  rw [Hfind]
  dsimp only
  rw [portRead_ideal _ _ _ (by norm_num)]
  dsimp only
  rw [if_neg (by norm_num : ¬((TLV_OK : Int) ≠ TLV_OK))]
  rw [Hoh, parse_serialize_length oldHdr Hoh16]
  rw [if_neg (by unfold TLV_BLOCK_SIZE; omega :
    ¬(TLV_BLOCK_SIZE total_len ≤ TLV_BLOCK_SIZE oldHdr.length))]
  rw [if_neg (not_not_intro Hslot)]
  unfold allocateSpace
  rw [if_neg (by omega :
    ¬(ctx.header.next_free_addr + TLV_BLOCK_SIZE total_len >
      TLV_DATA_ADDR + ctx.header.data_region_size))]
  dsimp only
  rw [if_neg (by omega : ¬(ctx.header.next_free_addr = 0))]
  dsimp only
  rw [if_neg (show ¬(¬(true = true) ∧ ((some i : Option Nat)).isSome = true) from
    fun h => h.1 rfl)]
  rw [portWrite_ideal _ _ _ (serializeBlockHeader_ne_nil _)]
  dsimp only
  rw [if_neg (by norm_num : ¬((TLV_OK : Int) ≠ TLV_OK))]
  refine ⟨_, rfl, rfl, rfl, ?_, ?_, ?_, ?_, ?_, ?_, ?_⟩
  · show (streams1.set hi _ |>.getD hi StreamHandleSlot.empty).magic = _
    rw [getD_set_eq _ _ _ _ Hhilen]
  · show (streams1.set hi _ |>.getD hi StreamHandleSlot.empty).state = _
    rw [getD_set_eq _ _ _ _ Hhilen]
  · show (streams1.set hi _ |>.getD hi StreamHandleSlot.empty).data_addr = _
    rw [getD_set_eq _ _ _ _ Hhilen]
  · show (streams1.set hi _ |>.getD hi StreamHandleSlot.empty).total_len = _
    rw [getD_set_eq _ _ _ _ Hhilen]
  · show (streams1.set hi _ |>.getD hi StreamHandleSlot.empty).current_offset = _
    rw [getD_set_eq _ _ _ _ Hhilen]
  · show (streams1.set hi _ |>.getD hi StreamHandleSlot.empty).processed_len = _
    rw [getD_set_eq _ _ _ _ Hhilen]
  · intro x hx
    show framWriteBytes ctx.fram ctx.header.next_free_addr _ x = ctx.fram x
    rw [framWriteBytes_ne _ _ _ _ (by
      rw [serializeBlockHeader_length]
      omega)]

/-- C8 (corrected): stream-write isolation holds on the relocation path.
After a successful `tlv_write_begin` that allocates a fresh region for the
tag (announced total larger than the stored block) and any sequence of
`tlv_write_chunk` calls, a `tlv_read` of the tag still returns exactly the
previously committed payload: the new block is invisible and the old block
untouched until `tlv_write_end`.  (The in-place path `total ≤ old` breaks
this — see the counterexample.) -/
theorem C8_stream_write_isolation (schema : List Meta) (ctx : Ctx)
    (tag total_len now now2 lenIn i hi : Nat)
    (streams1 : List StreamHandleSlot) (meta : Meta) (hdr : BlockHeader)
    (payload : List Nat) (chunks : List (List Nat))
    (Hst : ctx.state = TlvState.initialized)
    (Htag : tag ≠ 0)
    (Hlen0 : total_len ≠ 0)
    (Hmeta : getMeta schema tag = some meta)
    (Hmax : total_len ≤ meta.max_length)
    (Hhs : findFreeStreamHandle ctx.streams = some (hi, streams1))
    (Hhilen : hi < streams1.length)
    (Hhi : hi < TLV_MAX_STREAM_HANDLES)
    (Hfind : tlvIndexFindPos ctx.index tag = some i)
    (Hs : StoredBlock ctx.fram ((ctx.index.getD i IndexEntry.empty).data_addr)
      hdr payload)
    (Hne : payload ≠ [])
    (Hcap : payload.length ≤ lenIn)
    (Hgt : payload.length < total_len)
    (Hslot : ctx.header.tag_count < TLV_MAX_TAG_COUNT)
    (Hnfa : TLV_DATA_ADDR ≤ ctx.header.next_free_addr)
    (Halloc : ctx.header.next_free_addr + TLV_BLOCK_SIZE total_len ≤
      TLV_DATA_ADDR + ctx.header.data_region_size)
    (Hdisj : (ctx.index.getD i IndexEntry.empty).data_addr + 16 + payload.length ≤
      ctx.header.next_free_addr)
    (Hver : ∀ m, getMeta schema tag = some m →
      ¬((ctx.index.getD i IndexEntry.empty).version < m.version)) :
    ∃ ctx1, tlvWriteBegin Port.ideal schema ctx tag total_len now =
        (indexToHandle hi, ctx1) ∧
      indexToHandle hi ≠ TLV_STREAM_INVALID_HANDLE ∧
      tlvRead Port.ideal schema
          (writeChunks Port.ideal ctx1 (indexToHandle hi) chunks) tag lenIn now2 =
        (TLV_OK, payload, payload.length,
          writeChunks Port.ideal ctx1 (indexToHandle hi) chunks) := by
  obtain ⟨hlen, hlt16, hh, hp, hcrc⟩ := Hs
  obtain ⟨ctx1, Hb, e_state, e_index, m1, m2, m3, m4, m5, m6, Hframe1⟩ :=
    tlvWriteBegin_relocate_eq schema ctx tag total_len now meta i hi streams1 hdr
      Hst Htag Hlen0 Hmeta Hmax Hhs Hhilen Hfind hh (by omega) (by omega) Hslot
      Hnfa Halloc
  have Hinv0 : StreamSessionInv ctx1 hi ctx.header.next_free_addr total_len ctx1 :=
    ⟨rfl, rfl, m1, m2, m3, m4, by rw [m5, m6], by rw [m6]; omega,
     fun x _ => rfl⟩
  obtain ⟨g1, g2, g3, g4, g5, g6, g7, g8, g9⟩ :=
    writeChunks_inv ctx1 hi ctx.header.next_free_addr total_len Hhi chunks ctx1 Hinv0
  have hidx : (writeChunks Port.ideal ctx1 (indexToHandle hi) chunks).index =
      ctx.index := by rw [g2, e_index]
  refine ⟨ctx1, Hb, (handle_roundtrip hi Hhi).2, ?_⟩
  apply tlvRead_stored_at schema _ tag lenIn now2 i hdr payload Htag
    (by rw [g1, e_state]; exact Hst) (by rw [hidx]; exact Hfind)
  · rw [hidx]
    apply StoredBlock_congr ctx.fram _ _ _ _ ?_
      ⟨hlen, hlt16, hh, hp, hcrc⟩
    intro x hx1 hx2
    have hxlt : x < ctx.header.next_free_addr := by omega
    rw [g9 x (Or.inl hxlt), Hframe1 x (Or.inl hxlt)]
  · exact Hne
  · exact Hcap
  · intro m hm
    rw [hidx]
    exact Hver m hm

/-- C8 witness: a relocating stream session over the `w2` fixture (announced
total 8 > stored 1), with two chunks written, leaves tag 1 readable as the
committed `[7]`. -/
theorem C8_stream_write_isolation_witness :
    ∃ ctx1, tlvWriteBegin Port.ideal wSchema w2Ctx 1 8 99 =
        (indexToHandle 0, ctx1) ∧
      indexToHandle 0 ≠ TLV_STREAM_INVALID_HANDLE ∧
      tlvRead Port.ideal wSchema
          (writeChunks Port.ideal ctx1 (indexToHandle 0) [[1, 2, 3], [4]]) 1 8 100 =
        (TLV_OK, [7], 1,
          writeChunks Port.ideal ctx1 (indexToHandle 0) [[1, 2, 3], [4]]) :=
  C8_stream_write_isolation wSchema w2Ctx 1 8 99 100 8 0 0
    ((List.replicate 2 StreamHandleSlot.empty).set 0
      { StreamHandleSlot.empty with magic := TLV_STREAM_MAGIC })
    wMeta w2BlockHdr [7] [[1, 2, 3], [4]]
    rfl (by decide) (by decide) rfl (by decide) rfl (by decide) (by decide) rfl
    (by unfold StoredBlock; decide) (by decide) (by decide) (by decide)
    (by decide) (by decide) (by decide) (by decide)
    (by
      intro m hm
      have h2 : some wMeta = some m := hm
      cases h2
      decide)

/-- C8 counterexample to the literal claim: on the in-place path (announced
total ≤ stored block) `tlv_write_begin` overwrites the old block's header on
the device at once, so a `tlv_read` issued before `tlv_write_end` no longer
returns the committed data — it fails with `TLV_ERROR_CRC_FAILED`. -/
theorem C8_inplace_stream_counterexample :
    (tlvWriteBegin Port.ideal wSchema w2Ctx 1 1 99).1 ≠
      TLV_STREAM_INVALID_HANDLE ∧
    (tlvRead Port.ideal wSchema w2Ctx 1 8 6).1 = TLV_OK ∧
    (tlvRead Port.ideal wSchema w2Ctx 1 8 6).2.1 = [7] ∧
    (tlvRead Port.ideal wSchema
      (tlvWriteBegin Port.ideal wSchema w2Ctx 1 1 99).2 1 8 6).1 =
      TLV_ERROR_CRC_FAILED := by
  decide

/- ============================ claim C7 ============================ -/

theorem sumTo_shift (g : Nat → Nat) (n : Nat) :
    sumTo g (n + 1) = g 0 + sumTo (fun j => g (j + 1)) n := by
  induction n with
  | zero => simp [sumTo]
  | succ m ih =>
      show sumTo g (m + 1) + g (m + 1) = _
      rw [ih]
      show _ = g 0 + (sumTo (fun j => g (j + 1)) m + g (m + 1))
      omega

/-- Reading `n` bytes at `a` from `f` equals reading at `b` from `g` when
the windows agree pointwise. -/
theorem framReadBytes_shift (f g : Fram) (a b n : Nat)
    (h : ∀ k, k < n → f (a + k) = g (b + k)) :
    framReadBytes f a n = framReadBytes g b n := by
  unfold framReadBytes
  apply List.map_congr_left
  intro i hi
  rw [List.mem_range] at hi
  exact h i hi

/-- A stored block moves with a pointwise window copy. -/
theorem StoredBlock_shift (f g : Fram) (a b : Nat) (hdr : BlockHeader)
    (payload : List Nat)
    (h : ∀ k, k < 16 + payload.length → g (b + k) = f (a + k))
    (hs : StoredBlock f a hdr payload) :
    StoredBlock g b hdr payload := by
  obtain ⟨hlen, hlt, hh, hp, hc⟩ := hs
  refine ⟨hlen, hlt, ?_, ?_, ?_⟩
  · rw [framReadBytes_shift g f b a 14 (fun k hk => h k (by omega)), hh]
  · rw [framReadBytes_shift g f (b + 14) (a + 14) payload.length (fun k hk => by
      have := h (14 + k) (by omega)
      rw [show b + 14 + k = b + (14 + k) by omega, show a + 14 + k = a + (14 + k) by omega]
      exact this), hp]
  · rw [framReadBytes_shift g f (b + 14 + payload.length) (a + 14 + payload.length) 2
      (fun k hk => by
        have := h (14 + payload.length + k) (by omega)
        rw [show b + 14 + payload.length + k = b + (14 + payload.length + k) by omega,
            show a + 14 + payload.length + k = a + (14 + payload.length + k) by omega]
        exact this), hc]

/-- `chunkedCopyAux` under an ideal transport with the copy window below the
source window: succeeds and acts as a downward `memmove`. -/
theorem chunkedCopyAux_down (src dst : Nat) (hle : dst ≤ src) :
    ∀ (fuel remaining offset : Nat) (f : Fram), remaining ≤ fuel →
      chunkedCopyAux Port.ideal src dst fuel f offset remaining =
        (TLV_OK, fun x =>
          if dst + offset ≤ x ∧ x < dst + offset + remaining then
            f (src + (x - dst)) else f x) := by
  intro fuel
  induction fuel with
  | zero =>
      intro remaining offset f hr
      have h0 : remaining = 0 := by omega
      subst h0
      show (TLV_OK, f) = _
      refine congrArg _ (funext fun x => ?_)
      rw [if_neg (by omega)]
  | succ fuel ih =>
      intro remaining offset f hr
      cases remaining with
      | zero =>
          show (if (0 : Nat) = 0 then ((TLV_OK : Int), f) else _) = _
          rw [if_pos rfl]
          refine congrArg _ (funext fun x => ?_)
          rw [if_neg (by omega)]
      | succ r =>
          have hchunk : min TLV_BUFFER_SIZE (r + 1) ≠ 0 := by
            unfold TLV_BUFFER_SIZE
            omega
          have hchunkle : min TLV_BUFFER_SIZE (r + 1) ≤ r + 1 := Nat.min_le_right _ _
          show (if r + 1 = 0 then ((TLV_OK : Int), f) else _) = _
          rw [if_neg (by omega : ¬(r + 1 = 0))]
          show (match portRead Port.ideal f (src + offset)
              (min TLV_BUFFER_SIZE (r + 1)) with
            | (r1, bytes) =>
              if r1 ≠ TLV_OK then (r1, f)
              else
                match portWrite Port.ideal f (dst + offset) bytes with
                | (r2, f2) =>
                  if r2 ≠ TLV_OK then (r2, f2)
                  else chunkedCopyAux Port.ideal src dst fuel f2
                    (offset + min TLV_BUFFER_SIZE (r + 1))
                    (r + 1 - min TLV_BUFFER_SIZE (r + 1))) = _
          rw [portRead_ideal _ _ _ hchunk]
          dsimp only
          rw [if_neg (by norm_num : ¬((TLV_OK : Int) ≠ TLV_OK))]
          rw [portWrite_ideal _ _ _ (by
            intro hnil
            have := framReadBytes_length f (src + offset) (min TLV_BUFFER_SIZE (r + 1))
            rw [hnil] at this
            exact hchunk this.symm)]
          dsimp only
          rw [if_neg (by norm_num : ¬((TLV_OK : Int) ≠ TLV_OK))]
          rw [ih (r + 1 - min TLV_BUFFER_SIZE (r + 1)) (offset + min TLV_BUFFER_SIZE (r + 1)) _
            (by omega)]
          refine congrArg _ (funext fun x => ?_)
          have hblen : (framReadBytes f (src + offset) (min TLV_BUFFER_SIZE (r + 1))).length =
              min TLV_BUFFER_SIZE (r + 1) :=
            framReadBytes_length _ _ _
          by_cases h1 : dst + (offset + min TLV_BUFFER_SIZE (r + 1)) ≤ x ∧
              x < dst + (offset + min TLV_BUFFER_SIZE (r + 1)) +
                (r + 1 - min TLV_BUFFER_SIZE (r + 1))
          · rw [if_pos h1, if_pos (by omega)]
            rw [framWriteBytes_ne _ _ _ _ (by rw [hblen]; right; omega)]
          · rw [if_neg h1]
            by_cases h2 : dst + offset ≤ x ∧ x < dst + offset + min TLV_BUFFER_SIZE (r + 1)
            · rw [if_pos (by omega)]
              rw [framWriteBytes_in _ _ _ _ (by omega) (by rw [hblen]; omega)]
              unfold framReadBytes
              rw [List.getD_range_map _ _
                (by omega : x - (dst + offset) < TLV_BUFFER_SIZE ⊓ (r + 1))]
              refine congrArg f ?_
              omega
            · rw [if_neg (by omega)]
              rw [framWriteBytes_ne _ _ _ _ (by rw [hblen]; omega)]

/-- `chunkedCopy` as a downward `memmove` (ideal transport, `dst ≤ src`). -/
theorem chunkedCopy_down (src dst : Nat) (hle : dst ≤ src)
    (remaining : Nat) (f : Fram) :
    chunkedCopy Port.ideal src dst f 0 remaining =
      (TLV_OK, fun x =>
        if dst ≤ x ∧ x < dst + remaining then f (src + (x - dst)) else f x) := by
  unfold chunkedCopy
  rw [chunkedCopyAux_down src dst hle remaining remaining 0 f (Nat.le_refl _)]
  refine congrArg _ (funext fun x => ?_)
  rw [show dst + 0 = dst from rfl]

/-- `chunkedCopyAux` on an ideal transport: always succeeds, and only the
destination window `[dst + offset, dst + offset + remaining)` changes. -/
theorem chunkedCopyAux_frame (src dst : Nat) :
    ∀ (fuel remaining offset : Nat) (f : Fram), remaining ≤ fuel →
      ∃ f', chunkedCopyAux Port.ideal src dst fuel f offset remaining =
          (TLV_OK, f') ∧
        ∀ x, x < dst + offset ∨ dst + offset + remaining ≤ x → f' x = f x := by
  intro fuel
  induction fuel with
  | zero =>
      intro remaining offset f hr
      have h0 : remaining = 0 := by omega
      subst h0
      exact ⟨f, rfl, fun x _ => rfl⟩
  | succ fuel ih =>
      intro remaining offset f hr
      cases remaining with
      | zero =>
          refine ⟨f, ?_, fun x _ => rfl⟩
          show (if (0 : Nat) = 0 then ((TLV_OK : Int), f) else _) = (TLV_OK, f)
          rw [if_pos rfl]
      | succ r =>
          have hchunk : min TLV_BUFFER_SIZE (r + 1) ≠ 0 := by
            unfold TLV_BUFFER_SIZE
            omega
          show ∃ f', (if r + 1 = 0 then ((TLV_OK : Int), f) else _) = (TLV_OK, f') ∧ _
          rw [if_neg (by omega : ¬(r + 1 = 0))]
          show ∃ f', (match portRead Port.ideal f (src + offset)
              (min TLV_BUFFER_SIZE (r + 1)) with
            | (r1, bytes) =>
              if r1 ≠ TLV_OK then (r1, f)
              else
                match portWrite Port.ideal f (dst + offset) bytes with
                | (r2, f2) =>
                  if r2 ≠ TLV_OK then (r2, f2)
                  else chunkedCopyAux Port.ideal src dst fuel f2
                    (offset + min TLV_BUFFER_SIZE (r + 1))
                    (r + 1 - min TLV_BUFFER_SIZE (r + 1))) = (TLV_OK, f') ∧ _
          rw [portRead_ideal _ _ _ hchunk]
          dsimp only
          rw [if_neg (by norm_num : ¬((TLV_OK : Int) ≠ TLV_OK))]
          rw [portWrite_ideal _ _ _ (by
            intro hnil
            have := framReadBytes_length f (src + offset) (min TLV_BUFFER_SIZE (r + 1))
            rw [hnil] at this
            exact hchunk this.symm)]
          dsimp only
          rw [if_neg (by norm_num : ¬((TLV_OK : Int) ≠ TLV_OK))]
          obtain ⟨f', heq, hframe⟩ := ih (r + 1 - min TLV_BUFFER_SIZE (r + 1))
            (offset + min TLV_BUFFER_SIZE (r + 1))
            (framWriteBytes f (dst + offset)
              (framReadBytes f (src + offset) (min TLV_BUFFER_SIZE (r + 1))))
            (by omega)
          refine ⟨f', heq, fun x hx => ?_⟩
          have hblen : (framReadBytes f (src + offset)
              (min TLV_BUFFER_SIZE (r + 1))).length = min TLV_BUFFER_SIZE (r + 1) :=
            framReadBytes_length _ _ _
          rw [hframe x (by omega)]
          rw [framWriteBytes_ne _ _ _ _ (by rw [hblen]; omega)]

/-- `chunkedCopy` frame property (ideal transport). -/
theorem chunkedCopy_frame (src dst remaining : Nat) (f : Fram) :
    ∃ f', chunkedCopy Port.ideal src dst f 0 remaining = (TLV_OK, f') ∧
      ∀ x, x < dst ∨ dst + remaining ≤ x → f' x = f x := by
  obtain ⟨f', heq, hframe⟩ :=
    chunkedCopyAux_frame src dst remaining remaining 0 f (Nat.le_refl _)
  exact ⟨f', heq, fun x hx => hframe x (by omega)⟩

/-- `tlv_backup_all_internal` on an ideal transport: succeeds and touches
only the backup region. -/
theorem tlvBackupAllInternal_ideal_ex (f : Fram) :
    ∃ f', tlvBackupAllInternal Port.ideal f = (TLV_OK, f') ∧
      ∀ x, x < TLV_BACKUP_ADDR → f' x = f x := by
  obtain ⟨f', heq, hframe⟩ :=
    chunkedCopy_frame TLV_HEADER_ADDR TLV_BACKUP_ADDR TLV_DATA_REGION_SIZE f
  exact ⟨f', heq, fun x hx => hframe x (Or.inl hx)⟩

/-- `getD` into a `take` prefix. -/
theorem getD_take {α : Type} (l : List α) (n k : Nat) (d : α) (hk : k < n) :
    (l.take n).getD k d = l.getD k d := by
  by_cases hl : k < l.length
  · rw [List.getD_eq_getElem _ _ (by rw [List.length_take]; omega),
        List.getD_eq_getElem _ _ hl]
    exact List.getElem_take _
  · rw [List.getD_eq_default _ _ (by rw [List.length_take]; omega),
        List.getD_eq_default _ _ (by omega)]

/-- `getD` into the left part of an append. -/
theorem getD_append_left {α : Type} (a b : List α) (k : Nat) (d : α)
    (hk : k < a.length) :
    (a ++ b).getD k d = a.getD k d := by
  rw [List.getD_eq_getElem _ _ (by rw [List.length_append]; omega),
      List.getD_eq_getElem _ _ hk]
  exact List.getElem_append_left hk

/-- The `takeWhile` prefix has length `n` when the first `n` elements pass
the predicate and the one after (if any) fails it. -/
theorem takeWhile_length_eq {α : Type} (p : α → Bool) (d : α) :
    ∀ (l : List α) (n : Nat), n ≤ l.length →
      (∀ k, k < n → p (l.getD k d) = true) →
      (n < l.length → p (l.getD n d) = false) →
      (l.takeWhile p).length = n := by
  intro l
  induction l with
  | nil =>
      intro n hn _ _
      simp at hn
      simp [hn]
  | cons a t ih =>
      intro n hn h1 h2
      cases n with
      | zero =>
          have := h2 (by simp)
          simp only [List.getD_cons_zero] at this
          simp [List.takeWhile_cons, this]
      | succ m =>
          have ha := h1 0 (by omega)
          simp only [List.getD_cons_zero] at ha
          simp only [List.takeWhile_cons, ha, if_true, List.length_cons]
          rw [ih m (by simpa using hn)
            (fun k hk => by
              have := h1 (k + 1) (by omega)
              simpa using this)
            (fun hm => by
              have := h2 (by simpa using hm)
              simpa using this)]

/-- Clearing the `DIRTY` bit does not affect the `VALID` bit. -/
theorem entryValid_clear_dirty (e : IndexEntry) (a : Nat) :
    entryValid { e with
        data_addr := a
        flags := e.flags &&& (255 - TLV_FLAG_DIRTY) } = entryValid e := by
  unfold entryValid TLV_FLAG_VALID TLV_FLAG_DIRTY
  dsimp only
  rw [Nat.land_assoc]
  rfl

/-- Clearing the `DIRTY` bit in place does not affect the `VALID` bit. -/
theorem entryValid_clear_dirty_inplace (e : IndexEntry) :
    entryValid { e with flags := e.flags &&& (255 - TLV_FLAG_DIRTY) } =
      entryValid e := by
  unfold entryValid TLV_FLAG_VALID TLV_FLAG_DIRTY
  dsimp only
  rw [Nat.land_assoc]
  rfl

/-- The block-moving walk of `tlv_defragment` on an ideal transport: when
every entry is live, its block intact, and the blocks sit at or above the
compaction cursor in walk order, the walk succeeds, repoints every entry to
the packed position, keeps every payload intact, and advances cursor and
total by the sum of the block sizes.  The device below the initial cursor is
untouched. -/
theorem defragWalk_compact :
    ∀ (es : List IndexEntry) (hdrs : Nat → BlockHeader) (pays : Nat → List Nat)
      (wp tu : Nat) (f : Fram),
      (∀ k, k < es.length → (es.getD k IndexEntry.empty).tag ≠ 0 ∧
        entryValid (es.getD k IndexEntry.empty) = true) →
      (∀ k, k < es.length →
        StoredBlock f ((es.getD k IndexEntry.empty).data_addr) (hdrs k) (pays k)) →
      (∀ k, k < es.length →
        wp + sumTo (fun j => 16 + (pays j).length) k ≤
          (es.getD k IndexEntry.empty).data_addr) →
      ∃ es' f',
        defragWalk Port.ideal es wp tu f =
          (TLV_OK, es', wp + sumTo (fun j => 16 + (pays j).length) es.length,
            tu + sumTo (fun j => 16 + (pays j).length) es.length, f') ∧
        es'.length = es.length ∧
        (∀ k, k < es.length →
          (es'.getD k IndexEntry.empty).tag = (es.getD k IndexEntry.empty).tag ∧
          (es'.getD k IndexEntry.empty).version =
            (es.getD k IndexEntry.empty).version ∧
          entryValid (es'.getD k IndexEntry.empty) = true ∧
          (es'.getD k IndexEntry.empty).data_addr =
            wp + sumTo (fun j => 16 + (pays j).length) k ∧
          StoredBlock f' (wp + sumTo (fun j => 16 + (pays j).length) k)
            (hdrs k) (pays k)) ∧
        (∀ x, x < wp → f' x = f x) := by
  intro es
  induction es with
  | nil =>
      intro hdrs pays wp tu f _ _ _
      refine ⟨[], f, rfl, rfl, ?_, fun x _ => rfl⟩
      intro k hk
      exact absurd hk (by simp)
  | cons e rest ih =>
      intro hdrs pays wp tu f Hlive Hstored Hord
      have h0 : e.tag ≠ 0 ∧ entryValid e = true := by
        have := Hlive 0 (by simp)
        simpa using this
      have hs0 : StoredBlock f e.data_addr (hdrs 0) (pays 0) := by
        have := Hstored 0 (by simp)
        simpa using this
      obtain ⟨hlen0, hlt0, hh0, hp0, hc0⟩ := hs0
      have hord0 : wp ≤ e.data_addr := by
        have := Hord 0 (by simp)
        simp only [List.getD_cons_zero] at this
        simpa [sumTo] using this
      have hB : 14 + (hdrs 0).length + 2 = 16 + (pays 0).length := by omega
      unfold defragWalk
      rw [if_neg (by
        rintro (hc | hc)
        · exact h0.1 hc
        · exact hc h0.2)]
      rw [portRead_ideal _ _ _ (by norm_num)]
      dsimp only
      rw [if_neg (by norm_num : ¬((TLV_OK : Int) ≠ TLV_OK))]
      rw [hh0, parse_serialize_length (hdrs 0) (by omega), hB]
      by_cases haddr : e.data_addr = wp
      · -- block already at the cursor
        rw [if_neg (not_not_intro haddr)]
        obtain ⟨rest', f', heq, hlen', hent, hframe⟩ :=
          ih (fun k => hdrs (k + 1)) (fun k => pays (k + 1))
            (wp + (16 + (pays 0).length)) (tu + (16 + (pays 0).length)) f
            (fun k hk => by
              have := Hlive (k + 1) (by simpa using Nat.succ_lt_succ hk)
              simpa using this)
            (fun k hk => by
              have := Hstored (k + 1) (by simpa using Nat.succ_lt_succ hk)
              simpa using this)
            (fun k hk => by
              have := Hord (k + 1) (by simpa using Nat.succ_lt_succ hk)
              simp only [List.getD_cons_succ] at this
              rw [sumTo_shift] at this
              show wp + (16 + (pays 0).length) +
                sumTo (fun j => 16 + (pays (j + 1)).length) k ≤ _
              omega)
        rw [heq]
        dsimp only
        refine ⟨(if (e.flags &&& TLV_FLAG_DIRTY != 0) = true then
            { e with flags := e.flags &&& (255 - TLV_FLAG_DIRTY) } else e) :: rest',
          f', ?_, ?_, ?_, ?_⟩
        · refine congrArg _ ?_
          refine congrArg _ ?_
          have hs := sumTo_shift (fun j => 16 + (pays j).length) rest.length
          refine Prod.ext ?_ (Prod.ext ?_ rfl) <;> dsimp only <;>
            rw [show (fun j => 16 + ((fun k => pays (k + 1)) j).length) =
              (fun j => 16 + (pays (j + 1)).length) from rfl] <;>
            rw [List.length_cons, sumTo_shift] <;> omega
        · simp [hlen']
        · intro k hk
          cases k with
          | zero =>
              simp only [List.getD_cons_zero]
              by_cases hd : ((e.flags &&& TLV_FLAG_DIRTY) != 0) = true
              · rw [if_pos hd]
                refine ⟨rfl, rfl, ?_, ?_, ?_⟩
                · rw [entryValid_clear_dirty_inplace]
                  exact h0.2
                · show e.data_addr = wp + sumTo _ 0
                  rw [haddr]
                  rfl
                · show StoredBlock f' (wp + sumTo _ 0) (hdrs 0) (pays 0)
                  have : wp + sumTo (fun j => 16 + (pays j).length) 0 = wp := rfl
                  rw [this]
                  apply StoredBlock_congr f f' wp _ _ ?_ (haddr ▸ ⟨hlen0, hlt0, hh0, hp0, hc0⟩)
                  intro x hx1 hx2
                  exact (hframe x (by omega)).symm
              · rw [if_neg hd]
                refine ⟨rfl, rfl, h0.2, ?_, ?_⟩
                · show e.data_addr = wp + sumTo _ 0
                  rw [haddr]
                  rfl
                · show StoredBlock f' (wp + sumTo _ 0) (hdrs 0) (pays 0)
                  have : wp + sumTo (fun j => 16 + (pays j).length) 0 = wp := rfl
                  rw [this]
                  apply StoredBlock_congr f f' wp _ _ ?_ (haddr ▸ ⟨hlen0, hlt0, hh0, hp0, hc0⟩)
                  intro x hx1 hx2
                  exact (hframe x (by omega)).symm
          | succ m =>
              have hm : m < rest.length := by simpa using hk
              obtain ⟨e1, e2, e3, e4, e5⟩ := hent m hm
              simp only [List.getD_cons_succ]
              refine ⟨e1, e2, e3, ?_, ?_⟩
              · rw [e4, sumTo_shift]
                omega
              · have harith : wp + (16 + (pays 0).length) +
                    sumTo (fun j => 16 + (pays (j + 1)).length) m =
                    wp + sumTo (fun j => 16 + (pays j).length) (m + 1) := by
                  rw [sumTo_shift]
                  omega
                rw [← harith]
                exact e5
        · intro x hx
          exact hframe x (by omega)
      · -- move the block down to the cursor
        rw [if_pos haddr]
        have hlt : wp < e.data_addr := by omega
        rw [chunkedCopy_down e.data_addr wp (by omega) (16 + (pays 0).length) f]
        dsimp only
        rw [if_neg (by norm_num : ¬((TLV_OK : Int) ≠ TLV_OK))]
        set f2 : Fram := fun x =>
          if wp ≤ x ∧ x < wp + (16 + (pays 0).length) then
            f (e.data_addr + (x - wp)) else f x with hf2
        have hs0' : StoredBlock f2 wp (hdrs 0) (pays 0) := by
          apply StoredBlock_shift f f2 e.data_addr wp _ _ ?_ ⟨hlen0, hlt0, hh0, hp0, hc0⟩
          intro k hk
          rw [hf2]
          dsimp only
          rw [if_pos (by omega)]
          refine congrArg f ?_
          omega
        have hf2above : ∀ x, wp + (16 + (pays 0).length) ≤ x → f2 x = f x := by
          intro x hx
          rw [hf2]
          dsimp only
          rw [if_neg (by omega)]
        have hf2below : ∀ x, x < wp → f2 x = f x := by
          intro x hx
          rw [hf2]
          dsimp only
          rw [if_neg (by omega)]
        obtain ⟨rest', f', heq, hlen', hent, hframe⟩ :=
          ih (fun k => hdrs (k + 1)) (fun k => pays (k + 1))
            (wp + (16 + (pays 0).length)) (tu + (16 + (pays 0).length)) f2
            (fun k hk => by
              have := Hlive (k + 1) (by simpa using Nat.succ_lt_succ hk)
              simpa using this)
            (fun k hk => by
              have hst := Hstored (k + 1) (by simpa using Nat.succ_lt_succ hk)
              simp only [List.getD_cons_succ] at hst
              have hob := Hord (k + 1) (by simpa using Nat.succ_lt_succ hk)
              simp only [List.getD_cons_succ] at hob
              rw [sumTo_shift] at hob
              apply StoredBlock_congr f f2 _ _ _ ?_ hst
              intro x hx1 hx2
              exact (hf2above x (by omega)).symm)
            (fun k hk => by
              have := Hord (k + 1) (by simpa using Nat.succ_lt_succ hk)
              simp only [List.getD_cons_succ] at this
              rw [sumTo_shift] at this
              show wp + (16 + (pays 0).length) +
                sumTo (fun j => 16 + (pays (j + 1)).length) k ≤ _
              omega)
        rw [heq]
        dsimp only
        refine ⟨{ e with
            data_addr := wp
            flags := e.flags &&& (255 - TLV_FLAG_DIRTY) } :: rest',
          f', ?_, ?_, ?_, ?_⟩
        · refine congrArg _ ?_
          refine congrArg _ ?_
          refine Prod.ext ?_ (Prod.ext ?_ rfl) <;> dsimp only <;>
            rw [show (fun j => 16 + ((fun k => pays (k + 1)) j).length) =
              (fun j => 16 + (pays (j + 1)).length) from rfl] <;>
            rw [List.length_cons, sumTo_shift] <;> omega
        · simp [hlen']
        · intro k hk
          cases k with
          | zero =>
              refine ⟨rfl, rfl, ?_, rfl, ?_⟩
              · show entryValid { e with
                    data_addr := wp
                    flags := e.flags &&& (255 - TLV_FLAG_DIRTY) } = true
                rw [entryValid_clear_dirty]
                exact h0.2
              · show StoredBlock f' (wp + sumTo _ 0) (hdrs 0) (pays 0)
                have hz : wp + sumTo (fun j => 16 + (pays j).length) 0 = wp := rfl
                rw [hz]
                apply StoredBlock_congr f2 f' wp _ _ ?_ hs0'
                intro x hx1 hx2
                exact (hframe x (by omega)).symm
          | succ m =>
              have hm : m < rest.length := by simpa using hk
              obtain ⟨e1, e2, e3, e4, e5⟩ := hent m hm
              simp only [List.getD_cons_succ]
              refine ⟨e1, e2, e3, ?_, ?_⟩
              · rw [e4, sumTo_shift]
                omega
              · have harith : wp + (16 + (pays 0).length) +
                    sumTo (fun j => 16 + (pays (j + 1)).length) m =
                    wp + sumTo (fun j => 16 + (pays j).length) (m + 1) := by
                  rw [sumTo_shift]
                  omega
                rw [← harith]
                exact e5
        · intro x hx
          rw [hframe x (by omega)]
          exact hf2below x hx

/-- The non-empty branch of `tlv_defragment` on an ideal transport, given
the back-up result and the walk result: persists the walked index and the
rebuilt header and touches no data-region byte beyond what the walk wrote. -/
theorem tlvDefragment_nonzero_eq (ctx : Ctx) (fb : Fram)
    (es' : List IndexEntry) (wp' tu' : Nat) (fw : Fram)
    (Hst : ctx.state = TlvState.initialized)
    (Hlv0 : (ctx.index.filter (fun e => e.tag != 0 && entryValid e)).length ≠ 0)
    (Hb1 : tlvBackupAllInternal Port.ideal ctx.fram = (TLV_OK, fb))
    (Hwalk : defragWalk Port.ideal
        ((sortIndexTable ctx.index).take
          ((sortIndexTable ctx.index).takeWhile
            (fun e => e.tag != 0 && entryValid e)).length)
        TLV_DATA_ADDR 0 fb = (TLV_OK, es', wp', tu', fw))
    (Hfit2 : TLV_INDEX_ADDR + (8 * (es' ++ (sortIndexTable ctx.index).drop
        ((sortIndexTable ctx.index).takeWhile
          (fun e => e.tag != 0 && entryValid e)).length).length + 2) ≤
        TLV_DATA_ADDR)
    (Htu : tu' ≤ TLV_BACKUP_ADDR - TLV_DATA_ADDR) :
    ∃ ctx', tlvDefragment Port.ideal ctx = (TLV_OK, ctx') ∧
      ctx'.state = ctx.state ∧
      ctx'.index = es' ++ (sortIndexTable ctx.index).drop
        ((sortIndexTable ctx.index).takeWhile
          (fun e => e.tag != 0 && entryValid e)).length ∧
      ctx'.header.next_free_addr = wp' ∧
      ctx'.header.used_space = tu' ∧
      ctx'.header.free_space = TLV_BACKUP_ADDR - TLV_DATA_ADDR - tu' ∧
      ctx'.header.fragment_count = 0 ∧
      ctx'.header.fragment_size = 0 ∧
      ctx'.header.tag_count = ((sortIndexTable ctx.index).takeWhile
        (fun e => e.tag != 0 && entryValid e)).length ∧
      ctx'.header.data_region_size = TLV_BACKUP_ADDR - TLV_DATA_ADDR ∧
      (∀ x, TLV_DATA_ADDR ≤ x → x < TLV_BACKUP_ADDR → ctx'.fram x = fw x) := by
  have hbas : (TLV_DATA_ADDR : Nat) = 4096 := by decide
  have hidx : (TLV_INDEX_ADDR : Nat) = 512 := by decide
  have hbk : (TLV_BACKUP_ADDR : Nat) = 126976 := by decide
  unfold tlvDefragment
  rw [if_neg (by simp [Hst])]
  rw [if_neg Hlv0]
  dsimp only
  rw [Hb1]
  dsimp only
  rw [if_neg (by norm_num : ¬((TLV_OK : Int) ≠ TLV_OK))]
  rw [Hwalk]
  dsimp only
  rw [if_neg (by norm_num : ¬((TLV_OK : Int) ≠ TLV_OK))]
  rw [tlvIndexSave_ideal]
  dsimp only
  rw [if_neg (by norm_num : ¬((TLV_OK : Int) ≠ TLV_OK))]
  obtain ⟨c, hbs, hlbs, Hhsave⟩ :=
    systemHeaderSave_ideal_ex
      (framWriteBytes fw TLV_INDEX_ADDR
        (serializeIndexTable (es' ++ (sortIndexTable ctx.index).drop
          ((sortIndexTable ctx.index).takeWhile
            (fun e => e.tag != 0 && entryValid e)).length)))
      { ctx.header with
          data_region_start := TLV_DATA_ADDR
          data_region_size := TLV_BACKUP_ADDR - TLV_DATA_ADDR
          tag_count := ((sortIndexTable ctx.index).takeWhile
            (fun e => e.tag != 0 && entryValid e)).length
          next_free_addr := wp'
          free_space := if TLV_BACKUP_ADDR - TLV_DATA_ADDR > tu' then
            TLV_BACKUP_ADDR - TLV_DATA_ADDR - tu' else 0
          used_space := tu'
          fragment_count := 0
          fragment_size := 0 }
  rw [Hhsave]
  dsimp only
  rw [if_neg (by norm_num : ¬((TLV_OK : Int) ≠ TLV_OK))]
  obtain ⟨f5, Hb2, Hb2f⟩ :=
    tlvBackupAllInternal_ideal_ex
      (framWriteBytes
        (framWriteBytes fw TLV_INDEX_ADDR
          (serializeIndexTable (es' ++ (sortIndexTable ctx.index).drop
            ((sortIndexTable ctx.index).takeWhile
              (fun e => e.tag != 0 && entryValid e)).length)))
        TLV_HEADER_ADDR hbs)
  rw [Hb2]
  refine ⟨_, rfl, rfl, rfl, rfl, rfl, ?_, rfl, rfl, rfl, rfl, ?_⟩
  · show (if TLV_BACKUP_ADDR - TLV_DATA_ADDR > tu' then
      TLV_BACKUP_ADDR - TLV_DATA_ADDR - tu' else 0) = _
    by_cases h : TLV_BACKUP_ADDR - TLV_DATA_ADDR > tu'
    · rw [if_pos h]
    · rw [if_neg h]
      omega
  · intro x hx1 hx2
    show f5 x = fw x
    rw [Hb2f x (by omega)]
    rw [framWriteBytes_ne _ _ _ _ (by
      rw [hlbs]
      right
      show TLV_HEADER_ADDR + 256 ≤ x
      have : (TLV_HEADER_ADDR : Nat) = 0 := by decide
      omega)]
    rw [framWriteBytes_ne _ _ _ _ (by
      rw [serializeIndexTable_length]
      right
      omega)]

theorem sumTo_mono (g : Nat → Nat) {n m : Nat} (h : n ≤ m) :
    sumTo g n ≤ sumTo g m := by
  induction m with
  | zero =>
      have h0 : n = 0 := by omega
      subst h0
      exact Nat.le_refl _
  | succ p ih =>
      by_cases hp : n = p + 1
      · subst hp
        exact Nat.le_refl _
      · have := ih (by omega)
        show _ ≤ sumTo g p + g p
        omega

/-- C7 (corrected): after a successful `tlv_defragment` over an index whose
sorted table has `1 ≤ live < MAX_TAGS` live entries pointing (in table
order) at intact, in-order, pairwise-disjoint blocks in the data region, the
header reads `next_free_addr = DATA + Σ sizes`, `used_space = Σ sizes`,
`free_space = region − Σ sizes`, `fragment_count = fragment_size = 0` and
`tag_count = live`, and the live blocks sit contiguously from `TLV_DATA_ADDR`
in sorted-index order with their payloads intact.  (With a completely full
index the in-place sort is skipped and the walk can overwrite live blocks —
see the counterexample.) -/
theorem C7_defragment_postcondition (ctx : Ctx) (lv : Nat)
    (hdrs : Nat → BlockHeader) (pays : Nat → List Nat)
    (Hst : ctx.state = TlvState.initialized)
    (Hlv : (ctx.index.filter (fun e => e.tag != 0 && entryValid e)).length = lv)
    (Hlv1 : 1 ≤ lv)
    (Hlen1 : lv ≤ (sortIndexTable ctx.index).length)
    (Hlive : ∀ k, k < lv →
      ((sortIndexTable ctx.index).getD k IndexEntry.empty).tag ≠ 0 ∧
      entryValid ((sortIndexTable ctx.index).getD k IndexEntry.empty) = true)
    (Hdead : lv < (sortIndexTable ctx.index).length →
      ((sortIndexTable ctx.index).getD lv IndexEntry.empty).tag = 0)
    (Hfit : TLV_INDEX_ADDR + (8 * (sortIndexTable ctx.index).length + 2) ≤
      TLV_DATA_ADDR)
    (Hstored : ∀ k, k < lv →
      StoredBlock ctx.fram
        (((sortIndexTable ctx.index).getD k IndexEntry.empty).data_addr)
        (hdrs k) (pays k))
    (Hord : ∀ k, k < lv →
      TLV_DATA_ADDR + sumTo (fun j => 16 + (pays j).length) k ≤
        ((sortIndexTable ctx.index).getD k IndexEntry.empty).data_addr)
    (Hblk : ∀ k, k < lv →
      ((sortIndexTable ctx.index).getD k IndexEntry.empty).data_addr + 16 +
        (pays k).length ≤ TLV_BACKUP_ADDR)
    (HS : TLV_DATA_ADDR + sumTo (fun j => 16 + (pays j).length) lv ≤
      TLV_BACKUP_ADDR) :
    ∃ ctx', tlvDefragment Port.ideal ctx = (TLV_OK, ctx') ∧
      ctx'.header.next_free_addr =
        TLV_DATA_ADDR + sumTo (fun j => 16 + (pays j).length) lv ∧
      ctx'.header.used_space = sumTo (fun j => 16 + (pays j).length) lv ∧
      ctx'.header.free_space = (TLV_BACKUP_ADDR - TLV_DATA_ADDR) -
        sumTo (fun j => 16 + (pays j).length) lv ∧
      ctx'.header.fragment_count = 0 ∧
      ctx'.header.fragment_size = 0 ∧
      ctx'.header.tag_count = lv ∧
      ctx'.header.data_region_size = TLV_BACKUP_ADDR - TLV_DATA_ADDR ∧
      (∀ k, k < lv →
        (ctx'.index.getD k IndexEntry.empty).tag =
          ((sortIndexTable ctx.index).getD k IndexEntry.empty).tag ∧
        entryValid (ctx'.index.getD k IndexEntry.empty) = true ∧
        (ctx'.index.getD k IndexEntry.empty).data_addr =
          TLV_DATA_ADDR + sumTo (fun j => 16 + (pays j).length) k ∧
        StoredBlock ctx'.fram
          (TLV_DATA_ADDR + sumTo (fun j => 16 + (pays j).length) k)
          (hdrs k) (pays k)) := by
  have hbas : (TLV_DATA_ADDR : Nat) = 4096 := by decide
  have hbk : (TLV_BACKUP_ADDR : Nat) = 126976 := by decide
  obtain ⟨fb, Hb1, Hb1f⟩ := tlvBackupAllInternal_ideal_ex ctx.fram
  have htk : ((sortIndexTable ctx.index).takeWhile
      (fun e => e.tag != 0 && entryValid e)).length = lv := by
    apply takeWhile_length_eq _ IndexEntry.empty _ lv Hlen1
    · intro k hk
      obtain ⟨h1, h2⟩ := Hlive k hk
      simp only [Bool.and_eq_true, bne_iff_ne, ne_eq]
      exact ⟨h1, h2⟩
    · intro h
      have h0 := Hdead h
      show (((sortIndexTable ctx.index).getD lv IndexEntry.empty).tag != 0 &&
        entryValid ((sortIndexTable ctx.index).getD lv IndexEntry.empty)) = false
      rw [h0]
      rfl
  have hlen_take : ((sortIndexTable ctx.index).take lv).length = lv := by
    rw [List.length_take]
    omega
  obtain ⟨es', fw, Hwalk0, hlen', hent, hfrm⟩ :=
    defragWalk_compact ((sortIndexTable ctx.index).take lv) hdrs pays
      TLV_DATA_ADDR 0 fb
      (fun k hk => by
        rw [hlen_take] at hk
        rw [getD_take _ _ _ _ hk]
        exact Hlive k hk)
      (fun k hk => by
        rw [hlen_take] at hk
        rw [getD_take _ _ _ _ hk]
        apply StoredBlock_congr ctx.fram fb _ _ _ ?_ (Hstored k hk)
        intro x hx1 hx2
        have := Hblk k hk
        exact (Hb1f x (by omega)).symm)
      (fun k hk => by
        rw [hlen_take] at hk
        rw [getD_take _ _ _ _ hk]
        exact Hord k hk)
  rw [hlen_take] at Hwalk0
  have Hwalk1 : defragWalk Port.ideal
      ((sortIndexTable ctx.index).take
        ((sortIndexTable ctx.index).takeWhile
          (fun e => e.tag != 0 && entryValid e)).length)
      TLV_DATA_ADDR 0 fb =
      (TLV_OK, es', TLV_DATA_ADDR + sumTo (fun j => 16 + (pays j).length) lv,
        0 + sumTo (fun j => 16 + (pays j).length) lv, fw) := by
    rw [htk]
    exact Hwalk0
  have hlv' : es'.length = lv := by
    rw [hlen', hlen_take]
  obtain ⟨ctx', Heq, e_st, e_idx, e_nfa, e_us, e_fs, e_fc, e_fz, e_tc, e_drs,
      Hframe⟩ :=
    tlvDefragment_nonzero_eq ctx fb es'
      (TLV_DATA_ADDR + sumTo (fun j => 16 + (pays j).length) lv)
      (0 + sumTo (fun j => 16 + (pays j).length) lv) fw Hst
      (by rw [Hlv]; omega) Hb1 Hwalk1
      (by
        rw [List.length_append, hlv', List.length_drop, htk]
        omega)
      (by omega)
  refine ⟨ctx', Heq, ?_, ?_, ?_, e_fc, e_fz, ?_, e_drs, ?_⟩
  · rw [e_nfa]
  · rw [e_us]
    omega
  · rw [e_fs]
    omega
  · rw [e_tc, htk]
  · intro k hk
    have hk' : k < ((sortIndexTable ctx.index).take lv).length := by omega
    obtain ⟨g1, g2, g3, g4, g5⟩ := hent k hk'
    rw [getD_take _ _ _ _ hk] at g1
    have hgetd : ctx'.index.getD k IndexEntry.empty =
        es'.getD k IndexEntry.empty := by
      rw [e_idx]
      exact getD_append_left _ _ _ _ (by omega)
    refine ⟨?_, ?_, ?_, ?_⟩
    · rw [hgetd, g1]
    · rw [hgetd]
      exact g3
    · rw [hgetd, g4]
    · have hmono : sumTo (fun j => 16 + (pays j).length) (k + 1) ≤
          sumTo (fun j => 16 + (pays j).length) lv :=
        sumTo_mono _ (by omega)
      have hstep : sumTo (fun j => 16 + (pays j).length) (k + 1) =
          sumTo (fun j => 16 + (pays j).length) k + (16 + (pays k).length) := rfl
      apply StoredBlock_congr fw ctx'.fram _ _ _ ?_ g5
      intro x hx1 hx2
      exact (Hframe x (by omega) (by omega)).symm

/-- C7 witness: defragmenting the `w2` fixture (one live 17-byte block
already at the base of the data region). -/
theorem C7_defragment_postcondition_witness :
    ∃ ctx', tlvDefragment Port.ideal w2Ctx = (TLV_OK, ctx') ∧
      ctx'.header.next_free_addr = 4113 ∧
      ctx'.header.used_space = 17 ∧
      ctx'.header.free_space = 122880 - 17 ∧
      ctx'.header.fragment_count = 0 ∧
      ctx'.header.fragment_size = 0 ∧
      ctx'.header.tag_count = 1 := by
  obtain ⟨ctx', Heq, hnfa, hus, hfs, hfc, hfz, htc, hdrs, hent⟩ :=
    C7_defragment_postcondition w2Ctx 1 (fun _ => w2BlockHdr) (fun _ => [7])
      rfl (by decide) (by decide) (by decide) (by decide) (by decide)
      (by decide)
      (by
        intro k hk
        interval_cases k
        show StoredBlock w2Ctx.fram 4096 w2BlockHdr [7]
        unfold StoredBlock
        decide)
      (by decide) (by decide) (by decide)
  refine ⟨ctx', Heq, ?_, ?_, ?_, hfc, hfz, ?_⟩
  · rw [hnfa]
    decide
  · rw [hus]
    decide
  · rw [hfs]
    decide
  · rw [htc]

/-- C7 counterexample to the "including a completely full index" part: with
`MAX_TAGS` live entries the in-place sort is skipped, the walk runs over the
unsorted table, and relocating the out-of-order blocks overwrites live data:
after the successful defragment the entry for tag 2 points at a block whose
stored header carries tag 1. -/
theorem C7_full_index_clobber :
    ∃ ctx', tlvDefragment Port.ideal cxCtx = (TLV_OK, ctx') ∧
      liveCount cxCtx.index = TLV_MAX_TAG_COUNT ∧
      (ctx'.index.getD 1 IndexEntry.empty).tag = 2 ∧
      (parseBlockHeader (framReadBytes ctx'.fram
        ((ctx'.index.getD 1 IndexEntry.empty).data_addr) 14)).tag = 1 := by
  have hb1stat : (tlvBackupAllInternal Port.ideal cxCtx.fram).1 = TLV_OK := by
    decide
  have hb1 : tlvBackupAllInternal Port.ideal cxCtx.fram = (TLV_OK, cxFb) := by
    rw [← hb1stat]
    exact Prod.mk.eta.symm
  have hwstat : cxWalk.1 = TLV_OK := by decide
  have hwwp : cxWalk.2.2.1 = 8448 := by decide
  have hwtu : cxWalk.2.2.2.1 = 4352 := by decide
  have hw : defragWalk Port.ideal
      ((sortIndexTable cxCtx.index).take
        ((sortIndexTable cxCtx.index).takeWhile
          (fun e => e.tag != 0 && entryValid e)).length)
      TLV_DATA_ADDR 0 cxFb =
      (TLV_OK, cxWalk.2.1, 8448, 4352, cxWalk.2.2.2.2) :=
    Prod.ext hwstat (Prod.ext rfl (Prod.ext hwwp (Prod.ext hwtu rfl)))
  have hlen1 : (cxWalk.2.1).length = 256 := by decide
  have hdrop : ((sortIndexTable cxCtx.index).drop
      ((sortIndexTable cxCtx.index).takeWhile
        (fun e => e.tag != 0 && entryValid e)).length).length = 0 := by decide
  obtain ⟨ctx', Heq, e_st, e_idx, e_nfa, e_us, e_fs, e_fc, e_fz, e_tc, e_drs,
      Hframe⟩ :=
    tlvDefragment_nonzero_eq cxCtx cxFb cxWalk.2.1 8448 4352 cxWalk.2.2.2.2
      rfl (by decide) hb1 hw
      (by
        rw [List.length_append, hlen1, hdrop]
        decide)
      (by decide)
  have htag : (cxWalk.2.1.getD 1 IndexEntry.empty).tag = 2 := by decide
  have haddr : (cxWalk.2.1.getD 1 IndexEntry.empty).data_addr = 4113 := by decide
  have hgd : ctx'.index.getD 1 IndexEntry.empty =
      cxWalk.2.1.getD 1 IndexEntry.empty := by
    rw [e_idx]
    exact getD_append_left _ _ _ _ (by rw [hlen1]; omega)
  refine ⟨ctx', Heq, by decide, ?_, ?_⟩
  · rw [hgd]
    exact htag
  · rw [hgd, haddr]
    have hrd : framReadBytes ctx'.fram 4113 14 =
        framReadBytes cxWalk.2.2.2.2 4113 14 := by
      apply framReadBytes_congr
      intro x hx1 hx2
      have h1 : (TLV_DATA_ADDR : Nat) = 4096 := by decide
      have h2 : (TLV_BACKUP_ADDR : Nat) = 126976 := by decide
      exact Hframe x (by omega) (by omega)
    rw [hrd]
    decide

end TlvFram
